import Mathlib

/-! # HALFLOOP-24 and the key-recovery search of `halfloop.c`

A shallow embedding of `src/halfloop.c`.  Machine words (`u8`, `u32`, `u64`,
`u128`) are natural numbers; a conversion to `u8` is `% 256`, a conversion to
`u32` is `% 2 ^ 32`.  Arrays are lists read with `List.getD`.  The process-wide
lookup tables written by `generate_tables` are the record `Tables`, passed
explicitly to every function that reads them.
-/

namespace Halfloop


/-! ## The cipher -/

/-- The S-box `SBOX[256]`. -/
def SBOX : List Nat :=
  [
   0x63, 0x7c, 0x77, 0x7b, 0xf2, 0x6b, 0x6f, 0xc5, 0x30, 0x01, 0x67, 0x2b, 0xfe, 0xd7, 0xab, 0x76,
   0xca, 0x82, 0xc9, 0x7d, 0xfa, 0x59, 0x47, 0xf0, 0xad, 0xd4, 0xa2, 0xaf, 0x9c, 0xa4, 0x72, 0xc0,
   0xb7, 0xfd, 0x93, 0x26, 0x36, 0x3f, 0xf7, 0xcc, 0x34, 0xa5, 0xe5, 0xf1, 0x71, 0xd8, 0x31, 0x15,
   0x04, 0xc7, 0x23, 0xc3, 0x18, 0x96, 0x05, 0x9a, 0x07, 0x12, 0x80, 0xe2, 0xeb, 0x27, 0xb2, 0x75,
   0x09, 0x83, 0x2c, 0x1a, 0x1b, 0x6e, 0x5a, 0xa0, 0x52, 0x3b, 0xd6, 0xb3, 0x29, 0xe3, 0x2f, 0x84,
   0x53, 0xd1, 0x00, 0xed, 0x20, 0xfc, 0xb1, 0x5b, 0x6a, 0xcb, 0xbe, 0x39, 0x4a, 0x4c, 0x58, 0xcf,
   0xd0, 0xef, 0xaa, 0xfb, 0x43, 0x4d, 0x33, 0x85, 0x45, 0xf9, 0x02, 0x7f, 0x50, 0x3c, 0x9f, 0xa8,
   0x51, 0xa3, 0x40, 0x8f, 0x92, 0x9d, 0x38, 0xf5, 0xbc, 0xb6, 0xda, 0x21, 0x10, 0xff, 0xf3, 0xd2,
   0xcd, 0x0c, 0x13, 0xec, 0x5f, 0x97, 0x44, 0x17, 0xc4, 0xa7, 0x7e, 0x3d, 0x64, 0x5d, 0x19, 0x73,
   0x60, 0x81, 0x4f, 0xdc, 0x22, 0x2a, 0x90, 0x88, 0x46, 0xee, 0xb8, 0x14, 0xde, 0x5e, 0x0b, 0xdb,
   0xe0, 0x32, 0x3a, 0x0a, 0x49, 0x06, 0x24, 0x5c, 0xc2, 0xd3, 0xac, 0x62, 0x91, 0x95, 0xe4, 0x79,
   0xe7, 0xc8, 0x37, 0x6d, 0x8d, 0xd5, 0x4e, 0xa9, 0x6c, 0x56, 0xf4, 0xea, 0x65, 0x7a, 0xae, 0x08,
   0xba, 0x78, 0x25, 0x2e, 0x1c, 0xa6, 0xb4, 0xc6, 0xe8, 0xdd, 0x74, 0x1f, 0x4b, 0xbd, 0x8b, 0x8a,
   0x70, 0x3e, 0xb5, 0x66, 0x48, 0x03, 0xf6, 0x0e, 0x61, 0x35, 0x57, 0xb9, 0x86, 0xc1, 0x1d, 0x9e,
   0xe1, 0xf8, 0x98, 0x11, 0x69, 0xd9, 0x8e, 0x94, 0x9b, 0x1e, 0x87, 0xe9, 0xce, 0x55, 0x28, 0xdf,
   0x8c, 0xa1, 0x89, 0x0d, 0xbf, 0xe6, 0x42, 0x68, 0x41, 0x99, 0x2d, 0x0f, 0xb0, 0x54, 0xbb, 0x16]

/-- The inverse S-box `inv_SBOX[256]`. -/
def inv_SBOX : List Nat :=
  [
   0x52, 0x09, 0x6a, 0xd5, 0x30, 0x36, 0xa5, 0x38, 0xbf, 0x40, 0xa3, 0x9e, 0x81, 0xf3, 0xd7, 0xfb,
   0x7c, 0xe3, 0x39, 0x82, 0x9b, 0x2f, 0xff, 0x87, 0x34, 0x8e, 0x43, 0x44, 0xc4, 0xde, 0xe9, 0xcb,
   0x54, 0x7b, 0x94, 0x32, 0xa6, 0xc2, 0x23, 0x3d, 0xee, 0x4c, 0x95, 0x0b, 0x42, 0xfa, 0xc3, 0x4e,
   0x08, 0x2e, 0xa1, 0x66, 0x28, 0xd9, 0x24, 0xb2, 0x76, 0x5b, 0xa2, 0x49, 0x6d, 0x8b, 0xd1, 0x25,
   0x72, 0xf8, 0xf6, 0x64, 0x86, 0x68, 0x98, 0x16, 0xd4, 0xa4, 0x5c, 0xcc, 0x5d, 0x65, 0xb6, 0x92,
   0x6c, 0x70, 0x48, 0x50, 0xfd, 0xed, 0xb9, 0xda, 0x5e, 0x15, 0x46, 0x57, 0xa7, 0x8d, 0x9d, 0x84,
   0x90, 0xd8, 0xab, 0x00, 0x8c, 0xbc, 0xd3, 0x0a, 0xf7, 0xe4, 0x58, 0x05, 0xb8, 0xb3, 0x45, 0x06,
   0xd0, 0x2c, 0x1e, 0x8f, 0xca, 0x3f, 0x0f, 0x02, 0xc1, 0xaf, 0xbd, 0x03, 0x01, 0x13, 0x8a, 0x6b,
   0x3a, 0x91, 0x11, 0x41, 0x4f, 0x67, 0xdc, 0xea, 0x97, 0xf2, 0xcf, 0xce, 0xf0, 0xb4, 0xe6, 0x73,
   0x96, 0xac, 0x74, 0x22, 0xe7, 0xad, 0x35, 0x85, 0xe2, 0xf9, 0x37, 0xe8, 0x1c, 0x75, 0xdf, 0x6e,
   0x47, 0xf1, 0x1a, 0x71, 0x1d, 0x29, 0xc5, 0x89, 0x6f, 0xb7, 0x62, 0x0e, 0xaa, 0x18, 0xbe, 0x1b,
   0xfc, 0x56, 0x3e, 0x4b, 0xc6, 0xd2, 0x79, 0x20, 0x9a, 0xdb, 0xc0, 0xfe, 0x78, 0xcd, 0x5a, 0xf4,
   0x1f, 0xdd, 0xa8, 0x33, 0x88, 0x07, 0xc7, 0x31, 0xb1, 0x12, 0x10, 0x59, 0x27, 0x80, 0xec, 0x5f,
   0x60, 0x51, 0x7f, 0xa9, 0x19, 0xb5, 0x4a, 0x0d, 0x2d, 0xe5, 0x7a, 0x9f, 0x93, 0xc9, 0x9c, 0xef,
   0xa0, 0xe0, 0x3b, 0x4d, 0xae, 0x2a, 0xf5, 0xb0, 0xc8, 0xeb, 0xbb, 0x3c, 0x83, 0x53, 0x99, 0x61,
   0x17, 0x2b, 0x04, 0x7e, 0xba, 0x77, 0xd6, 0x26, 0xe1, 0x69, 0x14, 0x63, 0x55, 0x21, 0x0c, 0x7d]

/-- The function `sub_bytes`: the S-box on each of the three bytes. -/
def sub_bytes (state : Nat) : Nat :=
  let a0 := (state >>> 16) % 256
  let a1 := (state >>> 8) &&& 0xFF
  let a2 := state &&& 0xFF
  (SBOX.getD a0 0 <<< 16) ^^^ (SBOX.getD a1 0 <<< 8) ^^^ SBOX.getD a2 0

/-- The function `inv_sub_bytes`. -/
def inv_sub_bytes (state : Nat) : Nat :=
  let a0 := (state >>> 16) % 256
  let a1 := (state >>> 8) &&& 0xFF
  let a2 := state &&& 0xFF
  (inv_SBOX.getD a0 0 <<< 16) ^^^ (inv_SBOX.getD a1 0 <<< 8) ^^^ inv_SBOX.getD a2 0

/-- The function `rotate_rows`; the assignments to the `u8` variables truncate. -/
def rotate_rows (state : Nat) : Nat :=
  let a0 := (state >>> 16) % 256
  let a1 := (state >>> 8) &&& 0xFF
  let a2 := state &&& 0xFF
  let a1 := ((a1 <<< 6) ||| (a1 >>> 2)) % 256
  let a2 := ((a2 <<< 4) ||| (a2 >>> 4)) % 256
  (a0 <<< 16) ^^^ (a1 <<< 8) ^^^ a2

/-- The function `inv_rotate_rows`. -/
def inv_rotate_rows (state : Nat) : Nat :=
  let a0 := (state >>> 16) % 256
  let a1 := (state >>> 8) &&& 0xFF
  let a2 := state &&& 0xFF
  let a1 := ((a1 >>> 6) ||| (a1 <<< 2)) % 256
  let a2 := ((a2 >>> 4) ||| (a2 <<< 4)) % 256
  (a0 <<< 16) ^^^ (a1 <<< 8) ^^^ a2

/-- The function `mix_columns`: the 24 bit equations of the source, line by line. -/
def mix_columns (state : Nat) : Nat :=
  let s := 0
  let s := s ||| ((((state >>> 0) ^^^ (state >>> 5) ^^^ (state >>> 15) ^^^ (state >>> 16)) &&& 0x1) <<< 0)
  let s := s ||| ((((state >>> 1) ^^^ (state >>> 5) ^^^ (state >>> 6) ^^^ (state >>> 8) ^^^ (state >>> 15) ^^^ (state >>> 17)) &&& 0x1) <<< 1)
  let s := s ||| ((((state >>> 2) ^^^ (state >>> 6) ^^^ (state >>> 7) ^^^ (state >>> 9) ^^^ (state >>> 18)) &&& 0x1) <<< 2)
  let s := s ||| ((((state >>> 0) ^^^ (state >>> 3) ^^^ (state >>> 5) ^^^ (state >>> 7) ^^^ (state >>> 10) ^^^ (state >>> 15) ^^^ (state >>> 19)) &&& 0x1) <<< 3)
  let s := s ||| ((((state >>> 1) ^^^ (state >>> 4) ^^^ (state >>> 5) ^^^ (state >>> 6) ^^^ (state >>> 11) ^^^ (state >>> 15) ^^^ (state >>> 20)) &&& 0x1) <<< 4)
  let s := s ||| ((((state >>> 2) ^^^ (state >>> 5) ^^^ (state >>> 6) ^^^ (state >>> 7) ^^^ (state >>> 12) ^^^ (state >>> 21)) &&& 0x1) <<< 5)
  let s := s ||| ((((state >>> 3) ^^^ (state >>> 6) ^^^ (state >>> 7) ^^^ (state >>> 13) ^^^ (state >>> 22)) &&& 0x1) <<< 6)
  let s := s ||| ((((state >>> 4) ^^^ (state >>> 7) ^^^ (state >>> 14) ^^^ (state >>> 23)) &&& 0x1) <<< 7)
  let s := s ||| ((((state >>> 0) ^^^ (state >>> 8) ^^^ (state >>> 13) ^^^ (state >>> 23)) &&& 0x1) <<< 8)
  let s := s ||| ((((state >>> 1) ^^^ (state >>> 9) ^^^ (state >>> 13) ^^^ (state >>> 14) ^^^ (state >>> 16) ^^^ (state >>> 23)) &&& 0x1) <<< 9)
  let s := s ||| ((((state >>> 2) ^^^ (state >>> 10) ^^^ (state >>> 14) ^^^ (state >>> 15) ^^^ (state >>> 17)) &&& 0x1) <<< 10)
  let s := s ||| ((((state >>> 3) ^^^ (state >>> 8) ^^^ (state >>> 11) ^^^ (state >>> 13) ^^^ (state >>> 15) ^^^ (state >>> 18) ^^^ (state >>> 23)) &&& 0x1) <<< 11)
  let s := s ||| ((((state >>> 4) ^^^ (state >>> 9) ^^^ (state >>> 12) ^^^ (state >>> 13) ^^^ (state >>> 14) ^^^ (state >>> 19) ^^^ (state >>> 23)) &&& 0x1) <<< 12)
  let s := s ||| ((((state >>> 5) ^^^ (state >>> 10) ^^^ (state >>> 13) ^^^ (state >>> 14) ^^^ (state >>> 15) ^^^ (state >>> 20)) &&& 0x1) <<< 13)
  let s := s ||| ((((state >>> 6) ^^^ (state >>> 11) ^^^ (state >>> 14) ^^^ (state >>> 15) ^^^ (state >>> 21)) &&& 0x1) <<< 14)
  let s := s ||| ((((state >>> 7) ^^^ (state >>> 12) ^^^ (state >>> 15) ^^^ (state >>> 22)) &&& 0x1) <<< 15)
  let s := s ||| ((((state >>> 7) ^^^ (state >>> 8) ^^^ (state >>> 16) ^^^ (state >>> 21)) &&& 0x1) <<< 16)
  let s := s ||| ((((state >>> 0) ^^^ (state >>> 7) ^^^ (state >>> 9) ^^^ (state >>> 17) ^^^ (state >>> 21) ^^^ (state >>> 22)) &&& 0x1) <<< 17)
  let s := s ||| ((((state >>> 1) ^^^ (state >>> 10) ^^^ (state >>> 18) ^^^ (state >>> 22) ^^^ (state >>> 23)) &&& 0x1) <<< 18)
  let s := s ||| ((((state >>> 2) ^^^ (state >>> 7) ^^^ (state >>> 11) ^^^ (state >>> 16) ^^^ (state >>> 19) ^^^ (state >>> 21) ^^^ (state >>> 23)) &&& 0x1) <<< 19)
  let s := s ||| ((((state >>> 3) ^^^ (state >>> 7) ^^^ (state >>> 12) ^^^ (state >>> 17) ^^^ (state >>> 20) ^^^ (state >>> 21) ^^^ (state >>> 22)) &&& 0x1) <<< 20)
  let s := s ||| ((((state >>> 4) ^^^ (state >>> 13) ^^^ (state >>> 18) ^^^ (state >>> 21) ^^^ (state >>> 22) ^^^ (state >>> 23)) &&& 0x1) <<< 21)
  let s := s ||| ((((state >>> 5) ^^^ (state >>> 14) ^^^ (state >>> 19) ^^^ (state >>> 22) ^^^ (state >>> 23)) &&& 0x1) <<< 22)
  let s := s ||| ((((state >>> 6) ^^^ (state >>> 15) ^^^ (state >>> 20) ^^^ (state >>> 23)) &&& 0x1) <<< 23)
  s

/-- The function `inv_mix_columns`: the 24 bit equations of the source, line by line. -/
def inv_mix_columns (state : Nat) : Nat :=
  let s := 0
  let s := s ||| ((((state >>> 6) ^^^ (state >>> 7) ^^^ (state >>> 8) ^^^ (state >>> 11) ^^^ (state >>> 14) ^^^ (state >>> 21)) &&& 0x1) <<< 0)
  let s := s ||| ((((state >>> 0) ^^^ (state >>> 6) ^^^ (state >>> 8) ^^^ (state >>> 9) ^^^ (state >>> 11) ^^^ (state >>> 12) ^^^ (state >>> 14) ^^^ (state >>> 15) ^^^ (state >>> 21) ^^^ (state >>> 22)) &&& 0x1) <<< 1)
  let s := s ||| ((((state >>> 0) ^^^ (state >>> 1) ^^^ (state >>> 7) ^^^ (state >>> 8) ^^^ (state >>> 9) ^^^ (state >>> 10) ^^^ (state >>> 12) ^^^ (state >>> 13) ^^^ (state >>> 15) ^^^ (state >>> 22) ^^^ (state >>> 23)) &&& 0x1) <<< 2)
  let s := s ||| ((((state >>> 1) ^^^ (state >>> 2) ^^^ (state >>> 6) ^^^ (state >>> 7) ^^^ (state >>> 9) ^^^ (state >>> 10) ^^^ (state >>> 13) ^^^ (state >>> 16) ^^^ (state >>> 21) ^^^ (state >>> 23)) &&& 0x1) <<< 3)
  let s := s ||| ((((state >>> 2) ^^^ (state >>> 3) ^^^ (state >>> 6) ^^^ (state >>> 10) ^^^ (state >>> 17) ^^^ (state >>> 21) ^^^ (state >>> 22)) &&& 0x1) <<< 4)
  let s := s ||| ((((state >>> 3) ^^^ (state >>> 4) ^^^ (state >>> 7) ^^^ (state >>> 8) ^^^ (state >>> 11) ^^^ (state >>> 18) ^^^ (state >>> 22) ^^^ (state >>> 23)) &&& 0x1) <<< 5)
  let s := s ||| ((((state >>> 4) ^^^ (state >>> 5) ^^^ (state >>> 9) ^^^ (state >>> 12) ^^^ (state >>> 19) ^^^ (state >>> 23)) &&& 0x1) <<< 6)
  let s := s ||| ((((state >>> 5) ^^^ (state >>> 6) ^^^ (state >>> 10) ^^^ (state >>> 13) ^^^ (state >>> 20)) &&& 0x1) <<< 7)
  let s := s ||| ((((state >>> 5) ^^^ (state >>> 14) ^^^ (state >>> 15) ^^^ (state >>> 16) ^^^ (state >>> 19) ^^^ (state >>> 22)) &&& 0x1) <<< 8)
  let s := s ||| ((((state >>> 5) ^^^ (state >>> 6) ^^^ (state >>> 8) ^^^ (state >>> 14) ^^^ (state >>> 16) ^^^ (state >>> 17) ^^^ (state >>> 19) ^^^ (state >>> 20) ^^^ (state >>> 22) ^^^ (state >>> 23)) &&& 0x1) <<< 9)
  let s := s ||| ((((state >>> 6) ^^^ (state >>> 7) ^^^ (state >>> 8) ^^^ (state >>> 9) ^^^ (state >>> 15) ^^^ (state >>> 16) ^^^ (state >>> 17) ^^^ (state >>> 18) ^^^ (state >>> 20) ^^^ (state >>> 21) ^^^ (state >>> 23)) &&& 0x1) <<< 10)
  let s := s ||| ((((state >>> 0) ^^^ (state >>> 5) ^^^ (state >>> 7) ^^^ (state >>> 9) ^^^ (state >>> 10) ^^^ (state >>> 14) ^^^ (state >>> 15) ^^^ (state >>> 17) ^^^ (state >>> 18) ^^^ (state >>> 21)) &&& 0x1) <<< 11)
  let s := s ||| ((((state >>> 1) ^^^ (state >>> 5) ^^^ (state >>> 6) ^^^ (state >>> 10) ^^^ (state >>> 11) ^^^ (state >>> 14) ^^^ (state >>> 18)) &&& 0x1) <<< 12)
  let s := s ||| ((((state >>> 2) ^^^ (state >>> 6) ^^^ (state >>> 7) ^^^ (state >>> 11) ^^^ (state >>> 12) ^^^ (state >>> 15) ^^^ (state >>> 16) ^^^ (state >>> 19)) &&& 0x1) <<< 13)
  let s := s ||| ((((state >>> 3) ^^^ (state >>> 7) ^^^ (state >>> 12) ^^^ (state >>> 13) ^^^ (state >>> 17) ^^^ (state >>> 20)) &&& 0x1) <<< 14)
  let s := s ||| ((((state >>> 4) ^^^ (state >>> 13) ^^^ (state >>> 14) ^^^ (state >>> 18) ^^^ (state >>> 21)) &&& 0x1) <<< 15)
  let s := s ||| ((((state >>> 0) ^^^ (state >>> 3) ^^^ (state >>> 6) ^^^ (state >>> 13) ^^^ (state >>> 22) ^^^ (state >>> 23)) &&& 0x1) <<< 16)
  let s := s ||| ((((state >>> 0) ^^^ (state >>> 1) ^^^ (state >>> 3) ^^^ (state >>> 4) ^^^ (state >>> 6) ^^^ (state >>> 7) ^^^ (state >>> 13) ^^^ (state >>> 14) ^^^ (state >>> 16) ^^^ (state >>> 22)) &&& 0x1) <<< 17)
  let s := s ||| ((((state >>> 0) ^^^ (state >>> 1) ^^^ (state >>> 2) ^^^ (state >>> 4) ^^^ (state >>> 5) ^^^ (state >>> 7) ^^^ (state >>> 14) ^^^ (state >>> 15) ^^^ (state >>> 16) ^^^ (state >>> 17) ^^^ (state >>> 23)) &&& 0x1) <<< 18)
  let s := s ||| ((((state >>> 1) ^^^ (state >>> 2) ^^^ (state >>> 5) ^^^ (state >>> 8) ^^^ (state >>> 13) ^^^ (state >>> 15) ^^^ (state >>> 17) ^^^ (state >>> 18) ^^^ (state >>> 22) ^^^ (state >>> 23)) &&& 0x1) <<< 19)
  let s := s ||| ((((state >>> 2) ^^^ (state >>> 9) ^^^ (state >>> 13) ^^^ (state >>> 14) ^^^ (state >>> 18) ^^^ (state >>> 19) ^^^ (state >>> 22)) &&& 0x1) <<< 20)
  let s := s ||| ((((state >>> 0) ^^^ (state >>> 3) ^^^ (state >>> 10) ^^^ (state >>> 14) ^^^ (state >>> 15) ^^^ (state >>> 19) ^^^ (state >>> 20) ^^^ (state >>> 23)) &&& 0x1) <<< 21)
  let s := s ||| ((((state >>> 1) ^^^ (state >>> 4) ^^^ (state >>> 11) ^^^ (state >>> 15) ^^^ (state >>> 20) ^^^ (state >>> 21)) &&& 0x1) <<< 22)
  let s := s ||| ((((state >>> 2) ^^^ (state >>> 5) ^^^ (state >>> 12) ^^^ (state >>> 21) ^^^ (state >>> 22)) &&& 0x1) <<< 23)
  s

/-- The lookup tables of the linear layer (the `static` arrays `LUT_L_*`). -/
structure Tables where
  LUT_L_INV_MSB_0 : List Nat
  LUT_L_INV_MSB_1 : List Nat
  LUT_L_INV_MSB_2 : List Nat
  LUT_L_INV_MIDDLESB_0 : List Nat
  LUT_L_INV_MIDDLESB_1 : List Nat
  LUT_L_INV_MIDDLESB_2 : List Nat
  LUT_L_INV_LSB_0 : List Nat
  LUT_L_INV_LSB_1 : List Nat
  LUT_L_INV_LSB_2 : List Nat
  LUT_L_MSB_0 : List Nat
  LUT_L_MSB_1 : List Nat
  LUT_L_MSB_2 : List Nat
  LUT_L_MIDDLESB_0 : List Nat
  LUT_L_MIDDLESB_1 : List Nat
  LUT_L_MIDDLESB_2 : List Nat
  LUT_L_LSB_0 : List Nat
  LUT_L_LSB_1 : List Nat
  LUT_L_LSB_2 : List Nat
  LUT_L_FROM_MSB : List Nat

/-- The function `generate_tables`: entry `s` of every table, for `s` in `0 .. 0xFF`. -/
def generate_tables : Tables where
  LUT_L_INV_MSB_0 := (List.range 0x100).map fun s => ((inv_rotate_rows (inv_mix_columns (s <<< 16))) >>> 16) % 256
  LUT_L_INV_MSB_1 := (List.range 0x100).map fun s => ((inv_rotate_rows (inv_mix_columns (s <<< 8))) >>> 16) % 256
  LUT_L_INV_MSB_2 := (List.range 0x100).map fun s => ((inv_rotate_rows (inv_mix_columns (s <<< 0))) >>> 16) % 256
  LUT_L_INV_MIDDLESB_0 := (List.range 0x100).map fun s => ((inv_rotate_rows (inv_mix_columns (s <<< 16))) >>> 8) % 256
  LUT_L_INV_MIDDLESB_1 := (List.range 0x100).map fun s => ((inv_rotate_rows (inv_mix_columns (s <<< 8))) >>> 8) % 256
  LUT_L_INV_MIDDLESB_2 := (List.range 0x100).map fun s => ((inv_rotate_rows (inv_mix_columns (s <<< 0))) >>> 8) % 256
  LUT_L_INV_LSB_0 := (List.range 0x100).map fun s => ((inv_rotate_rows (inv_mix_columns (s <<< 16))) >>> 0) % 256
  LUT_L_INV_LSB_1 := (List.range 0x100).map fun s => ((inv_rotate_rows (inv_mix_columns (s <<< 8))) >>> 0) % 256
  LUT_L_INV_LSB_2 := (List.range 0x100).map fun s => ((inv_rotate_rows (inv_mix_columns (s <<< 0))) >>> 0) % 256
  LUT_L_MSB_0 := (List.range 0x100).map fun s => ((mix_columns (rotate_rows (s <<< 16))) >>> 16) % 256
  LUT_L_MSB_1 := (List.range 0x100).map fun s => ((mix_columns (rotate_rows (s <<< 8))) >>> 16) % 256
  LUT_L_MSB_2 := (List.range 0x100).map fun s => ((mix_columns (rotate_rows (s <<< 0))) >>> 16) % 256
  LUT_L_MIDDLESB_0 := (List.range 0x100).map fun s => ((mix_columns (rotate_rows (s <<< 16))) >>> 8) % 256
  LUT_L_MIDDLESB_1 := (List.range 0x100).map fun s => ((mix_columns (rotate_rows (s <<< 8))) >>> 8) % 256
  LUT_L_MIDDLESB_2 := (List.range 0x100).map fun s => ((mix_columns (rotate_rows (s <<< 0))) >>> 8) % 256
  LUT_L_LSB_0 := (List.range 0x100).map fun s => ((mix_columns (rotate_rows (s <<< 16))) >>> 0) % 256
  LUT_L_LSB_1 := (List.range 0x100).map fun s => ((mix_columns (rotate_rows (s <<< 8))) >>> 0) % 256
  LUT_L_LSB_2 := (List.range 0x100).map fun s => ((mix_columns (rotate_rows (s <<< 0))) >>> 0) % 256
  LUT_L_FROM_MSB := (List.range 0x100).map fun s => mix_columns (rotate_rows (s <<< 16))

/-- Helper `L_INV_MSB`. -/
def L_INV_MSB (T : Tables) (s : Nat) : Nat :=
  T.LUT_L_INV_MSB_2.getD (s % 256) 0 ^^^ T.LUT_L_INV_MSB_1.getD ((s >>> 8) % 256) 0
    ^^^ T.LUT_L_INV_MSB_0.getD ((s >>> 16) % 256) 0

/-- Helper `L_INV_MIDDLESB`. -/
def L_INV_MIDDLESB (T : Tables) (s : Nat) : Nat :=
  T.LUT_L_INV_MIDDLESB_2.getD (s % 256) 0 ^^^ T.LUT_L_INV_MIDDLESB_1.getD ((s >>> 8) % 256) 0
    ^^^ T.LUT_L_INV_MIDDLESB_0.getD ((s >>> 16) % 256) 0

/-- Helper `L_INV_LSB`. -/
def L_INV_LSB (T : Tables) (s : Nat) : Nat :=
  T.LUT_L_INV_LSB_2.getD (s % 256) 0 ^^^ T.LUT_L_INV_LSB_1.getD ((s >>> 8) % 256) 0
    ^^^ T.LUT_L_INV_LSB_0.getD ((s >>> 16) % 256) 0

/-- The function `inv_linear_layer`, table driven. -/
def inv_linear_layer (T : Tables) (s : Nat) : Nat :=
  L_INV_LSB T s ^^^ (L_INV_MIDDLESB T s <<< 8) ^^^ (L_INV_MSB T s <<< 16)

/-- Helper `L_MSB`. -/
def L_MSB (T : Tables) (s : Nat) : Nat :=
  T.LUT_L_MSB_2.getD (s % 256) 0 ^^^ T.LUT_L_MSB_1.getD ((s >>> 8) % 256) 0
    ^^^ T.LUT_L_MSB_0.getD ((s >>> 16) % 256) 0

/-- Helper `L_MIDDLESB`. -/
def L_MIDDLESB (T : Tables) (s : Nat) : Nat :=
  T.LUT_L_MIDDLESB_2.getD (s % 256) 0 ^^^ T.LUT_L_MIDDLESB_1.getD ((s >>> 8) % 256) 0
    ^^^ T.LUT_L_MIDDLESB_0.getD ((s >>> 16) % 256) 0

/-- Helper `L_LSB`. -/
def L_LSB (T : Tables) (s : Nat) : Nat :=
  T.LUT_L_LSB_2.getD (s % 256) 0 ^^^ T.LUT_L_LSB_1.getD ((s >>> 8) % 256) 0
    ^^^ T.LUT_L_LSB_0.getD ((s >>> 16) % 256) 0

/-- The function `linear_layer`, table driven. -/
def linear_layer (T : Tables) (s : Nat) : Nat :=
  L_LSB T s ^^^ (L_MIDDLESB T s <<< 8) ^^^ (L_MSB T s <<< 16)

/-- The function `inv_round_with_MC`. -/
def inv_round_with_MC (T : Tables) (state round_key : Nat) : Nat :=
  let state := state ^^^ round_key
  let state := inv_linear_layer T state
  inv_sub_bytes state

/-- The function `inv_round_with_MC_inv_key`. -/
def inv_round_with_MC_inv_key (T : Tables) (state inv_round_key : Nat) : Nat :=
  let state := inv_linear_layer T state
  let state := state ^^^ inv_round_key
  inv_sub_bytes state

/-- The function `inv_round_no_MC`. -/
def inv_round_no_MC (state round_key : Nat) : Nat :=
  let state := state ^^^ round_key
  let state := inv_rotate_rows state
  inv_sub_bytes state

/-- The function `round_with_MC`. -/
def round_with_MC (T : Tables) (state round_key : Nat) : Nat :=
  let state := sub_bytes state
  let state := linear_layer T state
  state ^^^ round_key

/-- The function `round_no_MC`. -/
def round_no_MC (state round_key : Nat) : Nat :=
  let state := sub_bytes state
  let state := rotate_rows state
  state ^^^ round_key

/-- The key-schedule mixer `g`; the result is a `u32`. -/
def g (key_word rc : Nat) : Nat :=
  let byte0 := (key_word >>> 24) % 256
  let byte1 := (key_word >>> 16) &&& 0xFF
  let byte2 := (key_word >>> 8) &&& 0xFF
  let byte3 := (key_word >>> 0) &&& 0xFF
  (((SBOX.getD byte1 0 ^^^ rc) <<< 24) ^^^ (SBOX.getD byte2 0 <<< 16) ^^^ (SBOX.getD byte3 0 <<< 8)
    ^^^ SBOX.getD byte0 0) % 2 ^ 32

/-- The function `key_schedule`: the eleven round keys `rk[0..10]`, in order.
The argument of `g` is converted to `u32`. -/
def key_schedule (master_key seed : Nat) : List Nat :=
  let master_key := master_key ^^^ (seed <<< 64)
  let rk0 := (master_key >>> 104) &&& 0xFFFFFF
  let rk1 := (master_key >>> 80) &&& 0xFFFFFF
  let rk2 := (master_key >>> 56) &&& 0xFFFFFF
  let rk3 := (master_key >>> 32) &&& 0xFFFFFF
  let rk4 := (master_key >>> 8) &&& 0xFFFFFF
  let rk5 := (master_key &&& 0xFF) <<< 16
  let master_key := master_key ^^^ (g ((master_key &&& 0xFFFFFFFF) % 2 ^ 32) 1 <<< 96)
  let master_key := master_key ^^^ (((master_key >>> 96) &&& 0xFFFFFFFF) <<< 64)
  let master_key := master_key ^^^ (((master_key >>> 64) &&& 0xFFFFFFFF) <<< 32)
  let master_key := master_key ^^^ (((master_key >>> 32) &&& 0xFFFFFFFF) <<< 0)
  let rk5 := rk5 ||| ((master_key >>> 112) &&& 0xFFFF)
  let rk6 := (master_key >>> 88) &&& 0xFFFFFF
  let rk7 := (master_key >>> 64) &&& 0xFFFFFF
  let rk8 := (master_key >>> 40) &&& 0xFFFFFF
  let rk9 := (master_key >>> 16) &&& 0xFFFFFF
  let rk10 := ((master_key >>> 0) &&& 0xFFFF) <<< 8
  let master_key := master_key ^^^ (g ((master_key &&& 0xFFFFFFFF) % 2 ^ 32) 2 <<< 96)
  let rk10 := rk10 ||| ((master_key >>> 120) &&& 0xFF)
  [rk0, rk1, rk2, rk3, rk4, rk5, rk6, rk7, rk8, rk9, rk10]

/-- The function `encrypt`: key addition, rounds 1 to 9 with the linear layer, round 10
without. -/
def encrypt (T : Tables) (state master_key seed : Nat) : Nat :=
  let rk := key_schedule master_key seed
  let state := state ^^^ rk.getD 0 0
  let state := (List.range' 1 9).foldl (fun st i => round_with_MC T st (rk.getD i 0)) state
  round_no_MC state (rk.getD 10 0)

/-- The function `decrypt`: the loop runs `i = 9` down to `1`. -/
def decrypt (T : Tables) (state master_key seed : Nat) : Nat :=
  let rk := key_schedule master_key seed
  let state := inv_round_no_MC state (rk.getD 10 0)
  let state := (List.range' 1 9).reverse.foldl (fun st i => inv_round_with_MC T st (rk.getD i 0)) state
  state ^^^ rk.getD 0 0

/-! ## 256-bit vectors and the AVX2 intrinsics of the byte-set code

A `__m256i` is a natural number below `2 ^ 256`; element `i` of width `w` occupies the bits
`w * i` to `w * i + w - 1`.  The intrinsics follow their operation as published in the
Intel Intrinsics Guide. -/

/-- Element `i`, of width `w` bits, of the vector `a`. -/
def elem (w a i : Nat) : Nat := (a >>> (w * i)) % 2 ^ w

/-- The vector of `n` elements of width `w` whose element `i` is `f i`, truncated to `w`
bits. -/
def ofElems (w n : Nat) (f : Nat → Nat) : Nat :=
  (List.range n).foldl (fun acc i => acc ||| ((f i % 2 ^ w) <<< (w * i))) 0

/-- The macro `_MM_SHUFFLE(z, y, x, w)`. -/
def _MM_SHUFFLE (z y x w : Nat) : Nat := (z <<< 6) ||| (y <<< 4) ||| (x <<< 2) ||| w

/-- Intrinsic `_mm256_extract_epi64`: the 64-bit element `index`. -/
def _mm256_extract_epi64 (a index : Nat) : Nat := elem 64 a index

/-- Intrinsic `_mm256_set_epi64x`: the arguments are given from the highest element down. -/
def _mm256_set_epi64x (e3 e2 e1 e0 : Nat) : Nat := ofElems 64 4 (fun i => [e0, e1, e2, e3].getD i 0)

/-- Intrinsic `_mm256_setzero_si256`. -/
def _mm256_setzero_si256 : Nat := 0

/-- Intrinsic `_mm256_and_si256`. -/
def _mm256_and_si256 (a b : Nat) : Nat := a &&& b

/-- Intrinsic `_mm256_or_si256`. -/
def _mm256_or_si256 (a b : Nat) : Nat := a ||| b

/-- Intrinsic `_mm256_testz_si256`: 1 when the AND of the operands is all zero, else 0. -/
def _mm256_testz_si256 (a b : Nat) : Nat := if a &&& b = 0 then 1 else 0

/-- Intrinsic `_mm256_set1_epi8`: 32 copies of the low byte of `b`. -/
def _mm256_set1_epi8 (b : Nat) : Nat := ofElems 8 32 (fun _ => b)

/-- Intrinsic `_mm256_set_epi8`: the 32 arguments, from byte 31 down to byte 0. -/
def _mm256_set_epi8 (e : List Nat) : Nat := ofElems 8 32 (fun i => e.reverse.getD i 0)

/-- Intrinsic `_mm256_permute2x128_si256`: each 128-bit half of the result is selected by four
bits of `imm8` among the halves of `a` and `b`, or zeroed when bit 3 of the four is set. -/
def _mm256_permute2x128_si256 (a b imm8 : Nat) : Nat :=
  ofElems 128 2 (fun i =>
    let control := (imm8 >>> (4 * i)) % 16
    if (control >>> 3) % 2 = 1 then 0
    else match control % 4 with
      | 0 => elem 128 a 0
      | 1 => elem 128 a 1
      | 2 => elem 128 b 0
      | _ => elem 128 b 1)

/-- Intrinsic `_mm256_permute4x64_epi64`: 64-bit element `i` of the result is the element of
`a` selected by bits `2 * i + 1 : 2 * i` of `imm8`. -/
def _mm256_permute4x64_epi64 (a imm8 : Nat) : Nat :=
  ofElems 64 4 (fun i => elem 64 a ((imm8 >>> (2 * i)) % 4))

/-- Intrinsic `_mm256_shuffle_epi32`: inside each 128-bit lane, 32-bit element `i` of the
result is the element of the lane selected by two bits of `imm8`. -/
def _mm256_shuffle_epi32 (a imm8 : Nat) : Nat :=
  ofElems 32 8 (fun i => elem 32 a (4 * (i / 4) + (imm8 >>> (2 * (i % 4))) % 4))

/-- Intrinsic `_mm256_shufflelo_epi16`: inside each 128-bit lane, the four low 16-bit elements
are selected by `imm8` among the four low elements; the four high elements are copied. -/
def _mm256_shufflelo_epi16 (a imm8 : Nat) : Nat :=
  ofElems 16 16 (fun i =>
    if i % 8 < 4 then elem 16 a (8 * (i / 8) + (imm8 >>> (2 * (i % 8))) % 4)
    else elem 16 a i)

/-- Intrinsic `_mm256_shufflehi_epi16`: inside each 128-bit lane, the four high 16-bit elements
are selected by `imm8` among the four high elements; the four low elements are copied. -/
def _mm256_shufflehi_epi16 (a imm8 : Nat) : Nat :=
  ofElems 16 16 (fun i =>
    if i % 8 < 4 then elem 16 a i
    else elem 16 a (8 * (i / 8) + 4 + (imm8 >>> (2 * (i % 8 - 4))) % 4))

/-- Intrinsic `_mm256_shuffle_epi8`: inside each 128-bit lane, byte `i` of the result is zero
when bit 7 of byte `i` of `b` is set, else the byte of the lane selected by the low four bits
of byte `i` of `b`. -/
def _mm256_shuffle_epi8 (a b : Nat) : Nat :=
  ofElems 8 32 (fun i =>
    if elem 8 b i >>> 7 = 1 then 0
    else elem 8 a (16 * (i / 16) + elem 8 b i % 16))

/-- Intrinsic `_mm256_srli_epi16`: every 16-bit element shifted right by `imm8`. -/
def _mm256_srli_epi16 (a imm8 : Nat) : Nat :=
  ofElems 16 16 (fun i => if imm8 > 15 then 0 else elem 16 a i >>> imm8)

/-- Intrinsic `_mm256_slli_epi16`: every 16-bit element shifted left by `imm8`, inside its 16
bits. -/
def _mm256_slli_epi16 (a imm8 : Nat) : Nat :=
  ofElems 16 16 (fun i => if imm8 > 15 then 0 else elem 16 a i <<< imm8)

/-! ## Byte sets (`subset_t`) -/

/-- The function `subset_intersect`. -/
def subset_intersect (a b : Nat) : Nat := _mm256_and_si256 a b

/-- The function `subset_union`. -/
def subset_union (a b : Nat) : Nat := _mm256_or_si256 a b

/-- The function `subset_is_empty`. -/
def subset_is_empty (a : Nat) : Bool := _mm256_testz_si256 a a != 0

/-- The function `subset_add_element`: `mask[elm / 64] = 1 << (elm % 64)`, the other three
words of `mask` zero. -/
def subset_add_element (a elm : Nat) : Nat :=
  let mask : List Nat := (List.replicate 4 0).set (elm / 64) ((1 <<< (elm % 64)) % 2 ^ 64)
  let _mask := _mm256_set_epi64x (mask.getD 3 0) (mask.getD 2 0) (mask.getD 1 0) (mask.getD 0 0)
  _mm256_or_si256 a _mask

/-- The function `subset_shift`. -/
def subset_shift (b shift : Nat) : Nat :=
  let a := b
  let a := if (shift >>> 7) &&& 0x1 ≠ 0 then _mm256_permute2x128_si256 a a 1 else a
  let a := if (shift >>> 6) &&& 0x1 ≠ 0 then _mm256_permute4x64_epi64 a (_MM_SHUFFLE 2 3 0 1) else a
  let a := if (shift >>> 5) &&& 0x1 ≠ 0 then _mm256_shuffle_epi32 a (_MM_SHUFFLE 2 3 0 1) else a
  let a := if (shift >>> 4) &&& 0x1 ≠ 0 then
      let a := _mm256_shufflelo_epi16 a (_MM_SHUFFLE 2 3 0 1)
      _mm256_shufflehi_epi16 a (_MM_SHUFFLE 2 3 0 1)
    else a
  let a := if (shift >>> 3) &&& 0x1 ≠ 0 then
      let mask := _mm256_set_epi8 [14, 15, 12, 13, 10, 11, 8, 9, 6, 7, 4, 5, 2, 3, 0, 1,
        14, 15, 12, 13, 10, 11, 8, 9, 6, 7, 4, 5, 2, 3, 0, 1]
      _mm256_shuffle_epi8 a mask
    else a
  let a := if (shift >>> 2) &&& 0x1 ≠ 0 then
      let maskHigh := _mm256_set1_epi8 0xF0
      let maskLow := _mm256_set1_epi8 0x0F
      let high := _mm256_and_si256 a maskHigh
      let low := _mm256_and_si256 a maskLow
      _mm256_or_si256 (_mm256_srli_epi16 high 4) (_mm256_slli_epi16 low 4)
    else a
  let a := if (shift >>> 1) &&& 0x1 ≠ 0 then
      let maskHigh := _mm256_set1_epi8 0xCC
      let maskLow := _mm256_set1_epi8 0x33
      let high := _mm256_and_si256 a maskHigh
      let low := _mm256_and_si256 a maskLow
      _mm256_or_si256 (_mm256_srli_epi16 high 2) (_mm256_slli_epi16 low 2)
    else a
  let a := if (shift >>> 0) &&& 0x1 ≠ 0 then
      let maskHigh := _mm256_set1_epi8 0xAA
      let maskLow := _mm256_set1_epi8 0x55
      let high := _mm256_and_si256 a maskHigh
      let low := _mm256_and_si256 a maskLow
      _mm256_or_si256 (_mm256_srli_epi16 high 1) (_mm256_slli_epi16 low 1)
    else a
  a

/-- The function `subset_init_empty`. -/
def subset_init_empty : Nat := _mm256_setzero_si256

/-- The function `subset_init_full`. -/
def subset_init_full : Nat :=
  _mm256_set_epi64x 0xFFFFFFFFFFFFFFFF 0xFFFFFFFFFFFFFFFF 0xFFFFFFFFFFFFFFFF 0xFFFFFFFFFFFFFFFF

/-- Membership of the byte `x` in a byte set, as `subset_add_element` and
`subset_get_elements` use it: bit `x % 64` of the 64-bit word `x / 64`. -/
def subset_mem (a x : Nat) : Bool := (_mm256_extract_epi64 a (x / 64)).testBit (x % 64)

/-- Builtin `__builtin_popcountll`: the number of set bits of a 64-bit word. -/
def __builtin_popcountll (x : Nat) : Nat := ((List.range 64).filter (fun i => x.testBit i)).length

/-- The scan behind `__builtin_ctzll`: the position of the lowest set bit among the low `n`
bits, `n` when there is none. -/
def ctz_scan : Nat → Nat → Nat
  | 0, _ => 0
  | n + 1, x => if x % 2 = 1 then 0 else 1 + ctz_scan n (x / 2)

/-- Builtin `__builtin_ctzll`: the number of trailing zero bits of a non-zero 64-bit word (the
position of its lowest set bit). -/
def __builtin_ctzll (x : Nat) : Nat := ctz_scan 64 x

/-- The function `subset_size`; `count` is a `u16`. -/
def subset_size (a : Nat) : Nat :=
  let count := 0
  let chunk := _mm256_extract_epi64 a 0
  let count := (count + __builtin_popcountll chunk) % 2 ^ 16
  let chunk := _mm256_extract_epi64 a 1
  let count := (count + __builtin_popcountll chunk) % 2 ^ 16
  let chunk := _mm256_extract_epi64 a 2
  let count := (count + __builtin_popcountll chunk) % 2 ^ 16
  let chunk := _mm256_extract_epi64 a 3
  let count := (count + __builtin_popcountll chunk) % 2 ^ 16
  count

/-- One `while(chunk != 0)` loop of `subset_get_elements`, for the 64-bit word `k`: the
elements pushed, in order.  The first argument bounds the number of iterations; a 64-bit
word needs at most 64. -/
def elements_loop (k : Nat) : Nat → Nat → List Nat
  | 0, _ => []
  | fuel + 1, chunk =>
    if chunk ≠ 0 then
      ((__builtin_ctzll chunk + k * 64) % 256) :: elements_loop k fuel (chunk &&& (chunk - 1))
    else []

/-- The function `subset_get_elements`. -/
def subset_get_elements (a : Nat) : List Nat :=
  elements_loop 0 64 (_mm256_extract_epi64 a 0) ++ elements_loop 1 64 (_mm256_extract_epi64 a 1)
    ++ elements_loop 2 64 (_mm256_extract_epi64 a 2)
    ++ elements_loop 3 64 (_mm256_extract_epi64 a 3)

/-! ## Tweak normalisation of round keys -/

/-- The constant `N_PAIRS`. -/
def N_PAIRS : Nat := 3

/-- The function `normalize_round_key` (the `switch` on `round`).  For a `u32` round key and a
`u64` seed no case exceeds 32 bits, so the conversion of the result to `u32` changes nothing. -/
def normalize_round_key (round_key seed round : Nat) : Nat :=
  match round with
  | 0 => round_key ^^^ (seed >>> 40)
  | 1 => round_key ^^^ ((seed >>> 16) &&& 0xFFFFFF)
  | 2 => round_key ^^^ ((seed &&& 0xFFFF) <<< 8)
  | 3 => round_key
  | 4 => round_key
  | 5 => round_key ^^^ (seed >>> 48)
  | 6 => round_key ^^^ (((seed >>> 32) &&& 0xFFFF) <<< 16)
      ^^^ ((seed >>> 56) ^^^ ((seed >>> 40) &&& 0xFF))
  | 7 => round_key ^^^ ((seed >>> 32) &&& 0xFFFFFF) ^^^ (seed &&& 0xFFFFFF)
  | 8 => round_key ^^^ ((seed >>> 40) &&& 0xFFFFFF) ^^^ ((seed >>> 8) &&& 0xFFFFFF)
  | 9 => round_key ^^^ ((seed >>> 16) &&& 0xFFFFFF) ^^^ ((seed &&& 0xFF) <<< 16) ^^^ (seed >>> 48)
  | 10 => round_key ^^^ ((((seed >>> 32) &&& 0xFFFF) ^^^ (seed &&& 0xFFFF)) <<< 8) ^^^ (seed >>> 56)
  | _ => 0

/-- The function `normalize_round_key_10`; `last_byte_round_key_9` is a `u8`, converted by the
caller. -/
def normalize_round_key_10 (round_key last_byte_round_key_9 seed : Nat) : Nat :=
  round_key ^^^ ((((seed >>> 32) &&& 0xFFFF) ^^^ (seed &&& 0xFFFF)) <<< 8) ^^^ (seed >>> 56)
    ^^^ SBOX.getD last_byte_round_key_9 0
    ^^^ SBOX.getD (last_byte_round_key_9 ^^^ ((seed >>> 48) &&& 0xFF) ^^^ ((seed >>> 16) &&& 0xFF)) 0

/-! ## The key-recovery search (`new_attack`) -/

/-- The struct `pair_t`: plaintext, tweak, input difference and the two ciphertexts. -/
structure pair_t where
  p : Nat
  t : Nat
  d : Nat
  c : Nat
  c_prime : Nat
  deriving Inhabited

/-- Step 1 of `new_attack` for one pair: the two encryption queries for the plaintext `plain`,
the tweak `seed` and the input difference `in_diff`. -/
def make_pair (LT : Tables) (key plain seed in_diff : Nat) : pair_t where
  p := plain
  t := seed
  d := in_diff
  c := encrypt LT plain key seed
  c_prime := encrypt LT (plain ^^^ in_diff) key (seed ^^^ (in_diff <<< 40))

/-- The cell `DDTV_out[din][dout]` after the two loops that fill the table (`x` outer, the
input difference inner): an iteration appends `SBOX[x]` when it addresses this cell. -/
def DDTV_out (din dout : Nat) : List Nat :=
  (List.range 256).foldl (fun cell x =>
    (List.range 256).foldl (fun cell din' =>
      let dout' := SBOX.getD x 0 ^^^ SBOX.getD (x ^^^ din') 0
      if din' = din ∧ dout' = dout then cell ++ [SBOX.getD (x % 256) 0] else cell) cell) []

/-- The cell `DDTV_out_shifted[x][y][c]` as its loop leaves it; the argument of
`subset_add_element` is a `u8`. -/
def DDTV_out_shifted (x y c : Nat) : Nat :=
  (DDTV_out x y).foldl (fun cell elm => subset_add_element cell ((elm ^^^ c) % 256))
    subset_init_empty

/-- The list `POSSIBLE_DELTA_Y[x]` as its loop over `y` leaves it. -/
def POSSIBLE_DELTA_Y (x : Nat) : List Nat :=
  (List.range 0x100).filter (fun y => !(DDTV_out x y).isEmpty)

/-- The cell `T[i][z][j]` after its initialisation to the empty set and the five nested loops
of step 2: an innermost iteration unions one set into each of the three lanes of the cell
`T[i'][delta_z7]` it addresses. -/
def build_T (LT : Tables) (PAIRS : List pair_t) (i z j : Nat) : Nat :=
  (List.range N_PAIRS).foldl (fun cell i' =>
    let din := (PAIRS.getD i' default).d
    (POSSIBLE_DELTA_Y din).foldl (fun cell dout =>
      let delta_x7 := LT.LUT_L_FROM_MSB.getD dout 0 ^^^ (din <<< 8)
      let delta_x7_2 := delta_x7 % 256
      let delta_x7_1 := (delta_x7 >>> 8) % 256
      let delta_x7_0 := (delta_x7 >>> 16) % 256
      (POSSIBLE_DELTA_Y delta_x7_0).foldl (fun cell delta_y7_0 =>
        (POSSIBLE_DELTA_Y delta_x7_1).foldl (fun cell delta_y7_1 =>
          (POSSIBLE_DELTA_Y delta_x7_2).foldl (fun cell delta_y7_2 =>
            let delta_y7 := (delta_y7_0 <<< 16) ^^^ (delta_y7_1 <<< 8) ^^^ delta_y7_2
            let delta_z7 := linear_layer LT delta_y7
            if i' = i ∧ delta_z7 = z then
              match j with
              | 0 => subset_union cell (DDTV_out_shifted delta_x7_0 delta_y7_0 0)
              | 1 => subset_union cell (DDTV_out_shifted delta_x7_1 delta_y7_1 0)
              | 2 => subset_union cell (DDTV_out_shifted delta_x7_2 delta_y7_2 0)
              | _ => cell
            else cell) cell) cell) cell) cell)
    subset_init_empty

/-- Byte `j` of a 24-bit word, `j = 0` the most significant: the casts
`(u8) (w >> 16)`, `(u8) (w >> 8)`, `(u8) w`. -/
def lane (w j : Nat) : Nat :=
  match j with
  | 0 => (w >>> 16) % 256
  | 1 => (w >>> 8) % 256
  | _ => w % 256

/-- The array `norm_8_`. -/
def norm_8_ (LT : Tables) (PAIRS : List pair_t) (i : Nat) : Nat :=
  inv_linear_layer LT (normalize_round_key 0 (PAIRS.getD i default).t 8)

/-- The array `norm_8[j][i]`. -/
def norm_8 (LT : Tables) (PAIRS : List pair_t) (j i : Nat) : Nat := lane (norm_8_ LT PAIRS i) j

/-- The array `L_inv_rk9` of the search body. -/
def body_L_inv_rk9 (LT : Tables) (PAIRS : List pair_t) (L_inv_rk9_ i : Nat) : Nat :=
  if i = 0 then L_inv_rk9_
  else L_inv_rk9_ ^^^ inv_linear_layer LT
    (normalize_round_key 0 ((PAIRS.getD 0 default).t ^^^ (PAIRS.getD i default).t) 9)

/-- The array `rk10` of the search body. -/
def body_rk10 (LT : Tables) (PAIRS : List pair_t) (rk10_ L_inv_rk9_ i : Nat) : Nat :=
  if i = 0 then rk10_
  else normalize_round_key_10
    (normalize_round_key_10 rk10_
      (linear_layer LT (body_L_inv_rk9 LT PAIRS L_inv_rk9_ 0) % 256) (PAIRS.getD 0 default).t)
    (linear_layer LT (body_L_inv_rk9 LT PAIRS L_inv_rk9_ i) % 256) (PAIRS.getD i default).t

/-- The array `rk10_PRIME` of the search body. -/
def body_rk10_PRIME (LT : Tables) (PAIRS : List pair_t) (rk10_ L_inv_rk9_ i : Nat) : Nat :=
  body_rk10 LT PAIRS rk10_ L_inv_rk9_ i ^^^ ((PAIRS.getD i default).d <<< 16)

/-- The array `x8` of the search body. -/
def body_x8 (LT : Tables) (PAIRS : List pair_t) (rk10_ L_inv_rk9_ i : Nat) : Nat :=
  inv_round_with_MC_inv_key LT
    (inv_round_no_MC (PAIRS.getD i default).c (body_rk10 LT PAIRS rk10_ L_inv_rk9_ i))
    (body_L_inv_rk9 LT PAIRS L_inv_rk9_ i)

/-- The array `x8_PRIME` of the search body. -/
def body_x8_PRIME (LT : Tables) (PAIRS : List pair_t) (rk10_ L_inv_rk9_ i : Nat) : Nat :=
  inv_round_with_MC_inv_key LT
    (inv_round_no_MC (PAIRS.getD i default).c_prime
      (body_rk10_PRIME LT PAIRS rk10_ L_inv_rk9_ i))
    (body_L_inv_rk9 LT PAIRS L_inv_rk9_ i)

/-- The array `delta_z7` of the search body. -/
def body_delta_z7 (LT : Tables) (PAIRS : List pair_t) (rk10_ L_inv_rk9_ i : Nat) : Nat :=
  body_x8 LT PAIRS rk10_ L_inv_rk9_ i ^^^ body_x8_PRIME LT PAIRS rk10_ L_inv_rk9_ i
    ^^^ (PAIRS.getD i default).d

/-- The array `v8[j][i]` of the search body. -/
def body_v8 (LT : Tables) (PAIRS : List pair_t) (rk10_ L_inv_rk9_ j i : Nat) : Nat :=
  lane (inv_linear_layer LT (body_x8 LT PAIRS rk10_ L_inv_rk9_ i)) j

/-- The set `intersection[j]` after the loop over the pairs `i = 1 .. N_PAIRS - 1`. -/
def body_intersection (LT : Tables) (PAIRS : List pair_t) (T : Nat → Nat → Nat → Nat)
    (rk10_ L_inv_rk9_ j : Nat) : Nat :=
  (List.range' 1 (N_PAIRS - 1)).foldl (fun acc i =>
      let b := subset_shift (T i (body_delta_z7 LT PAIRS rk10_ L_inv_rk9_ i) j)
        (body_v8 LT PAIRS rk10_ L_inv_rk9_ j 0 ^^^ norm_8 LT PAIRS j 0
          ^^^ body_v8 LT PAIRS rk10_ L_inv_rk9_ j i ^^^ norm_8 LT PAIRS j i)
      subset_intersect acc b)
    (T 0 (body_delta_z7 LT PAIRS rk10_ L_inv_rk9_ 0) j)

/-- The three-lane filter: `true` when the body jumps to `bad_guess_`.  With `COUNTERS == 1`
all three intersections are computed before the emptiness loop; with `COUNTERS == 0` the
emptiness test follows each intersection. -/
def body_bad_guess (COUNTERS : Bool) (LT : Tables) (PAIRS : List pair_t)
    (T : Nat → Nat → Nat → Nat) (rk10_ L_inv_rk9_ : Nat) : Bool :=
  if COUNTERS then
    let intersection := (List.range 3).map (body_intersection LT PAIRS T rk10_ L_inv_rk9_)
    (List.range 3).any (fun j => subset_is_empty (intersection.getD j 0))
  else
    (List.range 3).foldl (fun bad j =>
      if bad then true
      else subset_is_empty (body_intersection LT PAIRS T rk10_ L_inv_rk9_ j)) false

/-- The loop over the pairs inside the `rk8` enumeration: `none` when it jumps to
`next_rk_8`, else the set `L_inv_rk7_0` it leaves. -/
def body_L_inv_rk7_0 (LT : Tables) (PAIRS : List pair_t) (rk10_ L_inv_rk9_ rk8 : Nat) :
    Option Nat :=
  (List.range N_PAIRS).foldl (fun acc i =>
      match acc with
      | none => none
      | some L_inv_rk7_0 =>
        let rk8_normalised := normalize_round_key rk8 (PAIRS.getD i default).t 8
        let rk8_PRIME_normalised := rk8_normalised ^^^ (PAIRS.getD i default).d
        let v7 := inv_linear_layer LT
          (inv_round_with_MC LT (body_x8 LT PAIRS rk10_ L_inv_rk9_ i) rk8_normalised)
        let v7_PRIME := inv_linear_layer LT
          (inv_round_with_MC LT (body_x8_PRIME LT PAIRS rk10_ L_inv_rk9_ i) rk8_PRIME_normalised
            ^^^ ((PAIRS.getD i default).d <<< 8))
        if (v7 ^^^ v7_PRIME) &&& 0x00FFFF ≠ 0 then none
        else
          let delta_v7_0 := ((v7 ^^^ v7_PRIME) >>> 16) % 256
          let norm_7_0 :=
            (inv_linear_layer LT (normalize_round_key 0 (PAIRS.getD i default).t 7) >>> 16) % 256
          let v7_0 := (v7 >>> 16) % 256
          some (subset_intersect L_inv_rk7_0
            (DDTV_out_shifted (PAIRS.getD i default).d delta_v7_0 (v7_0 ^^^ norm_7_0))))
    (some subset_init_full)

/-- The body of the search loop for the guess `(rk10_, L_inv_rk9_)`: the candidates
`(L_inv_rk7_0, rk8, rk9, rk10)` it prints, in order. -/
def search_body (COUNTERS : Bool) (LT : Tables) (PAIRS : List pair_t)
    (T : Nat → Nat → Nat → Nat) (rk10_ L_inv_rk9_ : Nat) : List (Nat × Nat × Nat × Nat) :=
  if body_bad_guess COUNTERS LT PAIRS T rk10_ L_inv_rk9_ then []
  else
    (subset_get_elements (body_intersection LT PAIRS T rk10_ L_inv_rk9_ 0)).flatMap fun rk8_0 =>
      let rk8_0 := rk8_0 ^^^ body_v8 LT PAIRS rk10_ L_inv_rk9_ 0 0 ^^^ norm_8 LT PAIRS 0 0
      (subset_get_elements (body_intersection LT PAIRS T rk10_ L_inv_rk9_ 1)).flatMap fun rk8_1 =>
        let rk8_1 := rk8_1 ^^^ body_v8 LT PAIRS rk10_ L_inv_rk9_ 1 0 ^^^ norm_8 LT PAIRS 1 0
        (subset_get_elements (body_intersection LT PAIRS T rk10_ L_inv_rk9_ 2)).flatMap
          fun rk8_2 =>
          let rk8_2 := rk8_2 ^^^ body_v8 LT PAIRS rk10_ L_inv_rk9_ 2 0 ^^^ norm_8 LT PAIRS 2 0
          let rk8 := linear_layer LT ((rk8_0 <<< 16) ^^^ (rk8_1 <<< 8) ^^^ rk8_2)
          match body_L_inv_rk7_0 LT PAIRS rk10_ L_inv_rk9_ rk8 with
          | none => []
          | some L_inv_rk7_0 =>
            (subset_get_elements L_inv_rk7_0).map fun L_inv_rk7_0_ =>
              (L_inv_rk7_0_, rk8,
                normalize_round_key (linear_layer LT L_inv_rk9_) (PAIRS.getD 0 default).t 9,
                normalize_round_key_10 rk10_ (linear_layer LT L_inv_rk9_ % 256)
                  (PAIRS.getD 0 default).t)

/-- The guess that `CHECK_CORRECT_FIRST` puts in place of the zero guess:
`(rk10_, L_inv_rk9_)` computed from the tweak-0 round keys `RK`. -/
def correct_guess (LT : Tables) (PAIRS : List pair_t) (RK : List Nat) : Nat × Nat :=
  let L_inv_rk9_ := inv_linear_layer LT (normalize_round_key (RK.getD 9 0) (PAIRS.getD 0 default).t 9)
  let rk10_ := normalize_round_key_10 (RK.getD 10 0) (linear_layer LT L_inv_rk9_ % 256)
    (PAIRS.getD 0 default).t
  (rk10_, L_inv_rk9_)

/-! ## Auxiliary definitions used by the proofs -/

/-- A function on words that commutes with XOR. -/
def XorAdditive (f : Nat → Nat) : Prop := ∀ a b, f (a ^^^ b) = f a ^^^ f b

/-- The XOR of the words `s >>> t` over the taps `t`. -/
def tapXor (taps : List Nat) (s : Nat) : Nat :=
  match taps with
  | [] => 0
  | t :: ts => (s >>> t) ^^^ tapXor ts s

/-- The word whose bit `k + j` is the parity selected by row `j`. -/
def bitRows (rows : List (List Nat)) (k s : Nat) : Nat :=
  match rows with
  | [] => 0
  | r :: rs => ((tapXor r s &&& 1) <<< k) ||| bitRows rs (k + 1) s

/-- The taps of the 24 lines of `mix_columns`. -/
def MC_ROWS : List (List Nat) :=
  [[0, 5, 15, 16], [1, 5, 6, 8, 15, 17], [2, 6, 7, 9, 18], [0, 3, 5, 7, 10, 15, 19],
   [1, 4, 5, 6, 11, 15, 20], [2, 5, 6, 7, 12, 21], [3, 6, 7, 13, 22], [4, 7, 14, 23],
   [0, 8, 13, 23], [1, 9, 13, 14, 16, 23], [2, 10, 14, 15, 17], [3, 8, 11, 13, 15, 18, 23],
   [4, 9, 12, 13, 14, 19, 23], [5, 10, 13, 14, 15, 20], [6, 11, 14, 15, 21], [7, 12, 15, 22],
   [7, 8, 16, 21], [0, 7, 9, 17, 21, 22], [1, 10, 18, 22, 23], [2, 7, 11, 16, 19, 21, 23],
   [3, 7, 12, 17, 20, 21, 22], [4, 13, 18, 21, 22, 23], [5, 14, 19, 22, 23], [6, 15, 20, 23]]

/-- The taps of the 24 lines of `inv_mix_columns`. -/
def INV_MC_ROWS : List (List Nat) :=
  [[6, 7, 8, 11, 14, 21], [0, 6, 8, 9, 11, 12, 14, 15, 21, 22],
   [0, 1, 7, 8, 9, 10, 12, 13, 15, 22, 23], [1, 2, 6, 7, 9, 10, 13, 16, 21, 23],
   [2, 3, 6, 10, 17, 21, 22], [3, 4, 7, 8, 11, 18, 22, 23], [4, 5, 9, 12, 19, 23],
   [5, 6, 10, 13, 20], [5, 14, 15, 16, 19, 22], [5, 6, 8, 14, 16, 17, 19, 20, 22, 23],
   [6, 7, 8, 9, 15, 16, 17, 18, 20, 21, 23], [0, 5, 7, 9, 10, 14, 15, 17, 18, 21],
   [1, 5, 6, 10, 11, 14, 18], [2, 6, 7, 11, 12, 15, 16, 19], [3, 7, 12, 13, 17, 20],
   [4, 13, 14, 18, 21], [0, 3, 6, 13, 22, 23], [0, 1, 3, 4, 6, 7, 13, 14, 16, 22],
   [0, 1, 2, 4, 5, 7, 14, 15, 16, 17, 23], [1, 2, 5, 8, 13, 15, 17, 18, 22, 23],
   [2, 9, 13, 14, 18, 19, 22], [0, 3, 10, 14, 15, 19, 20, 23], [1, 4, 11, 15, 20, 21],
   [2, 5, 12, 21, 22]]

/-- A check of every entry of a table against its index, in one pass. -/
def checkIdx (f : Nat → Nat → Bool) (l : List Nat) (k : Nat) : Bool :=
  match l with
  | [] => true
  | y :: ys => f k y && checkIdx f ys (k + 1)

/-- The word cascade of `key_schedule` (the three `master_key ^= ...` lines). -/
def ks_cascade (x : Nat) : Nat :=
  let x := x ^^^ (((x >>> 96) &&& 0xFFFFFFFF) <<< 64)
  let x := x ^^^ (((x >>> 64) &&& 0xFFFFFFFF) <<< 32)
  x ^^^ (((x >>> 32) &&& 0xFFFFFFFF) <<< 0)

/-- The master key after the first `g` step and the cascade. -/
def ks_mid (master_key seed : Nat) : Nat :=
  let m := master_key ^^^ (seed <<< 64)
  ks_cascade (m ^^^ (g ((m &&& 0xFFFFFFFF) % 2 ^ 32) 1 <<< 96))

/-- The master key after the second `g` step. -/
def ks_last (master_key seed : Nat) : Nat :=
  let m := ks_mid master_key seed
  m ^^^ (g ((m &&& 0xFFFFFFFF) % 2 ^ 32) 2 <<< 96)

/-- The part of round key `r` (`r ≤ 9`) that is XOR-linear in the master key: what
`key_schedule` computes when `g` is left out. -/
def ks_lin (r x : Nat) : Nat :=
  match r with
  | 0 => (x >>> 104) &&& 0xFFFFFF
  | 1 => (x >>> 80) &&& 0xFFFFFF
  | 2 => (x >>> 56) &&& 0xFFFFFF
  | 3 => (x >>> 32) &&& 0xFFFFFF
  | 4 => (x >>> 8) &&& 0xFFFFFF
  | 5 => ((x &&& 0xFF) <<< 16) ^^^ ((ks_cascade x >>> 112) &&& 0xFFFF)
  | 6 => (ks_cascade x >>> 88) &&& 0xFFFFFF
  | 7 => (ks_cascade x >>> 64) &&& 0xFFFFFF
  | 8 => (ks_cascade x >>> 40) &&& 0xFFFFFF
  | 9 => (ks_cascade x >>> 16) &&& 0xFFFFFF
  | _ => 0

/-- The XOR-linear part of round key 10. -/
def ks_lin10 (x : Nat) : Nat :=
  (((ks_cascade x >>> 0) &&& 0xFFFF) <<< 8) ^^^ ((ks_cascade x >>> 120) &&& 0xFF)

/-- The source bit of bit `x` under `_mm256_shufflelo_epi16`. -/
def srcLo16 (imm8 x : Nat) : Nat :=
  16 * (if x / 16 % 8 < 4 then 8 * (x / 16 / 8) + (imm8 >>> (2 * (x / 16 % 8))) % 4
    else x / 16) + x % 16

/-- The source bit of bit `x` under `_mm256_shufflehi_epi16`. -/
def srcHi16 (imm8 x : Nat) : Nat :=
  16 * (if x / 16 % 8 < 4 then x / 16
    else 8 * (x / 16 / 8) + 4 + (imm8 >>> (2 * (x / 16 % 8 - 4))) % 4) + x % 16

/-- Which of the two shifted halves of a masked swap supplies bit `x`: the pair
(taken from the high half, taken from the low half). -/
def swapSel (mh ml k x : Nat) : Bool × Bool :=
  (decide (x % 16 + k < 16) && (decide (x + k < 256) && mh.testBit ((x + k) % 8)),
   decide (k ≤ x % 16) && (decide (x - k < 256) && ml.testBit ((x - k) % 8)))

/-- Bit `x` of a masked swap comes from bit `x ^^^ k`, out of exactly one half. -/
def swapOk (mh ml k x : Nat) : Bool :=
  (swapSel mh ml k x == (true, false) && decide (x + k = x ^^^ k))
    || (swapSel mh ml k x == (false, true) && decide (x - k = x ^^^ k))

/-- The byte whose bit `k` is bit `k` of `c`, for the step of `subset_shift` that tests it. -/
def shiftBit (c k : Nat) : Nat := if (c >>> k) &&& 0x1 ≠ 0 then 2 ^ k else 0

/-- A step of a loop that only adds members to a byte set: the members of `F cell` are those
of `cell` and the `y` with `C y`. -/
def Adds (F : Nat → Nat) (C : Nat → Prop) : Prop :=
  ∀ cell y, (F cell).testBit y = true ↔ (cell.testBit y = true ∨ C y)

/-- What the innermost iteration of the loops that build `T` does to the cell `T[i][z][j]`. -/
def T_inner (LT : Tables) (i z j i' x0 x1 x2 y0 y1 y2 : Nat) (cell : Nat) : Nat :=
  if i' = i ∧ linear_layer LT ((y0 <<< 16) ^^^ (y1 <<< 8) ^^^ y2) = z then
    match j with
    | 0 => subset_union cell (DDTV_out_shifted x0 y0 0)
    | 1 => subset_union cell (DDTV_out_shifted x1 y1 0)
    | 2 => subset_union cell (DDTV_out_shifted x2 y2 0)
    | _ => cell
  else cell

/-- The loop over `delta_y7_2`, seen from the cell `T[i][z][j]`. -/
def T_loop2 (LT : Tables) (i z j i' x0 x1 x2 y0 y1 : Nat) (cell : Nat) : Nat :=
  (POSSIBLE_DELTA_Y x2).foldl (fun c y2 => T_inner LT i z j i' x0 x1 x2 y0 y1 y2 c) cell

/-- The loop over `delta_y7_1`, seen from the cell `T[i][z][j]`. -/
def T_loop1 (LT : Tables) (i z j i' x0 x1 x2 y0 : Nat) (cell : Nat) : Nat :=
  (POSSIBLE_DELTA_Y x1).foldl (fun c y1 => T_loop2 LT i z j i' x0 x1 x2 y0 y1 c) cell

/-- The loop over `delta_y7_0`, seen from the cell `T[i][z][j]`. -/
def T_loop0 (LT : Tables) (i z j i' x0 x1 x2 : Nat) (cell : Nat) : Nat :=
  (POSSIBLE_DELTA_Y x0).foldl (fun c y0 => T_loop1 LT i z j i' x0 x1 x2 y0 c) cell

/-- The difference `delta_x7` that the loops derive from `din` and `dout`. -/
def T_delta_x7 (LT : Tables) (din dout : Nat) : Nat :=
  LT.LUT_L_FROM_MSB.getD dout 0 ^^^ (din <<< 8)

/-- The loop over `dout`, seen from the cell `T[i][z][j]`. -/
def T_loop_dout (LT : Tables) (i z j i' din : Nat) (cell : Nat) : Nat :=
  (POSSIBLE_DELTA_Y din).foldl (fun c dout =>
    T_loop0 LT i z j i' ((T_delta_x7 LT din dout >>> 16) % 256)
      ((T_delta_x7 LT din dout >>> 8) % 256) (T_delta_x7 LT din dout % 256) c) cell

/-- The members an innermost iteration adds to the cell `T[i][z][j]`. -/
def T_adds (LT : Tables) (i z j i' x0 x1 x2 y0 y1 y2 : Nat) (y : Nat) : Prop :=
  i' = i ∧ linear_layer LT ((y0 <<< 16) ^^^ (y1 <<< 8) ^^^ y2) = z ∧
    ((j = 0 ∧ (DDTV_out_shifted x0 y0 0).testBit y = true)
      ∨ (j = 1 ∧ (DDTV_out_shifted x1 y1 0).testBit y = true)
      ∨ (j = 2 ∧ (DDTV_out_shifted x2 y2 0).testBit y = true))

/-- The difference that the tweak difference `d << 40` puts into round key `r` (`r ≤ 9`). -/
def rk_diff (r d : Nat) : Nat :=
  match r with
  | 0 => d
  | 6 => d <<< 16
  | 7 => d <<< 8
  | 8 => d
  | _ => 0

/-- The state of `encrypt` after the key addition and `n` rounds with the linear layer, for
the round keys `rk`. -/
def enc_state (LT : Tables) (rk : List Nat) (p n : Nat) : Nat :=
  (List.range' 1 n).foldl (fun st i => round_with_MC LT st (rk.getD i 0)) (p ^^^ rk.getD 0 0)

/-- The output difference of the S-box for the input `x` and the input difference `d`. -/
def sbox_diff (x d : Nat) : Nat := SBOX.getD x 0 ^^^ SBOX.getD (x ^^^ d) 0

/-- The S-box output difference of the active byte of a pair in round 7. -/
def trail_dout (key p t d : Nat) : Nat :=
  sbox_diff (lane (enc_state generate_tables (key_schedule key t) p 6) 0) d

/-- The state difference of a pair after round 7. -/
def trail_dx7 (key p t d : Nat) : Nat := T_delta_x7 generate_tables d (trail_dout key p t d)

/-- The S-box output difference of lane `k` of a pair in round 8. -/
def trail_dy7 (key p t d k : Nat) : Nat :=
  sbox_diff (lane (enc_state generate_tables (key_schedule key t) p 7) k)
    (lane (trail_dx7 key p t d) k)

/-- The pairs of a run: pair `i` (`i < 3`) is made of the plaintext `pp i`, the tweak `tt i` and
the input difference `dd i`, all within their types, under the master key `key`. -/
def PairsFrom (key : Nat) (PAIRS : List pair_t) (pp tt dd : Nat → Nat) : Prop :=
  ∀ i, i < 3 → PAIRS.getD i default = make_pair generate_tables key (pp i) (tt i) (dd i)
    ∧ pp i < 2 ^ 24 ∧ tt i < 2 ^ 64 ∧ dd i < 256

/-- One iteration of the loop over the pairs inside the `rk8` enumeration, for a pair with the
states `x8`, `x8_PRIME`, the tweak `t` and the difference `d`. -/
def rk7_step (LT : Tables) (x8 x8_PRIME t d rk8 : Nat) (acc : Option Nat) : Option Nat :=
  match acc with
  | none => none
  | some L_inv_rk7_0 =>
    let rk8_normalised := normalize_round_key rk8 t 8
    let rk8_PRIME_normalised := rk8_normalised ^^^ d
    let v7 := inv_linear_layer LT (inv_round_with_MC LT x8 rk8_normalised)
    let v7_PRIME := inv_linear_layer LT
      (inv_round_with_MC LT x8_PRIME rk8_PRIME_normalised ^^^ (d <<< 8))
    if (v7 ^^^ v7_PRIME) &&& 0x00FFFF ≠ 0 then none
    else
      let delta_v7_0 := ((v7 ^^^ v7_PRIME) >>> 16) % 256
      let norm_7_0 := (inv_linear_layer LT (normalize_round_key 0 t 7) >>> 16) % 256
      let v7_0 := (v7 >>> 16) % 256
      some (subset_intersect L_inv_rk7_0 (DDTV_out_shifted d delta_v7_0 (v7_0 ^^^ norm_7_0)))

/-- The tuple the search body prints for the guess `(rk10_, L_inv_rk9_)`, the bytes `rk8_0`,
`rk8_1`, `rk8_2` (after their XOR with `v8` and `norm_8`) and the byte `L_inv_rk7_0_`; `t0` is
`PAIRS[0].t`. -/
def emitted (LT : Tables) (t0 rk10_ L_inv_rk9_ rk8_0 rk8_1 rk8_2 L_inv_rk7_0_ : Nat) :
    Nat × Nat × Nat × Nat :=
  (L_inv_rk7_0_, linear_layer LT ((rk8_0 <<< 16) ^^^ (rk8_1 <<< 8) ^^^ rk8_2),
    normalize_round_key (linear_layer LT L_inv_rk9_) t0 9,
    normalize_round_key_10 rk10_ (linear_layer LT L_inv_rk9_ % 256) t0)

/-- The local `v7` of the loop over the pairs inside the `rk8` enumeration. -/
def body_v7 (LT : Tables) (PAIRS : List pair_t) (rk10_ L_inv_rk9_ rk8 i : Nat) : Nat :=
  inv_linear_layer LT (inv_round_with_MC LT (body_x8 LT PAIRS rk10_ L_inv_rk9_ i)
    (normalize_round_key rk8 (PAIRS.getD i default).t 8))

/-- The local `v7_PRIME`. -/
def body_v7_PRIME (LT : Tables) (PAIRS : List pair_t) (rk10_ L_inv_rk9_ rk8 i : Nat) : Nat :=
  inv_linear_layer LT
    (inv_round_with_MC LT (body_x8_PRIME LT PAIRS rk10_ L_inv_rk9_ i)
        (normalize_round_key rk8 (PAIRS.getD i default).t 8 ^^^ (PAIRS.getD i default).d)
      ^^^ ((PAIRS.getD i default).d <<< 8))

/-- The local `delta_v7_0`, second index into `DDTV_out_shifted`. -/
def body_delta_v7_0 (LT : Tables) (PAIRS : List pair_t) (rk10_ L_inv_rk9_ rk8 i : Nat) : Nat :=
  ((body_v7 LT PAIRS rk10_ L_inv_rk9_ rk8 i ^^^ body_v7_PRIME LT PAIRS rk10_ L_inv_rk9_ rk8 i)
    >>> 16) % 256

/-- The value `v7_0 ^ norm_7_0`, third index into `DDTV_out_shifted`. -/
def body_shift_index (LT : Tables) (PAIRS : List pair_t) (rk10_ L_inv_rk9_ rk8 i : Nat) : Nat :=
  (body_v7 LT PAIRS rk10_ L_inv_rk9_ rk8 i >>> 16) % 256
    ^^^ (inv_linear_layer LT (normalize_round_key 0 (PAIRS.getD i default).t 7) >>> 16) % 256

/-! ## Bit-level lemmas -/

theorem shr_xor (a b k : Nat) : (a ^^^ b) >>> k = (a >>> k) ^^^ (b >>> k) := by
  apply Nat.eq_of_testBit_eq; intro i
  simp [Nat.testBit_shiftRight, Nat.testBit_xor]

theorem shl_xor (a b k : Nat) : (a ^^^ b) <<< k = (a <<< k) ^^^ (b <<< k) := by
  apply Nat.eq_of_testBit_eq; intro i
  simp only [Nat.testBit_shiftLeft, Nat.testBit_xor]
  cases decide (i ≥ k) <;> simp

theorem mod_xor (a b n : Nat) : (a ^^^ b) % 2 ^ n = (a % 2 ^ n) ^^^ (b % 2 ^ n) := by
  apply Nat.eq_of_testBit_eq; intro i
  simp only [Nat.testBit_mod_two_pow, Nat.testBit_xor]
  cases decide (i < n) <;> simp

theorem mod256_xor (a b : Nat) : (a ^^^ b) % 256 = (a % 256) ^^^ (b % 256) :=
  mod_xor a b 8

theorem and_xor (a b m : Nat) : (a ^^^ b) &&& m = (a &&& m) ^^^ (b &&& m) :=
  Nat.and_xor_distrib_right

theorem xor_left_comm (a b c : Nat) : a ^^^ (b ^^^ c) = b ^^^ (a ^^^ c) := by
  rw [← Nat.xor_assoc, Nat.xor_comm a b, Nat.xor_assoc]

theorem and_0xFF (x : Nat) : x &&& 0xFF = x % 256 := Nat.and_pow_two_sub_one_eq_mod x 8

theorem and_0xFFFF (x : Nat) : x &&& 0xFFFF = x % 2 ^ 16 := Nat.and_pow_two_sub_one_eq_mod x 16

theorem and_0xFFFFFF (x : Nat) : x &&& 0xFFFFFF = x % 2 ^ 24 := Nat.and_pow_two_sub_one_eq_mod x 24

theorem and_0xFFFFFFFF (x : Nat) : x &&& 0xFFFFFFFF = x % 2 ^ 32 :=
  Nat.and_pow_two_sub_one_eq_mod x 32

/-- Two numbers with no common bit: `|||` and `^^^` agree. -/
theorem or_eq_xor_of_disjoint (x y : Nat) (h : ∀ i, x.testBit i = true → y.testBit i = false) :
    x ||| y = x ^^^ y := by
  apply Nat.eq_of_testBit_eq; intro i
  simp only [Nat.testBit_or, Nat.testBit_xor]
  have := h i
  cases hx : x.testBit i <;> cases hy : y.testBit i <;> simp_all

/-- Below `2 ^ k`, a number has no bit in common with a multiple of `2 ^ k`. -/
theorem shl_xor_eq_add (a b k : Nat) (h : a < 2 ^ k) : (b <<< k) ^^^ a = b * 2 ^ k + a := by
  have h1 : b * 2 ^ k + a = (b <<< k) ||| a := by
    rw [Nat.shiftLeft_eq, Nat.mul_comm b]
    exact Nat.mul_add_lt_is_or h b
  rw [h1]
  symm
  apply or_eq_xor_of_disjoint
  intro i hi
  rw [Nat.testBit_shiftLeft] at hi
  simp only [Bool.and_eq_true, decide_eq_true_eq] at hi
  apply Nat.testBit_lt_two_pow
  exact Nat.lt_of_lt_of_le h (Nat.pow_le_pow_right (by decide) hi.1)

theorem shl_or_eq_add (a b k : Nat) (h : a < 2 ^ k) : (b <<< k) ||| a = b * 2 ^ k + a := by
  rw [Nat.shiftLeft_eq, Nat.mul_comm b]
  exact (Nat.mul_add_lt_is_or h b).symm

theorem XorAdditive.map_zero {f : Nat → Nat} (hf : XorAdditive f) : f 0 = 0 := by
  have h := hf 0 0
  simp only [Nat.xor_self] at h
  have h2 : f 0 ^^^ f 0 = 0 := Nat.xor_self _
  omega

theorem XorAdditive.comp {f g : Nat → Nat} (hf : XorAdditive f) (hg : XorAdditive g) :
    XorAdditive (fun x => f (g x)) := fun a b => by
  show f (g (a ^^^ b)) = f (g a) ^^^ f (g b)
  rw [hg, hf]

/-- A number between `2 ^ n` and `2 ^ (n + 1)` is its low part XOR the top bit. -/
theorem split_top_bit (s n : Nat) (h1 : 2 ^ n ≤ s) (h2 : s < 2 ^ (n + 1)) :
    s = (s - 2 ^ n) ^^^ 2 ^ n := by
  have h3 : s - 2 ^ n < 2 ^ n := by
    have : 2 ^ (n + 1) = 2 * 2 ^ n := by rw [Nat.pow_succ]; omega
    omega
  have h4 := shl_xor_eq_add (s - 2 ^ n) 1 n h3
  rw [Nat.one_shiftLeft] at h4
  rw [Nat.xor_comm, h4]
  omega

/-- Two XOR-additive functions that agree on the powers of two below `2 ^ n` agree on
every number below `2 ^ n`. -/
theorem XorAdditive.ext_on_bits {f g : Nat → Nat} (hf : XorAdditive f) (hg : XorAdditive g)
    (n : Nat) (h : ∀ i < n, f (2 ^ i) = g (2 ^ i)) : ∀ s < 2 ^ n, f s = g s := by
  induction n with
  | zero =>
    intro s hs
    have : s = 0 := by simpa using hs
    rw [this, hf.map_zero, hg.map_zero]
  | succ n ih =>
    intro s hs
    have ih2 := ih (fun i hi => h i (Nat.lt_succ_of_lt hi))
    by_cases hlt : s < 2 ^ n
    · exact ih2 s hlt
    · have h1 : 2 ^ n ≤ s := Nat.le_of_not_lt hlt
      have h3 : s - 2 ^ n < 2 ^ n := by
        have : 2 ^ (n + 1) = 2 * 2 ^ n := by rw [Nat.pow_succ]; omega
        omega
      rw [split_top_bit s n h1 hs, hf, hg, ih2 _ h3, h n (Nat.lt_succ_self n)]

theorem XorAdditive.id : XorAdditive (fun x => x) := fun _ _ => rfl

theorem XorAdditive.zero : XorAdditive (fun _ => 0) := fun _ _ => (Nat.xor_self 0).symm

theorem XorAdditive.xor {f g : Nat → Nat} (hf : XorAdditive f) (hg : XorAdditive g) :
    XorAdditive (fun x => f x ^^^ g x) := fun a b => by
  show f (a ^^^ b) ^^^ g (a ^^^ b) = (f a ^^^ g a) ^^^ (f b ^^^ g b)
  rw [hf, hg]
  generalize f a = p
  generalize f b = q
  generalize g a = u
  generalize g b = v
  simp only [Nat.xor_assoc, Nat.xor_comm, xor_left_comm]

theorem XorAdditive.shr {f : Nat → Nat} (hf : XorAdditive f) (k : Nat) :
    XorAdditive (fun x => f x >>> k) := fun a b => by
  show f (a ^^^ b) >>> k = (f a >>> k) ^^^ (f b >>> k)
  rw [hf, shr_xor]

theorem XorAdditive.shl {f : Nat → Nat} (hf : XorAdditive f) (k : Nat) :
    XorAdditive (fun x => f x <<< k) := fun a b => by
  show f (a ^^^ b) <<< k = (f a <<< k) ^^^ (f b <<< k)
  rw [hf, shl_xor]

theorem XorAdditive.and {f : Nat → Nat} (hf : XorAdditive f) (m : Nat) :
    XorAdditive (fun x => f x &&& m) := fun a b => by
  show f (a ^^^ b) &&& m = (f a &&& m) ^^^ (f b &&& m)
  rw [hf, and_xor]

theorem XorAdditive.mod_two_pow {f : Nat → Nat} (hf : XorAdditive f) (n : Nat) :
    XorAdditive (fun x => f x % 2 ^ n) := fun a b => by
  show f (a ^^^ b) % 2 ^ n = (f a % 2 ^ n) ^^^ (f b % 2 ^ n)
  rw [hf, mod_xor]

/-! ## The mixing layer as a bit matrix -/

theorem mix_columns_eq_rows (s : Nat) : mix_columns s = bitRows MC_ROWS 0 s := by
  simp only [mix_columns, MC_ROWS, bitRows, tapXor, Nat.xor_zero, Nat.or_assoc, Nat.xor_assoc,
    Nat.zero_or, Nat.or_zero, Nat.reduceAdd]

theorem inv_mix_columns_eq_rows (s : Nat) : inv_mix_columns s = bitRows INV_MC_ROWS 0 s := by
  simp only [inv_mix_columns, INV_MC_ROWS, bitRows, tapXor, Nat.xor_zero, Nat.or_assoc,
    Nat.xor_assoc, Nat.zero_or, Nat.or_zero, Nat.reduceAdd]

theorem tapXor_xor (taps : List Nat) (a b : Nat) :
    tapXor taps (a ^^^ b) = tapXor taps a ^^^ tapXor taps b := by
  induction taps with
  | nil => simp [tapXor]
  | cons t ts ih =>
    simp only [tapXor, ih, shr_xor]
    simp only [Nat.xor_assoc, Nat.xor_comm, xor_left_comm]

theorem bitRows_testBit_lt (rows : List (List Nat)) (k s i : Nat) (h : i < k) :
    (bitRows rows k s).testBit i = false := by
  induction rows generalizing k with
  | nil => simp [bitRows]
  | cons r rs ih =>
    simp only [bitRows, Nat.testBit_or, Nat.testBit_shiftLeft, ih (k + 1) (by omega)]
    have : ¬ (i ≥ k) := by omega
    simp [this]

theorem bitRows_testBit_ge (rows : List (List Nat)) (k s i : Nat) (h : k + rows.length ≤ i) :
    (bitRows rows k s).testBit i = false := by
  induction rows generalizing k with
  | nil => simp [bitRows]
  | cons r rs ih =>
    simp only [List.length_cons] at h
    simp only [bitRows, Nat.testBit_or, Nat.testBit_shiftLeft, ih (k + 1) (by omega),
      Nat.testBit_and, Bool.or_false]
    have h1 : i - k ≠ 0 := by omega
    have h2 : Nat.testBit 1 (i - k) = false := by
      cases hb : Nat.testBit 1 (i - k)
      · rfl
      · exact absurd (Nat.testBit_one_eq_true_iff_self_eq_zero.mp hb) h1
    simp [h2]

theorem bitRows_lt (rows : List (List Nat)) (s : Nat) : bitRows rows 0 s < 2 ^ rows.length :=
  Nat.lt_pow_two_of_testBit _ (fun i hi => bitRows_testBit_ge rows 0 s i (by omega))

theorem bitRows_xor (rows : List (List Nat)) (k a b : Nat) :
    bitRows rows k (a ^^^ b) = bitRows rows k a ^^^ bitRows rows k b := by
  induction rows generalizing k with
  | nil => simp [bitRows]
  | cons r rs ih =>
    have hd : ∀ x y : Nat, ((tapXor r x &&& 1) <<< k) ||| bitRows rs (k + 1) y
        = ((tapXor r x &&& 1) <<< k) ^^^ bitRows rs (k + 1) y := by
      intro x y
      apply or_eq_xor_of_disjoint
      intro i hi
      rw [Nat.testBit_shiftLeft] at hi
      simp only [Bool.and_eq_true, decide_eq_true_eq, Nat.testBit_and] at hi
      have h0 := Nat.testBit_one_eq_true_iff_self_eq_zero.mp hi.2.2
      exact bitRows_testBit_lt rs (k + 1) y i (by omega)
    simp only [bitRows]
    rw [hd, hd, hd, ih, tapXor_xor, and_xor, shl_xor]
    simp only [Nat.xor_assoc, Nat.xor_comm, xor_left_comm]

theorem mix_columns_xor : XorAdditive mix_columns := fun a b => by
  simp only [mix_columns_eq_rows, bitRows_xor]

theorem inv_mix_columns_xor : XorAdditive inv_mix_columns := fun a b => by
  simp only [inv_mix_columns_eq_rows, bitRows_xor]

theorem mix_columns_lt (s : Nat) : mix_columns s < 2 ^ 24 := by
  rw [mix_columns_eq_rows]
  exact bitRows_lt MC_ROWS s

theorem inv_mix_columns_lt (s : Nat) : inv_mix_columns s < 2 ^ 24 := by
  rw [inv_mix_columns_eq_rows]
  exact bitRows_lt INV_MC_ROWS s

theorem inv_mix_columns_mix_columns (s : Nat) (h : s < 2 ^ 24) :
    inv_mix_columns (mix_columns s) = s :=
  XorAdditive.ext_on_bits (f := fun x => inv_mix_columns (mix_columns x)) (g := fun x => x)
    (inv_mix_columns_xor.comp mix_columns_xor) (fun _ _ => rfl) 24 (by decide) s h

theorem mix_columns_inv_mix_columns (s : Nat) (h : s < 2 ^ 24) :
    mix_columns (inv_mix_columns s) = s :=
  XorAdditive.ext_on_bits (f := fun x => mix_columns (inv_mix_columns x)) (g := fun x => x)
    (mix_columns_xor.comp inv_mix_columns_xor) (fun _ _ => rfl) 24 (by decide) s h

/-! ## Bytes of a 24-bit state -/

theorem pack3_eq (a0 a1 a2 : Nat) (h1 : a1 < 256) (h2 : a2 < 256) :
    (a0 <<< 16) ^^^ (a1 <<< 8) ^^^ a2 = a0 * 65536 + a1 * 256 + a2 := by
  have e1 : (a0 <<< 16) ^^^ (a1 <<< 8) = a0 * 2 ^ 16 + a1 <<< 8 :=
    shl_xor_eq_add (a1 <<< 8) a0 16 (by rw [Nat.shiftLeft_eq]; omega)
  have e2 : a0 * 2 ^ 16 + a1 <<< 8 = (a0 * 256 + a1) <<< 8 := by
    simp only [Nat.shiftLeft_eq]; omega
  rw [e1, e2, shl_xor_eq_add a2 _ 8 (by omega)]
  omega

theorem pack3_xor (x0 x1 x2 y0 y1 y2 : Nat) :
    ((x0 ^^^ y0) <<< 16) ^^^ ((x1 ^^^ y1) <<< 8) ^^^ (x2 ^^^ y2)
      = ((x0 <<< 16) ^^^ (x1 <<< 8) ^^^ x2) ^^^ ((y0 <<< 16) ^^^ (y1 <<< 8) ^^^ y2) := by
  rw [shl_xor, shl_xor]
  generalize x0 <<< 16 = a0
  generalize x1 <<< 8 = a1
  generalize y0 <<< 16 = b0
  generalize y1 <<< 8 = b1
  simp only [Nat.xor_assoc, Nat.xor_comm, xor_left_comm]

theorem pack3_lt (a0 a1 a2 : Nat) (h0 : a0 < 256) (h1 : a1 < 256) (h2 : a2 < 256) :
    (a0 <<< 16) ^^^ (a1 <<< 8) ^^^ a2 < 2 ^ 24 := by
  rw [pack3_eq a0 a1 a2 h1 h2]; omega

theorem pack3_byte0 (a0 a1 a2 : Nat) (h0 : a0 < 256) (h1 : a1 < 256) (h2 : a2 < 256) :
    (((a0 <<< 16) ^^^ (a1 <<< 8) ^^^ a2) >>> 16) % 256 = a0 := by
  rw [pack3_eq a0 a1 a2 h1 h2, Nat.shiftRight_eq_div_pow]; omega

theorem pack3_byte1 (a0 a1 a2 : Nat) (h1 : a1 < 256) (h2 : a2 < 256) :
    (((a0 <<< 16) ^^^ (a1 <<< 8) ^^^ a2) >>> 8) % 256 = a1 := by
  rw [pack3_eq a0 a1 a2 h1 h2, Nat.shiftRight_eq_div_pow]; omega

theorem pack3_byte2 (a0 a1 a2 : Nat) (h1 : a1 < 256) (h2 : a2 < 256) :
    ((a0 <<< 16) ^^^ (a1 <<< 8) ^^^ a2) % 256 = a2 := by
  rw [pack3_eq a0 a1 a2 h1 h2]; omega

/-- A 24-bit word is the three bytes read off it. -/
theorem bytes_pack3 (s : Nat) (h : s < 2 ^ 24) :
    (((s >>> 16) % 256) <<< 16) ^^^ (((s >>> 8) % 256) <<< 8) ^^^ (s % 256) = s := by
  rw [pack3_eq _ _ _ (Nat.mod_lt _ (by decide)) (Nat.mod_lt _ (by decide))]
  simp only [Nat.shiftRight_eq_div_pow]; omega

/-- The same, in the order in which `linear_layer` assembles its result. -/
theorem bytes_recombine (s : Nat) (h : s < 2 ^ 24) :
    (s % 256) ^^^ (((s >>> 8) % 256) <<< 8) ^^^ (((s >>> 16) % 256) <<< 16) = s := by
  have e := bytes_pack3 s h
  have c : (s % 256) ^^^ (((s >>> 8) % 256) <<< 8) ^^^ (((s >>> 16) % 256) <<< 16)
      = (((s >>> 16) % 256) <<< 16) ^^^ (((s >>> 8) % 256) <<< 8) ^^^ (s % 256) := by
    simp only [Nat.xor_assoc, Nat.xor_comm, xor_left_comm]
  rw [c, e]

theorem getD_map_range (f : Nat → Nat) (n i : Nat) (h : i < n) :
    ((List.range n).map f).getD i 0 = f i := by
  simp [List.getD_eq_getElem?_getD, List.getElem?_map, List.getElem?_range h]

/-! ## Row rotation -/

theorem rotl6_eq : ∀ x < 256, ((x <<< 6) ||| (x >>> 2)) % 256 = ((x <<< 6) % 256) ^^^ (x >>> 2) := by
  decide!

theorem rotl4_eq : ∀ x < 256, ((x <<< 4) ||| (x >>> 4)) % 256 = ((x <<< 4) % 256) ^^^ (x >>> 4) := by
  decide!

theorem rotr6_eq : ∀ x < 256, ((x >>> 6) ||| (x <<< 2)) % 256 = (x >>> 6) ^^^ ((x <<< 2) % 256) := by
  decide!

theorem rotr6_rotl6 : ∀ x < 256,
    (((((x <<< 6) ||| (x >>> 2)) % 256) >>> 6) ||| ((((x <<< 6) ||| (x >>> 2)) % 256) <<< 2)) % 256
      = x := by
  decide!

theorem rotl6_rotr6 : ∀ x < 256,
    (((((x >>> 6) ||| (x <<< 2)) % 256) <<< 6) ||| ((((x >>> 6) ||| (x <<< 2)) % 256) >>> 2)) % 256
      = x := by
  decide!

theorem rotr4_rotl4 : ∀ x < 256,
    (((((x <<< 4) ||| (x >>> 4)) % 256) >>> 4) ||| ((((x <<< 4) ||| (x >>> 4)) % 256) <<< 4)) % 256
      = x := by
  decide!

theorem rotl4_rotr4 : ∀ x < 256,
    (((((x >>> 4) ||| (x <<< 4)) % 256) <<< 4) ||| ((((x >>> 4) ||| (x <<< 4)) % 256) >>> 4)) % 256
      = x := by
  decide!

theorem rotate_rows_lt (s : Nat) : rotate_rows s < 2 ^ 24 := by
  unfold rotate_rows
  exact pack3_lt _ _ _ (Nat.mod_lt _ (by decide)) (Nat.mod_lt _ (by decide))
    (Nat.mod_lt _ (by decide))

theorem inv_rotate_rows_lt (s : Nat) : inv_rotate_rows s < 2 ^ 24 := by
  unfold inv_rotate_rows
  exact pack3_lt _ _ _ (Nat.mod_lt _ (by decide)) (Nat.mod_lt _ (by decide))
    (Nat.mod_lt _ (by decide))

theorem inv_rotate_rows_rotate_rows (s : Nat) (h : s < 2 ^ 24) :
    inv_rotate_rows (rotate_rows s) = s := by
  have hb : ∀ x : Nat, x % 256 < 256 := fun x => Nat.mod_lt _ (by decide)
  unfold inv_rotate_rows
  simp only [and_0xFF]
  have e0 : (rotate_rows s >>> 16) % 256 = (s >>> 16) % 256 := by
    unfold rotate_rows; simp only [and_0xFF]
    exact pack3_byte0 _ _ _ (hb _) (hb _) (hb _)
  have e1 : (rotate_rows s >>> 8) % 256
      = ((((s >>> 8) % 256) <<< 6) ||| (((s >>> 8) % 256) >>> 2)) % 256 := by
    unfold rotate_rows; simp only [and_0xFF]
    exact pack3_byte1 _ _ _ (hb _) (hb _)
  have e2 : rotate_rows s % 256 = (((s % 256) <<< 4) ||| ((s % 256) >>> 4)) % 256 := by
    unfold rotate_rows; simp only [and_0xFF]
    exact pack3_byte2 _ _ _ (hb _) (hb _)
  rw [e0, e1, e2, rotr6_rotl6 _ (hb _), rotr4_rotl4 _ (hb _)]
  exact bytes_pack3 s h

theorem rotate_rows_inv_rotate_rows (s : Nat) (h : s < 2 ^ 24) :
    rotate_rows (inv_rotate_rows s) = s := by
  have hb : ∀ x : Nat, x % 256 < 256 := fun x => Nat.mod_lt _ (by decide)
  unfold rotate_rows
  simp only [and_0xFF]
  have e0 : (inv_rotate_rows s >>> 16) % 256 = (s >>> 16) % 256 := by
    unfold inv_rotate_rows; simp only [and_0xFF]
    exact pack3_byte0 _ _ _ (hb _) (hb _) (hb _)
  have e1 : (inv_rotate_rows s >>> 8) % 256
      = ((((s >>> 8) % 256) >>> 6) ||| (((s >>> 8) % 256) <<< 2)) % 256 := by
    unfold inv_rotate_rows; simp only [and_0xFF]
    exact pack3_byte1 _ _ _ (hb _) (hb _)
  have e2 : inv_rotate_rows s % 256 = (((s % 256) >>> 4) ||| ((s % 256) <<< 4)) % 256 := by
    unfold inv_rotate_rows; simp only [and_0xFF]
    exact pack3_byte2 _ _ _ (hb _) (hb _)
  rw [e0, e1, e2, rotl6_rotr6 _ (hb _), rotl4_rotr4 _ (hb _)]
  exact bytes_pack3 s h

theorem rotr4_eq : ∀ x < 256, ((x >>> 4) ||| (x <<< 4)) % 256 = (x >>> 4) ^^^ ((x <<< 4) % 256) := by
  decide!

theorem rotl6_xor (x y : Nat) (hx : x < 256) (hy : y < 256) :
    (((x ^^^ y) <<< 6) ||| ((x ^^^ y) >>> 2)) % 256 = ((x <<< 6) ||| (x >>> 2)) % 256 ^^^ ((y <<< 6) ||| (y >>> 2)) % 256 := by
  have hxy : x ^^^ y < 256 := Nat.xor_lt_two_pow (n := 8) hx hy
  rw [rotl6_eq _ hxy, rotl6_eq _ hx, rotl6_eq _ hy]
  simp only [shl_xor, shr_xor, mod256_xor]
  simp only [Nat.xor_assoc, Nat.xor_comm, xor_left_comm]

theorem rotl4_xor (x y : Nat) (hx : x < 256) (hy : y < 256) :
    (((x ^^^ y) <<< 4) ||| ((x ^^^ y) >>> 4)) % 256 = ((x <<< 4) ||| (x >>> 4)) % 256 ^^^ ((y <<< 4) ||| (y >>> 4)) % 256 := by
  have hxy : x ^^^ y < 256 := Nat.xor_lt_two_pow (n := 8) hx hy
  rw [rotl4_eq _ hxy, rotl4_eq _ hx, rotl4_eq _ hy]
  simp only [shl_xor, shr_xor, mod256_xor]
  simp only [Nat.xor_assoc, Nat.xor_comm, xor_left_comm]

theorem rotr6_xor (x y : Nat) (hx : x < 256) (hy : y < 256) :
    (((x ^^^ y) >>> 6) ||| ((x ^^^ y) <<< 2)) % 256 = ((x >>> 6) ||| (x <<< 2)) % 256 ^^^ ((y >>> 6) ||| (y <<< 2)) % 256 := by
  have hxy : x ^^^ y < 256 := Nat.xor_lt_two_pow (n := 8) hx hy
  rw [rotr6_eq _ hxy, rotr6_eq _ hx, rotr6_eq _ hy]
  simp only [shl_xor, shr_xor, mod256_xor]
  simp only [Nat.xor_assoc, Nat.xor_comm, xor_left_comm]

theorem rotr4_xor (x y : Nat) (hx : x < 256) (hy : y < 256) :
    (((x ^^^ y) >>> 4) ||| ((x ^^^ y) <<< 4)) % 256 = ((x >>> 4) ||| (x <<< 4)) % 256 ^^^ ((y >>> 4) ||| (y <<< 4)) % 256 := by
  have hxy : x ^^^ y < 256 := Nat.xor_lt_two_pow (n := 8) hx hy
  rw [rotr4_eq _ hxy, rotr4_eq _ hx, rotr4_eq _ hy]
  simp only [shl_xor, shr_xor, mod256_xor]
  simp only [Nat.xor_assoc, Nat.xor_comm, xor_left_comm]

theorem rotate_rows_xor : XorAdditive rotate_rows := fun a b => by
  have hb : ∀ x : Nat, x % 256 < 256 := fun x => Nat.mod_lt _ (by decide)
  have e0 : ((a ^^^ b) >>> 16) % 256 = (a >>> 16) % 256 ^^^ (b >>> 16) % 256 := by
    rw [shr_xor, mod256_xor]
  have e1 : ((a ^^^ b) >>> 8) % 256 = (a >>> 8) % 256 ^^^ (b >>> 8) % 256 := by
    rw [shr_xor, mod256_xor]
  unfold rotate_rows
  simp only [and_0xFF]
  rw [e0, e1, mod256_xor a b, rotl6_xor _ _ (hb _) (hb _), rotl4_xor _ _ (hb _) (hb _)]
  exact pack3_xor _ _ _ _ _ _

theorem inv_rotate_rows_xor : XorAdditive inv_rotate_rows := fun a b => by
  have hb : ∀ x : Nat, x % 256 < 256 := fun x => Nat.mod_lt _ (by decide)
  have e0 : ((a ^^^ b) >>> 16) % 256 = (a >>> 16) % 256 ^^^ (b >>> 16) % 256 := by
    rw [shr_xor, mod256_xor]
  have e1 : ((a ^^^ b) >>> 8) % 256 = (a >>> 8) % 256 ^^^ (b >>> 8) % 256 := by
    rw [shr_xor, mod256_xor]
  unfold inv_rotate_rows
  simp only [and_0xFF]
  rw [e0, e1, mod256_xor a b, rotr6_xor _ _ (hb _) (hb _), rotr4_xor _ _ (hb _) (hb _)]
  exact pack3_xor _ _ _ _ _ _

/-! ## Byte substitution -/

theorem checkIdx_getD (f : Nat → Nat → Bool) (l : List Nat) (k : Nat)
    (h : checkIdx f l k = true) (x : Nat) (hx : x < l.length) :
    f (k + x) (l.getD x 0) = true := by
  induction l generalizing k x with
  | nil => simp at hx
  | cons y ys ih =>
    simp only [checkIdx, Bool.and_eq_true] at h
    cases x with
    | zero => simpa using h.1
    | succ x =>
      have := ih (k + 1) h.2 x (by simpa using hx)
      simpa [Nat.add_assoc, Nat.add_comm 1 x] using this

theorem SBOX_length : SBOX.length = 256 := by decide!

theorem inv_SBOX_length : inv_SBOX.length = 256 := by decide!

theorem SBOX_lt (x : Nat) (hx : x < 256) : SBOX.getD x 0 < 256 := by
  have h : checkIdx (fun _ y => decide (y < 256)) SBOX 0 = true := by decide!
  exact of_decide_eq_true (checkIdx_getD _ SBOX 0 h x (by rw [SBOX_length]; exact hx))

theorem inv_SBOX_lt (x : Nat) (hx : x < 256) : inv_SBOX.getD x 0 < 256 := by
  have h : checkIdx (fun _ y => decide (y < 256)) inv_SBOX 0 = true := by decide!
  exact of_decide_eq_true (checkIdx_getD _ inv_SBOX 0 h x (by rw [inv_SBOX_length]; exact hx))

theorem inv_SBOX_SBOX (x : Nat) (hx : x < 256) : inv_SBOX.getD (SBOX.getD x 0) 0 = x := by
  have h : checkIdx (fun i y => decide (inv_SBOX.getD y 0 = i)) SBOX 0 = true := by decide!
  have e : inv_SBOX.getD (SBOX.getD x 0) 0 = 0 + x :=
    of_decide_eq_true (checkIdx_getD _ SBOX 0 h x (by rw [SBOX_length]; exact hx))
  rw [e, Nat.zero_add]

theorem SBOX_inv_SBOX (x : Nat) (hx : x < 256) : SBOX.getD (inv_SBOX.getD x 0) 0 = x := by
  have h : checkIdx (fun i y => decide (SBOX.getD y 0 = i)) inv_SBOX 0 = true := by decide!
  have e : SBOX.getD (inv_SBOX.getD x 0) 0 = 0 + x :=
    of_decide_eq_true (checkIdx_getD _ inv_SBOX 0 h x (by rw [inv_SBOX_length]; exact hx))
  rw [e, Nat.zero_add]

theorem sub_bytes_lt (s : Nat) : sub_bytes s < 2 ^ 24 := by
  have hb : ∀ x : Nat, x % 256 < 256 := fun x => Nat.mod_lt _ (by decide)
  unfold sub_bytes
  simp only [and_0xFF]
  exact pack3_lt _ _ _ (SBOX_lt _ (hb _)) (SBOX_lt _ (hb _)) (SBOX_lt _ (hb _))

theorem inv_sub_bytes_lt (s : Nat) : inv_sub_bytes s < 2 ^ 24 := by
  have hb : ∀ x : Nat, x % 256 < 256 := fun x => Nat.mod_lt _ (by decide)
  unfold inv_sub_bytes
  simp only [and_0xFF]
  exact pack3_lt _ _ _ (inv_SBOX_lt _ (hb _)) (inv_SBOX_lt _ (hb _)) (inv_SBOX_lt _ (hb _))

theorem inv_sub_bytes_sub_bytes (s : Nat) (h : s < 2 ^ 24) : inv_sub_bytes (sub_bytes s) = s := by
  have hb : ∀ x : Nat, x % 256 < 256 := fun x => Nat.mod_lt _ (by decide)
  have hs : ∀ x : Nat, SBOX.getD (x % 256) 0 < 256 := fun x => SBOX_lt _ (hb x)
  unfold inv_sub_bytes
  simp only [and_0xFF]
  have e0 : (sub_bytes s >>> 16) % 256 = SBOX.getD ((s >>> 16) % 256) 0 := by
    unfold sub_bytes; simp only [and_0xFF]
    exact pack3_byte0 _ _ _ (hs _) (hs _) (hs _)
  have e1 : (sub_bytes s >>> 8) % 256 = SBOX.getD ((s >>> 8) % 256) 0 := by
    unfold sub_bytes; simp only [and_0xFF]
    exact pack3_byte1 _ _ _ (hs _) (hs _)
  have e2 : sub_bytes s % 256 = SBOX.getD (s % 256) 0 := by
    unfold sub_bytes; simp only [and_0xFF]
    exact pack3_byte2 _ _ _ (hs _) (hs _)
  rw [e0, e1, e2, inv_SBOX_SBOX _ (hb _), inv_SBOX_SBOX _ (hb _), inv_SBOX_SBOX _ (hb _)]
  exact bytes_pack3 s h

theorem sub_bytes_inv_sub_bytes (s : Nat) (h : s < 2 ^ 24) : sub_bytes (inv_sub_bytes s) = s := by
  have hb : ∀ x : Nat, x % 256 < 256 := fun x => Nat.mod_lt _ (by decide)
  have hs : ∀ x : Nat, inv_SBOX.getD (x % 256) 0 < 256 := fun x => inv_SBOX_lt _ (hb x)
  unfold sub_bytes
  simp only [and_0xFF]
  have e0 : (inv_sub_bytes s >>> 16) % 256 = inv_SBOX.getD ((s >>> 16) % 256) 0 := by
    unfold inv_sub_bytes; simp only [and_0xFF]
    exact pack3_byte0 _ _ _ (hs _) (hs _) (hs _)
  have e1 : (inv_sub_bytes s >>> 8) % 256 = inv_SBOX.getD ((s >>> 8) % 256) 0 := by
    unfold inv_sub_bytes; simp only [and_0xFF]
    exact pack3_byte1 _ _ _ (hs _) (hs _)
  have e2 : inv_sub_bytes s % 256 = inv_SBOX.getD (s % 256) 0 := by
    unfold inv_sub_bytes; simp only [and_0xFF]
    exact pack3_byte2 _ _ _ (hs _) (hs _)
  rw [e0, e1, e2, SBOX_inv_SBOX _ (hb _), SBOX_inv_SBOX _ (hb _), SBOX_inv_SBOX _ (hb _)]
  exact bytes_pack3 s h

/-! ## The table-driven linear layer -/

/-- Nine byte lookups reassemble an XOR-additive 24-bit map. -/
theorem table_form (F : Nat → Nat) (hF : XorAdditive F) (hlt : ∀ x, F x < 2 ^ 24)
    (s : Nat) (hs : s < 2 ^ 24) :
    (((F ((s % 256) <<< 0) >>> 0) % 256) ^^^ ((F (((s >>> 8) % 256) <<< 8) >>> 0) % 256)
        ^^^ ((F (((s >>> 16) % 256) <<< 16) >>> 0) % 256))
      ^^^ ((((F ((s % 256) <<< 0) >>> 8) % 256) ^^^ ((F (((s >>> 8) % 256) <<< 8) >>> 8) % 256)
        ^^^ ((F (((s >>> 16) % 256) <<< 16) >>> 8) % 256)) <<< 8)
      ^^^ ((((F ((s % 256) <<< 0) >>> 16) % 256) ^^^ ((F (((s >>> 8) % 256) <<< 8) >>> 16) % 256)
        ^^^ ((F (((s >>> 16) % 256) <<< 16) >>> 16) % 256)) <<< 16)
      = F s := by
  generalize hM2 : F ((s % 256) <<< 0) = M2
  generalize hM1 : F (((s >>> 8) % 256) <<< 8) = M1
  generalize hM0 : F (((s >>> 16) % 256) <<< 16) = M0
  have hM : M2 ^^^ M1 ^^^ M0 = F s := by
    rw [← hM2, ← hM1, ← hM0, ← hF, ← hF, Nat.shiftLeft_zero]
    congr 1
    have e := bytes_recombine s hs
    exact e
  have hlt2 : M2 ^^^ M1 ^^^ M0 < 2 ^ 24 := by rw [hM]; exact hlt s
  simp only [← mod256_xor, ← shr_xor, Nat.shiftRight_zero]
  rw [bytes_recombine _ hlt2, hM]

theorem linear_layer_eq (s : Nat) (hs : s < 2 ^ 24) :
    linear_layer generate_tables s = mix_columns (rotate_rows s) := by
  have hb : ∀ x : Nat, x % 256 < 0x100 := fun x => Nat.mod_lt _ (by decide)
  have hF : XorAdditive (fun x => mix_columns (rotate_rows x)) := mix_columns_xor.comp rotate_rows_xor
  have h := table_form (fun x => mix_columns (rotate_rows x)) hF (fun x => mix_columns_lt _) s hs
  simp only [linear_layer, L_LSB, L_MIDDLESB, L_MSB, generate_tables,
    getD_map_range _ _ _ (hb _)]
  exact h

theorem inv_linear_layer_eq (s : Nat) (hs : s < 2 ^ 24) :
    inv_linear_layer generate_tables s = inv_rotate_rows (inv_mix_columns s) := by
  have hb : ∀ x : Nat, x % 256 < 0x100 := fun x => Nat.mod_lt _ (by decide)
  have hF : XorAdditive (fun x => inv_rotate_rows (inv_mix_columns x)) := inv_rotate_rows_xor.comp inv_mix_columns_xor
  have h := table_form (fun x => inv_rotate_rows (inv_mix_columns x)) hF (fun x => inv_rotate_rows_lt _) s hs
  simp only [inv_linear_layer, L_INV_LSB, L_INV_MIDDLESB, L_INV_MSB, generate_tables,
    getD_map_range _ _ _ (hb _)]
  exact h

theorem linear_layer_lt (s : Nat) (hs : s < 2 ^ 24) : linear_layer generate_tables s < 2 ^ 24 := by
  rw [linear_layer_eq s hs]; exact mix_columns_lt _

theorem inv_linear_layer_lt (s : Nat) (hs : s < 2 ^ 24) :
    inv_linear_layer generate_tables s < 2 ^ 24 := by
  rw [inv_linear_layer_eq s hs]; exact inv_rotate_rows_lt _

theorem inv_linear_layer_linear_layer (s : Nat) (hs : s < 2 ^ 24) :
    inv_linear_layer generate_tables (linear_layer generate_tables s) = s := by
  rw [inv_linear_layer_eq _ (linear_layer_lt s hs), linear_layer_eq s hs,
    inv_mix_columns_mix_columns _ (rotate_rows_lt s), inv_rotate_rows_rotate_rows s hs]

theorem linear_layer_inv_linear_layer (s : Nat) (hs : s < 2 ^ 24) :
    linear_layer generate_tables (inv_linear_layer generate_tables s) = s := by
  rw [linear_layer_eq _ (inv_linear_layer_lt s hs), inv_linear_layer_eq s hs,
    rotate_rows_inv_rotate_rows _ (inv_mix_columns_lt s), mix_columns_inv_mix_columns s hs]

theorem linear_layer_xor (a b : Nat) (ha : a < 2 ^ 24) (hb : b < 2 ^ 24) :
    linear_layer generate_tables (a ^^^ b)
      = linear_layer generate_tables a ^^^ linear_layer generate_tables b := by
  rw [linear_layer_eq _ (Nat.xor_lt_two_pow ha hb), linear_layer_eq a ha, linear_layer_eq b hb,
    rotate_rows_xor, mix_columns_xor]

theorem inv_linear_layer_xor (a b : Nat) (ha : a < 2 ^ 24) (hb : b < 2 ^ 24) :
    inv_linear_layer generate_tables (a ^^^ b)
      = inv_linear_layer generate_tables a ^^^ inv_linear_layer generate_tables b := by
  rw [inv_linear_layer_eq _ (Nat.xor_lt_two_pow ha hb), inv_linear_layer_eq a ha,
    inv_linear_layer_eq b hb, inv_mix_columns_xor, inv_rotate_rows_xor]

/-! ## Rounds and their inverses -/

theorem round_with_MC_lt (s k : Nat) (hk : k < 2 ^ 24) :
    round_with_MC generate_tables s k < 2 ^ 24 := by
  unfold round_with_MC
  exact Nat.xor_lt_two_pow (linear_layer_lt _ (sub_bytes_lt s)) hk

theorem round_no_MC_lt (s k : Nat) (hk : k < 2 ^ 24) : round_no_MC s k < 2 ^ 24 := by
  unfold round_no_MC
  exact Nat.xor_lt_two_pow (rotate_rows_lt _) hk

theorem inv_round_with_MC_round_with_MC (s k : Nat) (hs : s < 2 ^ 24) :
    inv_round_with_MC generate_tables (round_with_MC generate_tables s k) k = s := by
  unfold inv_round_with_MC round_with_MC
  simp only [Nat.xor_cancel_right]
  rw [inv_linear_layer_linear_layer _ (sub_bytes_lt s), inv_sub_bytes_sub_bytes s hs]

theorem inv_round_no_MC_round_no_MC (s k : Nat) (hs : s < 2 ^ 24) :
    inv_round_no_MC (round_no_MC s k) k = s := by
  unfold inv_round_no_MC round_no_MC
  simp only [Nat.xor_cancel_right]
  rw [inv_rotate_rows_rotate_rows _ (sub_bytes_lt s), inv_sub_bytes_sub_bytes s hs]

theorem rounds_lt (rk : Nat → Nat) (hrk : ∀ i, rk i < 2 ^ 24) (l : List Nat) (s : Nat)
    (hs : s < 2 ^ 24) :
    l.foldl (fun st i => round_with_MC generate_tables st (rk i)) s < 2 ^ 24 := by
  induction l generalizing s with
  | nil => exact hs
  | cons i l ih => exact ih _ (round_with_MC_lt s _ (hrk i))

/-- Undoing the rounds in reverse order returns the state the rounds started from. -/
theorem rounds_roundtrip (rk : Nat → Nat) (hrk : ∀ i, rk i < 2 ^ 24) (l : List Nat) (s : Nat)
    (hs : s < 2 ^ 24) :
    l.reverse.foldl (fun st i => inv_round_with_MC generate_tables st (rk i))
      (l.foldl (fun st i => round_with_MC generate_tables st (rk i)) s) = s := by
  induction l generalizing s with
  | nil => rfl
  | cons i l ih =>
    rw [List.reverse_cons, List.foldl_append]
    simp only [List.foldl_cons, List.foldl_nil]
    rw [ih _ (round_with_MC_lt s _ (hrk i))]
    exact inv_round_with_MC_round_with_MC s _ hs

/-! ## The key schedule -/

theorem key_schedule_eq (key t : Nat) :
    key_schedule key t =
      [((key ^^^ (t <<< 64)) >>> 104) &&& 0xFFFFFF,
       ((key ^^^ (t <<< 64)) >>> 80) &&& 0xFFFFFF,
       ((key ^^^ (t <<< 64)) >>> 56) &&& 0xFFFFFF,
       ((key ^^^ (t <<< 64)) >>> 32) &&& 0xFFFFFF,
       ((key ^^^ (t <<< 64)) >>> 8) &&& 0xFFFFFF,
       (((key ^^^ (t <<< 64)) &&& 0xFF) <<< 16) ||| ((ks_mid key t >>> 112) &&& 0xFFFF),
       (ks_mid key t >>> 88) &&& 0xFFFFFF,
       (ks_mid key t >>> 64) &&& 0xFFFFFF,
       (ks_mid key t >>> 40) &&& 0xFFFFFF,
       (ks_mid key t >>> 16) &&& 0xFFFFFF,
       (((ks_mid key t >>> 0) &&& 0xFFFF) <<< 8) ||| ((ks_last key t >>> 120) &&& 0xFF)] := by
  simp only [key_schedule, ks_mid, ks_last, ks_cascade]

theorem key_schedule_getD_lt (key t i : Nat) : (key_schedule key t).getD i 0 < 2 ^ 24 := by
  have m24 : ∀ x : Nat, x &&& 0xFFFFFF < 2 ^ 24 := fun x => Nat.and_lt_two_pow x (by decide)
  have h5 : ∀ x y : Nat, ((x &&& 0xFF) <<< 16) ||| (y &&& 0xFFFF) < 2 ^ 24 := by
    intro x y
    apply Nat.or_lt_two_pow
    · rw [and_0xFF, Nat.shiftLeft_eq]
      have := Nat.mod_lt x (show 256 > 0 by decide)
      omega
    · rw [and_0xFFFF]
      have := Nat.mod_lt y (show 2 ^ 16 > 0 by decide)
      omega
  have h10 : ∀ x y : Nat, ((x &&& 0xFFFF) <<< 8) ||| (y &&& 0xFF) < 2 ^ 24 := by
    intro x y
    apply Nat.or_lt_two_pow
    · rw [and_0xFFFF, Nat.shiftLeft_eq]
      have := Nat.mod_lt x (show 2 ^ 16 > 0 by decide)
      omega
    · rw [and_0xFF]
      have := Nat.mod_lt y (show 256 > 0 by decide)
      omega
  rw [key_schedule_eq]
  rcases i with _ | _ | _ | _ | _ | _ | _ | _ | _ | _ | _ | i
  all_goals simp only [List.getD_cons_zero, List.getD_cons_succ, List.getD_nil]
  · exact m24 _
  · exact m24 _
  · exact m24 _
  · exact m24 _
  · exact m24 _
  · exact h5 _ _
  · exact m24 _
  · exact m24 _
  · exact m24 _
  · exact m24 _
  · exact h10 _ _
  · decide

theorem decrypt_encrypt (p key t : Nat) (hp : p < 2 ^ 24) :
    decrypt generate_tables (encrypt generate_tables p key t) key t = p := by
  have hrk := key_schedule_getD_lt key t
  have h0 : p ^^^ (key_schedule key t).getD 0 0 < 2 ^ 24 := Nat.xor_lt_two_pow hp (hrk 0)
  unfold decrypt encrypt
  simp only []
  rw [inv_round_no_MC_round_no_MC _ _ (rounds_lt _ hrk _ _ h0),
    rounds_roundtrip (fun i => (key_schedule key t).getD i 0) hrk _ _ h0,
    Nat.xor_cancel_right]

/-! ## How the round keys depend on the tweak -/

theorem ks_cascade_xor : XorAdditive ks_cascade := by
  have step : ∀ a b : Nat, XorAdditive (fun x => x ^^^ (((x >>> a) &&& 0xFFFFFFFF) <<< b)) :=
    fun a b => XorAdditive.id.xor (((XorAdditive.id.shr a).and _).shl b)
  have h := (step 32 0).comp ((step 64 32).comp (step 96 64))
  intro a b
  exact h a b

theorem ks_lin_xor (r : Nat) : XorAdditive (ks_lin r) := by
  have hc := ks_cascade_xor
  have ex : ∀ k : Nat, XorAdditive (fun x => (x >>> k) &&& 0xFFFFFF) :=
    fun k => (XorAdditive.id.shr k).and _
  have ec : ∀ k m : Nat, XorAdditive (fun x => (ks_cascade x >>> k) &&& m) :=
    fun k m => (hc.shr k).and m
  rcases r with _ | _ | _ | _ | _ | _ | _ | _ | _ | _ | r
  · exact ex 104
  · exact ex 80
  · exact ex 56
  · exact ex 32
  · exact ex 8
  · exact ((XorAdditive.id.and 0xFF).shl 16).xor (ec 112 0xFFFF)
  · exact ec 88 0xFFFFFF
  · exact ec 64 0xFFFFFF
  · exact ec 40 0xFFFFFF
  · exact ec 16 0xFFFFFF
  · exact XorAdditive.zero

theorem ks_lin10_xor : XorAdditive ks_lin10 :=
  (((ks_cascade_xor.shr 0).and 0xFFFF).shl 8).xor ((ks_cascade_xor.shr 120).and 0xFF)

theorem shl_mod_two_pow (t a b : Nat) (h : b ≤ a) : (t <<< a) % 2 ^ b = 0 := by
  have e : 2 ^ a = 2 ^ (a - b) * 2 ^ b := by
    rw [← Nat.pow_add]; congr 1; omega
  rw [Nat.shiftLeft_eq, e, ← Nat.mul_assoc]
  exact Nat.mul_mod_left _ _

theorem shl64_low_word (t : Nat) : (t <<< 64) &&& 0xFFFFFFFF = 0 := by
  rw [and_0xFFFFFFFF]
  exact shl_mod_two_pow t 64 32 (by decide)

theorem ks_mid_tweak (key t : Nat) :
    ks_mid key t = ks_mid key 0 ^^^ ks_cascade (t <<< 64) := by
  unfold ks_mid
  simp only [Nat.zero_shiftLeft, Nat.xor_zero]
  rw [and_xor, shl64_low_word, Nat.xor_zero]
  generalize g ((key &&& 0xFFFFFFFF) % 2 ^ 32) 1 <<< 96 = G
  generalize t <<< 64 = T
  have e : key ^^^ T ^^^ G = key ^^^ G ^^^ T := by
    simp only [Nat.xor_assoc, Nat.xor_comm, xor_left_comm]
  rw [← ks_cascade_xor, e]

theorem or_eq_xor_rk5 (a b : Nat) :
    ((a &&& 0xFF) <<< 16) ||| (b &&& 0xFFFF) = ((a &&& 0xFF) <<< 16) ^^^ (b &&& 0xFFFF) := by
  have hb : b &&& 0xFFFF < 2 ^ 16 := Nat.and_lt_two_pow b (by decide)
  rw [shl_or_eq_add _ _ 16 hb, shl_xor_eq_add _ _ 16 hb]

theorem or_eq_xor_rk10 (a b : Nat) :
    ((a &&& 0xFFFF) <<< 8) ||| (b &&& 0xFF) = ((a &&& 0xFFFF) <<< 8) ^^^ (b &&& 0xFF) := by
  have hb : b &&& 0xFF < 2 ^ 8 := Nat.and_lt_two_pow b (by decide)
  rw [shl_or_eq_add _ _ 8 hb, shl_xor_eq_add _ _ 8 hb]

/-- Round keys 0 to 9: the key for tweak `t` is the key for tweak 0, XOR a word that depends
on the tweak alone. -/
theorem key_schedule_tweak (key t r : Nat) (hr : r ≤ 9) :
    (key_schedule key t).getD r 0 = (key_schedule key 0).getD r 0 ^^^ ks_lin r (t <<< 64) := by
  have ex : ∀ k : Nat, ((key ^^^ (t <<< 64)) >>> k) &&& 0xFFFFFF
      = ((key >>> k) &&& 0xFFFFFF) ^^^ (((t <<< 64) >>> k) &&& 0xFFFFFF) := by
    intro k; rw [shr_xor, and_xor]
  have ec : ∀ k m : Nat, (ks_mid key t >>> k) &&& m
      = ((ks_mid key 0 >>> k) &&& m) ^^^ ((ks_cascade (t <<< 64) >>> k) &&& m) := by
    intro k m; rw [ks_mid_tweak, shr_xor, and_xor]
  rw [key_schedule_eq, key_schedule_eq]
  simp only [Nat.zero_shiftLeft, Nat.xor_zero]
  rcases r with _ | _ | _ | _ | _ | _ | _ | _ | _ | _ | r
  all_goals simp only [List.getD_cons_zero, List.getD_cons_succ, ks_lin]
  · exact ex 104
  · exact ex 80
  · exact ex 56
  · exact ex 32
  · exact ex 8
  · rw [or_eq_xor_rk5, or_eq_xor_rk5, ec, and_xor, shl_xor]
    generalize ((key &&& 0xFF) <<< 16) = p
    generalize (((t <<< 64) &&& 0xFF) <<< 16) = q
    generalize ((ks_mid key 0 >>> 112) &&& 0xFFFF) = u
    generalize ((ks_cascade (t <<< 64) >>> 112) &&& 0xFFFF) = v
    simp only [Nat.xor_assoc, Nat.xor_comm, xor_left_comm]
  · exact ec 88 _
  · exact ec 64 _
  · exact ec 40 _
  · exact ec 16 _
  · omega

theorem normalize_round_key_zero_xor (r : Nat) :
    XorAdditive (fun t => normalize_round_key 0 t r) := by
  have z := XorAdditive.zero
  have sh : ∀ k : Nat, XorAdditive (fun t : Nat => t >>> k) := fun k => XorAdditive.id.shr k
  have sm : ∀ k m : Nat, XorAdditive (fun t : Nat => (t >>> k) &&& m) :=
    fun k m => (XorAdditive.id.shr k).and m
  have ms : ∀ m k : Nat, XorAdditive (fun t : Nat => (t &&& m) <<< k) :=
    fun m k => (XorAdditive.id.and m).shl k
  have am : ∀ m : Nat, XorAdditive (fun t : Nat => t &&& m) := fun m => XorAdditive.id.and m
  rcases r with _ | _ | _ | _ | _ | _ | _ | _ | _ | _ | _ | r
  · exact z.xor (sh 40)
  · exact z.xor (sm 16 _)
  · exact z.xor (ms _ 8)
  · exact z
  · exact z
  · exact z.xor (sh 48)
  · exact (z.xor ((sm 32 _).shl 16)).xor ((sh 56).xor (sm 40 _))
  · exact (z.xor (sm 32 _)).xor (am _)
  · exact (z.xor (sm 40 _)).xor (sm 8 _)
  · exact ((z.xor (sm 16 _)).xor (ms _ 16)).xor (sh 48)
  · exact (z.xor (((sm 32 _).xor (am _)).shl 8)).xor (sh 56)
  · exact z

theorem normalize_round_key_eq_xor (k t r : Nat) (hr : r ≤ 10) :
    normalize_round_key k t r = k ^^^ normalize_round_key 0 t r := by
  rcases r with _ | _ | _ | _ | _ | _ | _ | _ | _ | _ | _ | r
  all_goals simp only [normalize_round_key, Nat.zero_xor, Nat.xor_zero, Nat.xor_assoc]
  omega

theorem ks_lin_basis : ∀ r < 10, r ≠ 6 → ∀ i < 64,
    ks_lin r ((2 ^ i) <<< 64) = normalize_round_key 0 (2 ^ i) r := by
  decide!

/-- For every round up to 9 except round 6, the tweak-dependent word of the key schedule is the
constant that `normalize_round_key` XORs in. -/
theorem ks_lin_tweak (r t : Nat) (hr : r ≤ 9) (h6 : r ≠ 6) (ht : t < 2 ^ 64) :
    ks_lin r (t <<< 64) = normalize_round_key 0 t r :=
  XorAdditive.ext_on_bits (f := fun t => ks_lin r (t <<< 64))
    (g := fun t => normalize_round_key 0 t r)
    ((ks_lin_xor r).comp (XorAdditive.id.shl 64)) (normalize_round_key_zero_xor r) 64
    (ks_lin_basis r (by omega) h6) t ht

/-- Round keys 0 to 9 other than round 6: the key for tweak `t` is `normalize_round_key` of
the key for tweak 0. -/
theorem key_schedule_normalize (key t r : Nat) (hr : r ≤ 9) (h6 : r ≠ 6) (ht : t < 2 ^ 64) :
    (key_schedule key t).getD r 0
      = normalize_round_key ((key_schedule key 0).getD r 0) t r := by
  rw [key_schedule_tweak key t r hr, ks_lin_tweak r t hr h6 ht,
    ← normalize_round_key_eq_xor _ t r (by omega)]

/-! ## Round key 10 -/

theorem pack4_eq (a s2 s3 s0 : Nat) (h2 : s2 < 256) (h3 : s3 < 256) (h0 : s0 < 256) :
    (a <<< 24) ^^^ (s2 <<< 16) ^^^ (s3 <<< 8) ^^^ s0
      = a * 2 ^ 24 + s2 * 2 ^ 16 + s3 * 2 ^ 8 + s0 := by
  have e1 : (a <<< 24) ^^^ (s2 <<< 16) = ((a <<< 8) ^^^ s2) <<< 16 := by
    rw [shl_xor, ← Nat.shiftLeft_add]
  rw [e1, pack3_eq _ _ _ h3 h0, shl_xor_eq_add s2 a 8 (by omega)]
  omega

/-- The top byte of `g` is the S-box of the second byte of the key word, XOR `rc`. -/
theorem g_top_byte (w rc : Nat) (hrc : rc < 256) :
    ((g w rc <<< 96) >>> 120) &&& 0xFF = SBOX.getD ((w >>> 16) % 256) 0 ^^^ rc := by
  have hb : ∀ x : Nat, x % 256 < 256 := fun x => Nat.mod_lt _ (by decide)
  have hA : SBOX.getD ((w >>> 16) % 256) 0 ^^^ rc < 256 :=
    Nat.xor_lt_two_pow (n := 8) (SBOX_lt _ (hb _)) hrc
  have e : (g w rc <<< 96) >>> 120 = g w rc >>> 24 := by
    rw [show 120 = 96 + 24 from rfl, Nat.shiftRight_add, Nat.shiftLeft_shiftRight]
  rw [e, and_0xFF]
  unfold g
  simp only [and_0xFF]
  rw [pack4_eq _ _ _ _ (SBOX_lt _ (hb _)) (SBOX_lt _ (hb _)) (SBOX_lt _ (hb _))]
  generalize SBOX.getD ((w >>> 16) % 256) 0 ^^^ rc = A at hA ⊢
  have h2 := SBOX_lt _ (hb (w >>> 8))
  have h3 := SBOX_lt _ (hb (w >>> 0))
  have h0 := SBOX_lt _ (hb (w >>> 24))
  generalize SBOX.getD ((w >>> 8) % 256) 0 = S2 at h2 ⊢
  generalize SBOX.getD ((w >>> 0) % 256) 0 = S3 at h3 ⊢
  generalize SBOX.getD ((w >>> 24) % 256) 0 = S0 at h0 ⊢
  rw [Nat.shiftRight_eq_div_pow]
  omega

theorem low_word_byte1 (m : Nat) : (((m &&& 0xFFFFFFFF) % 2 ^ 32) >>> 16) % 256 = (m >>> 16) % 256 := by
  rw [and_0xFFFFFFFF]
  simp only [Nat.shiftRight_eq_div_pow]
  omega

/-- Round key 10 as an XOR of a linear part and one S-box entry. -/
theorem key_schedule_10 (key t : Nat) :
    (key_schedule key t).getD 10 0
      = (((ks_mid key t >>> 0) &&& 0xFFFF) <<< 8) ^^^ ((ks_mid key t >>> 120) &&& 0xFF)
          ^^^ (SBOX.getD ((ks_mid key t >>> 16) % 256) 0 ^^^ 2) := by
  rw [key_schedule_eq]
  simp only [List.getD_cons_zero, List.getD_cons_succ]
  rw [or_eq_xor_rk10]
  unfold ks_last
  simp only []
  rw [shr_xor, and_xor, g_top_byte _ 2 (by decide), low_word_byte1, Nat.xor_assoc]

theorem normalize_9_low_byte_xor :
    XorAdditive (fun t => ((t >>> 48) &&& 0xFF) ^^^ ((t >>> 16) &&& 0xFF)) :=
  ((XorAdditive.id.shr 48).and _).xor ((XorAdditive.id.shr 16).and _)

theorem ks_lin10_basis : ∀ i < 64,
    ks_lin10 ((2 ^ i) <<< 64) = normalize_round_key 0 (2 ^ i) 10 := by
  decide!

theorem ks_lin10_tweak (t : Nat) (ht : t < 2 ^ 64) :
    ks_lin10 (t <<< 64) = normalize_round_key 0 t 10 :=
  XorAdditive.ext_on_bits (f := fun t => ks_lin10 (t <<< 64))
    (g := fun t => normalize_round_key 0 t 10)
    (ks_lin10_xor.comp (XorAdditive.id.shl 64)) (normalize_round_key_zero_xor 10) 64
    ks_lin10_basis t ht

theorem ks_byte9_basis : ∀ i < 64,
    (ks_cascade ((2 ^ i) <<< 64) >>> 16) % 2 ^ 8
      = (((2 ^ i) >>> 48) &&& 0xFF) ^^^ (((2 ^ i) >>> 16) &&& 0xFF) := by
  decide!

theorem ks_byte9_tweak (t : Nat) (ht : t < 2 ^ 64) :
    (ks_cascade (t <<< 64) >>> 16) % 256 = ((t >>> 48) &&& 0xFF) ^^^ ((t >>> 16) &&& 0xFF) :=
  XorAdditive.ext_on_bits (f := fun t => (ks_cascade (t <<< 64) >>> 16) % 2 ^ 8)
    (g := fun t => ((t >>> 48) &&& 0xFF) ^^^ ((t >>> 16) &&& 0xFF))
    (((ks_cascade_xor.comp (XorAdditive.id.shl 64)).shr 16).mod_two_pow 8)
    normalize_9_low_byte_xor 64 ks_byte9_basis t ht

theorem xor_swap_sbox (a c d u v : Nat) :
    a ^^^ (c ^^^ d) ^^^ (v ^^^ 2) = a ^^^ (u ^^^ 2) ^^^ c ^^^ d ^^^ u ^^^ v := by
  apply Nat.eq_of_testBit_eq; intro i
  simp only [Nat.testBit_xor]
  cases a.testBit i <;> cases c.testBit i <;> cases d.testBit i <;> cases u.testBit i <;>
    cases v.testBit i <;> cases Nat.testBit 2 i <;> rfl

/-- Round key 10 for tweak `t` from the round keys for tweak 0. -/
theorem key_schedule_10_tweak (key t : Nat) (ht : t < 2 ^ 64) :
    (key_schedule key t).getD 10 0
      = normalize_round_key_10 ((key_schedule key 0).getD 10 0)
          ((key_schedule key 0).getD 9 0 % 256) t := by
  have e9 : (key_schedule key 0).getD 9 0 % 256 = (ks_mid key 0 >>> 16) % 256 := by
    rw [key_schedule_eq]
    simp only [List.getD_cons_zero, List.getD_cons_succ]
    rw [and_0xFFFFFF]
    omega
  have eb : (ks_mid key t >>> 16) % 256
      = (ks_mid key 0 >>> 16) % 256 ^^^ (((t >>> 48) &&& 0xFF) ^^^ ((t >>> 16) &&& 0xFF)) := by
    rw [ks_mid_tweak, shr_xor, mod256_xor, ks_byte9_tweak t ht]
  have el : (((ks_mid key t >>> 0) &&& 0xFFFF) <<< 8) ^^^ ((ks_mid key t >>> 120) &&& 0xFF)
      = ((((ks_mid key 0 >>> 0) &&& 0xFFFF) <<< 8) ^^^ ((ks_mid key 0 >>> 120) &&& 0xFF))
          ^^^ normalize_round_key 0 t 10 := by
    rw [← ks_lin10_tweak t ht, ks_mid_tweak]
    unfold ks_lin10
    simp only [shr_xor, and_xor, shl_xor]
    generalize ((ks_mid key 0 >>> 0) &&& 0xFFFF) <<< 8 = p
    generalize (ks_mid key 0 >>> 120) &&& 0xFF = q
    generalize ((ks_cascade (t <<< 64) >>> 0) &&& 0xFFFF) <<< 8 = u
    generalize (ks_cascade (t <<< 64) >>> 120) &&& 0xFF = v
    simp only [Nat.xor_assoc, Nat.xor_comm, xor_left_comm]
  rw [key_schedule_10 key t, key_schedule_10 key 0, e9, el, eb]
  unfold normalize_round_key_10
  have en : normalize_round_key 0 t 10
      = ((((t >>> 32) &&& 0xFFFF) ^^^ (t &&& 0xFFFF)) <<< 8) ^^^ (t >>> 56) := by
    simp only [normalize_round_key, Nat.zero_xor]
  rw [en]
  generalize (((ks_mid key 0 >>> 0) &&& 0xFFFF) <<< 8) ^^^ ((ks_mid key 0 >>> 120) &&& 0xFF) = a
  generalize (((t >>> 32) &&& 0xFFFF) ^^^ (t &&& 0xFFFF)) <<< 8 = c
  generalize t >>> 56 = d
  generalize (ks_mid key 0 >>> 16) % 256 = b
  rw [← Nat.xor_assoc b]
  generalize SBOX.getD (b ^^^ ((t >>> 48) &&& 0xFF) ^^^ ((t >>> 16) &&& 0xFF)) 0 = v
  generalize SBOX.getD b 0 = u
  exact xor_swap_sbox a c d u v

/-! ## Bits of vectors -/

theorem testBit_elem (w a i j : Nat) :
    (elem w a i).testBit j = (decide (j < w) && a.testBit (w * i + j)) := by
  unfold elem
  rw [Nat.testBit_mod_two_pow, Nat.testBit_shiftRight]

theorem ofElems_succ (w n : Nat) (f : Nat → Nat) :
    ofElems w (n + 1) f = ofElems w n f ||| ((f n % 2 ^ w) <<< (w * n)) := by
  unfold ofElems
  rw [List.range_succ, List.foldl_append]
  rfl

theorem testBit_ofElems (w n : Nat) (f : Nat → Nat) (hw : 0 < w) (x : Nat) :
    (ofElems w n f).testBit x = (decide (x < w * n) && (f (x / w)).testBit (x % w)) := by
  induction n with
  | zero => simp [ofElems]
  | succ n ih =>
    rw [ofElems_succ, Nat.testBit_or, ih, Nat.testBit_shiftLeft, Nat.testBit_mod_two_pow]
    by_cases h1 : x < w * n
    · have h2 : ¬ (x ≥ w * n) := by omega
      have h3 : x < w * (n + 1) := by rw [Nat.mul_succ]; omega
      simp [h1, h2, h3]
    · have h1' : x ≥ w * n := by omega
      by_cases h3 : x < w * (n + 1)
      · have hd : x / w = n := by
          apply Nat.div_eq_of_lt_le
          · rw [Nat.mul_comm]; exact h1'
          · rw [Nat.mul_comm]; exact h3
        have hm : x % w = x - w * n := by
          have := Nat.div_add_mod x w
          rw [hd] at this
          omega
        have h4 : x - w * n < w := by rw [Nat.mul_succ] at h3; omega
        simp [h1, h1', h3, hd, hm, h4]
      · have h4 : ¬ (x - w * n < w) := by rw [Nat.mul_succ] at h3; omega
        simp [h1, h3, h4]

theorem subset_mem_eq (a x : Nat) : subset_mem a x = a.testBit x := by
  unfold subset_mem _mm256_extract_epi64
  rw [testBit_elem]
  have h1 : x % 64 < 64 := Nat.mod_lt _ (by decide)
  have h2 : 64 * (x / 64) + x % 64 = x := Nat.div_add_mod x 64
  simp [h1, h2]

/-! ## The eight steps of `subset_shift` -/

theorem xor_128_index : ∀ x < 256,
    (if x / 128 = 0 then 128 + x % 128 else x % 128) = x ^^^ 128 := by
  decide!

theorem bit_permute2x128_swap (a x : Nat) (hx : x < 256) :
    (_mm256_permute2x128_si256 a a 1).testBit x = a.testBit (x ^^^ 128) := by
  unfold _mm256_permute2x128_si256
  rw [testBit_ofElems _ _ _ (by decide), ← xor_128_index x hx]
  have h1 : x % 128 < 128 := Nat.mod_lt _ (by decide)
  have hx' : x / 128 = 0 ∨ x / 128 = 1 := by omega
  rcases hx' with h | h
  · simp [h, testBit_elem, h1, hx]
  · simp [h, testBit_elem, h1, hx]

theorem bit_permute4x64 (a imm8 x : Nat) :
    (_mm256_permute4x64_epi64 a imm8).testBit x =
      (decide (x < 256) && a.testBit (64 * ((imm8 >>> (2 * (x / 64))) % 4) + x % 64)) := by
  unfold _mm256_permute4x64_epi64
  rw [testBit_ofElems _ _ _ (by decide), testBit_elem]
  have h1 : x % 64 < 64 := Nat.mod_lt _ (by decide)
  simp [h1]

theorem bit_shuffle_epi32 (a imm8 x : Nat) :
    (_mm256_shuffle_epi32 a imm8).testBit x =
      (decide (x < 256) &&
        a.testBit (32 * (4 * (x / 32 / 4) + (imm8 >>> (2 * (x / 32 % 4))) % 4) + x % 32)) := by
  unfold _mm256_shuffle_epi32
  rw [testBit_ofElems _ _ _ (by decide), testBit_elem]
  have h1 : x % 32 < 32 := Nat.mod_lt _ (by decide)
  simp [h1]

theorem bit_shufflelo_epi16 (a imm8 x : Nat) :
    (_mm256_shufflelo_epi16 a imm8).testBit x =
      (decide (x < 256) && a.testBit (srcLo16 imm8 x)) := by
  unfold _mm256_shufflelo_epi16 srcLo16
  rw [testBit_ofElems _ _ _ (by decide)]
  have h1 : x % 16 < 16 := Nat.mod_lt _ (by decide)
  split <;> simp [testBit_elem, h1]

theorem bit_shufflehi_epi16 (a imm8 x : Nat) :
    (_mm256_shufflehi_epi16 a imm8).testBit x =
      (decide (x < 256) && a.testBit (srcHi16 imm8 x)) := by
  unfold _mm256_shufflehi_epi16 srcHi16
  rw [testBit_ofElems _ _ _ (by decide)]
  have h1 : x % 16 < 16 := Nat.mod_lt _ (by decide)
  split <;> simp [testBit_elem, h1]

theorem bit_shuffle_epi8 (a b x : Nat) :
    (_mm256_shuffle_epi8 a b).testBit x =
      (decide (x < 256) && (!decide (elem 8 b (x / 8) >>> 7 = 1)) &&
        a.testBit (8 * (16 * (x / 8 / 16) + elem 8 b (x / 8) % 16) + x % 8)) := by
  unfold _mm256_shuffle_epi8
  rw [testBit_ofElems _ _ _ (by decide)]
  have h1 : x % 8 < 8 := Nat.mod_lt _ (by decide)
  split <;> simp_all [testBit_elem]

theorem bit_srli_epi16 (a k x : Nat) (hk : k ≤ 15) :
    (_mm256_srli_epi16 a k).testBit x =
      (decide (x < 256) && decide (x % 16 + k < 16) && a.testBit (x + k)) := by
  unfold _mm256_srli_epi16
  rw [testBit_ofElems _ _ _ (by decide)]
  have h0 : ¬ (k > 15) := by omega
  have h2 : 16 * (x / 16) + (k + x % 16) = x + k := by
    have := Nat.div_add_mod x 16; omega
  have h3 : (k + x % 16 < 16) = (x % 16 + k < 16) := by rw [Nat.add_comm]
  simp only [h0, if_false, Nat.testBit_shiftRight, testBit_elem, h2, h3, Bool.and_assoc]

theorem bit_slli_epi16 (a k x : Nat) (hk : k ≤ 15) :
    (_mm256_slli_epi16 a k).testBit x =
      (decide (x < 256) && decide (k ≤ x % 16) && a.testBit (x - k)) := by
  unfold _mm256_slli_epi16
  rw [testBit_ofElems _ _ _ (by decide)]
  have h0 : ¬ (k > 15) := by omega
  have h1 : x % 16 < 16 := Nat.mod_lt _ (by decide)
  simp only [h0, if_false, Nat.testBit_shiftLeft, testBit_elem, Bool.and_assoc]
  by_cases hk2 : k ≤ x % 16
  · have h2 : 16 * (x / 16) + (x % 16 - k) = x - k := by
      have := Nat.div_add_mod x 16; omega
    have h3 : x % 16 - k < 16 := by omega
    have h4 : x % 16 ≥ k := hk2
    simp [hk2, h2, h3, h4]
  · have h4 : ¬ (x % 16 ≥ k) := hk2
    simp [hk2, h4]

theorem bit_set1_epi8 (b x : Nat) :
    (_mm256_set1_epi8 b).testBit x = (decide (x < 256) && b.testBit (x % 8)) := by
  unfold _mm256_set1_epi8
  rw [testBit_ofElems _ _ _ (by decide)]

theorem xor_64_index : ∀ x < 256,
    64 * ((_MM_SHUFFLE 2 3 0 1 >>> (2 * (x / 64))) % 4) + x % 64 = x ^^^ 64 := by
  decide!

theorem xor_32_index : ∀ x < 256,
    32 * (4 * (x / 32 / 4) + (_MM_SHUFFLE 2 3 0 1 >>> (2 * (x / 32 % 4))) % 4) + x % 32
      = x ^^^ 32 := by
  decide!

theorem xor_16_index : ∀ x < 256,
    srcHi16 (_MM_SHUFFLE 2 3 0 1) x < 256
      ∧ srcLo16 (_MM_SHUFFLE 2 3 0 1) (srcHi16 (_MM_SHUFFLE 2 3 0 1) x) = x ^^^ 16 := by
  decide!

theorem xor_8_index : ∀ x < 256,
    elem 8 (_mm256_set_epi8 [14, 15, 12, 13, 10, 11, 8, 9, 6, 7, 4, 5, 2, 3, 0, 1,
        14, 15, 12, 13, 10, 11, 8, 9, 6, 7, 4, 5, 2, 3, 0, 1]) (x / 8) >>> 7 ≠ 1
      ∧ 8 * (16 * (x / 8 / 16)
          + elem 8 (_mm256_set_epi8 [14, 15, 12, 13, 10, 11, 8, 9, 6, 7, 4, 5, 2, 3, 0, 1,
              14, 15, 12, 13, 10, 11, 8, 9, 6, 7, 4, 5, 2, 3, 0, 1]) (x / 8) % 16) + x % 8
        = x ^^^ 8 := by
  decide!

theorem swapOk_4 : ∀ x < 256, swapOk 0xF0 0x0F 4 x = true := by
  decide!

theorem swapOk_2 : ∀ x < 256, swapOk 0xCC 0x33 2 x = true := by
  decide!

theorem swapOk_1 : ∀ x < 256, swapOk 0xAA 0x55 1 x = true := by
  decide!

theorem step_64 (a x : Nat) (hx : x < 256) :
    (_mm256_permute4x64_epi64 a (_MM_SHUFFLE 2 3 0 1)).testBit x = a.testBit (x ^^^ 64) := by
  rw [bit_permute4x64, xor_64_index x hx]
  simp [hx]

theorem step_32 (a x : Nat) (hx : x < 256) :
    (_mm256_shuffle_epi32 a (_MM_SHUFFLE 2 3 0 1)).testBit x = a.testBit (x ^^^ 32) := by
  rw [bit_shuffle_epi32, xor_32_index x hx]
  simp [hx]

theorem step_16 (a x : Nat) (hx : x < 256) :
    (_mm256_shufflehi_epi16 (_mm256_shufflelo_epi16 a (_MM_SHUFFLE 2 3 0 1))
      (_MM_SHUFFLE 2 3 0 1)).testBit x = a.testBit (x ^^^ 16) := by
  have h := xor_16_index x hx
  rw [bit_shufflehi_epi16, bit_shufflelo_epi16, h.2]
  simp [hx, h.1]

theorem step_8 (a x : Nat) (hx : x < 256) :
    (_mm256_shuffle_epi8 a (_mm256_set_epi8 [14, 15, 12, 13, 10, 11, 8, 9, 6, 7, 4, 5, 2, 3, 0, 1,
        14, 15, 12, 13, 10, 11, 8, 9, 6, 7, 4, 5, 2, 3, 0, 1])).testBit x
      = a.testBit (x ^^^ 8) := by
  have h := xor_8_index x hx
  rw [bit_shuffle_epi8, h.2]
  simp [hx, h.1]

/-- The masked swap of the last three steps of `subset_shift`. -/
theorem step_swap (a mh ml k x : Nat) (hk : k ≤ 15) (hx : x < 256)
    (hok : swapOk mh ml k x = true) :
    (_mm256_or_si256
      (_mm256_srli_epi16 (_mm256_and_si256 a (_mm256_set1_epi8 mh)) k)
      (_mm256_slli_epi16 (_mm256_and_si256 a (_mm256_set1_epi8 ml)) k)).testBit x
      = a.testBit (x ^^^ k) := by
  unfold _mm256_or_si256 _mm256_and_si256
  rw [Nat.testBit_or, bit_srli_epi16 _ _ _ hk, bit_slli_epi16 _ _ _ hk, Nat.testBit_and,
    Nat.testBit_and, bit_set1_epi8, bit_set1_epi8]
  unfold swapOk at hok
  rw [Bool.or_eq_true, Bool.and_eq_true, Bool.and_eq_true] at hok
  have hx' : decide (x < 256) = true := decide_eq_true hx
  rw [hx']
  rcases hok with ⟨hs, hi⟩ | ⟨hs, hi⟩
  · have hi := of_decide_eq_true hi
    have hs := (beq_iff_eq).mp hs
    have h1 : (decide (x % 16 + k < 16) && (decide (x + k < 256) && mh.testBit ((x + k) % 8)))
        = true := congrArg Prod.fst hs
    have h2 : (decide (k ≤ x % 16) && (decide (x - k < 256) && ml.testBit ((x - k) % 8)))
        = false := congrArg Prod.snd hs
    rw [← hi]
    revert h1 h2
    generalize decide (x % 16 + k < 16) = A1
    generalize decide (x + k < 256) = B1
    generalize mh.testBit ((x + k) % 8) = C1
    generalize decide (k ≤ x % 16) = A2
    generalize decide (x - k < 256) = B2
    generalize ml.testBit ((x - k) % 8) = C2
    generalize a.testBit (x + k) = T1
    generalize a.testBit (x - k) = T2
    cases A1 <;> cases B1 <;> cases C1 <;> cases A2 <;> cases B2 <;> cases C2 <;> cases T1 <;>
      cases T2 <;> simp
  · have hi := of_decide_eq_true hi
    have hs := (beq_iff_eq).mp hs
    have h1 : (decide (x % 16 + k < 16) && (decide (x + k < 256) && mh.testBit ((x + k) % 8)))
        = false := congrArg Prod.fst hs
    have h2 : (decide (k ≤ x % 16) && (decide (x - k < 256) && ml.testBit ((x - k) % 8)))
        = true := congrArg Prod.snd hs
    rw [← hi]
    revert h1 h2
    generalize decide (x % 16 + k < 16) = A1
    generalize decide (x + k < 256) = B1
    generalize mh.testBit ((x + k) % 8) = C1
    generalize decide (k ≤ x % 16) = A2
    generalize decide (x - k < 256) = B2
    generalize ml.testBit ((x - k) % 8) = C2
    generalize a.testBit (x + k) = T1
    generalize a.testBit (x - k) = T2
    cases A1 <;> cases B1 <;> cases C1 <;> cases A2 <;> cases B2 <;> cases C2 <;> cases T1 <;>
      cases T2 <;> simp

theorem shiftBit_lt (c k : Nat) (hk : k < 8) : shiftBit c k < 256 := by
  unfold shiftBit
  split
  · exact Nat.pow_lt_pow_right (by decide) hk |>.trans_le (by decide)
  · decide

theorem shiftBit_xor : ∀ c < 256,
    shiftBit c 0 ^^^ (shiftBit c 1 ^^^ (shiftBit c 2 ^^^ (shiftBit c 3 ^^^ (shiftBit c 4
      ^^^ (shiftBit c 5 ^^^ (shiftBit c 6 ^^^ shiftBit c 7)))))) = c := by
  decide!

/-- One conditional step of `subset_shift`, given what its body does to the bits. -/
theorem cond_step (F : Nat → Nat) (c k : Nat) (m : Nat) (hm : m = 2 ^ k)
    (hF : ∀ a x, x < 256 → (F a).testBit x = a.testBit (x ^^^ m)) (a x : Nat) (hx : x < 256) :
    (if (c >>> k) &&& 0x1 ≠ 0 then F a else a).testBit x = a.testBit (x ^^^ shiftBit c k) := by
  unfold shiftBit
  split
  · rw [hF a x hx, hm]
  · rw [Nat.xor_zero]

/-- Bit `x` of `subset_shift b c` is bit `x ^^^ c` of `b`. -/
theorem subset_shift_testBit (b c x : Nat) (hc : c < 256) (hx : x < 256) :
    (subset_shift b c).testBit x = b.testBit (x ^^^ c) := by
  have lt : ∀ y k : Nat, y < 256 → k < 8 → y ^^^ shiftBit c k < 256 :=
    fun y k hy hk => Nat.xor_lt_two_pow (n := 8) hy (shiftBit_lt c k hk)
  have h0 := lt x 0 hx (by decide)
  have h1 := lt _ 1 h0 (by decide)
  have h2 := lt _ 2 h1 (by decide)
  have h3 := lt _ 3 h2 (by decide)
  have h4 := lt _ 4 h3 (by decide)
  have h5 := lt _ 5 h4 (by decide)
  have h6 := lt _ 6 h5 (by decide)
  unfold subset_shift
  simp only []
  rw [cond_step (fun a => _mm256_or_si256
        (_mm256_srli_epi16 (_mm256_and_si256 a (_mm256_set1_epi8 0xAA)) 1)
        (_mm256_slli_epi16 (_mm256_and_si256 a (_mm256_set1_epi8 0x55)) 1)) c 0 1 rfl
      (fun a y hy => step_swap a 0xAA 0x55 1 y (by decide) hy (swapOk_1 y hy)) _ x hx,
    cond_step (fun a => _mm256_or_si256
        (_mm256_srli_epi16 (_mm256_and_si256 a (_mm256_set1_epi8 0xCC)) 2)
        (_mm256_slli_epi16 (_mm256_and_si256 a (_mm256_set1_epi8 0x33)) 2)) c 1 2 rfl
      (fun a y hy => step_swap a 0xCC 0x33 2 y (by decide) hy (swapOk_2 y hy)) _ _ h0,
    cond_step (fun a => _mm256_or_si256
        (_mm256_srli_epi16 (_mm256_and_si256 a (_mm256_set1_epi8 0xF0)) 4)
        (_mm256_slli_epi16 (_mm256_and_si256 a (_mm256_set1_epi8 0x0F)) 4)) c 2 4 rfl
      (fun a y hy => step_swap a 0xF0 0x0F 4 y (by decide) hy (swapOk_4 y hy)) _ _ h1,
    cond_step (fun a => _mm256_shuffle_epi8 a
        (_mm256_set_epi8 [14, 15, 12, 13, 10, 11, 8, 9, 6, 7, 4, 5, 2, 3, 0, 1,
          14, 15, 12, 13, 10, 11, 8, 9, 6, 7, 4, 5, 2, 3, 0, 1])) c 3 8 rfl
      (fun a y hy => step_8 a y hy) _ _ h2,
    cond_step (fun a => _mm256_shufflehi_epi16
        (_mm256_shufflelo_epi16 a (_MM_SHUFFLE 2 3 0 1)) (_MM_SHUFFLE 2 3 0 1)) c 4 16 rfl
      (fun a y hy => step_16 a y hy) _ _ h3,
    cond_step (fun a => _mm256_shuffle_epi32 a (_MM_SHUFFLE 2 3 0 1)) c 5 32 rfl
      (fun a y hy => step_32 a y hy) _ _ h4,
    cond_step (fun a => _mm256_permute4x64_epi64 a (_MM_SHUFFLE 2 3 0 1)) c 6 64 rfl
      (fun a y hy => step_64 a y hy) _ _ h5,
    cond_step (fun a => _mm256_permute2x128_si256 a a 1) c 7 128 rfl
      (fun a y hy => bit_permute2x128_swap a y hy) _ _ h6]
  simp only [Nat.xor_assoc]
  rw [shiftBit_xor c hc]

/-! ## Byte sets -/

theorem add_element_zero : ∀ elm < 256, subset_add_element 0 elm = 2 ^ elm := by
  decide!

theorem subset_add_element_eq (a elm : Nat) (h : elm < 256) :
    subset_add_element a elm = a ||| 2 ^ elm := by
  have e : subset_add_element a elm = a ||| subset_add_element 0 elm := by
    simp only [subset_add_element, _mm256_or_si256, Nat.zero_or]
  rw [e, add_element_zero elm h]

theorem testBit_add_element (a elm x : Nat) (h : elm < 256) :
    (subset_add_element a elm).testBit x = (a.testBit x || decide (elm = x)) := by
  rw [subset_add_element_eq a elm h, Nat.testBit_or, Nat.testBit_two_pow]

theorem testBit_intersect (a b x : Nat) :
    (subset_intersect a b).testBit x = (a.testBit x && b.testBit x) := by
  unfold subset_intersect _mm256_and_si256
  exact Nat.testBit_and a b x

theorem testBit_union (a b x : Nat) :
    (subset_union a b).testBit x = (a.testBit x || b.testBit x) := by
  unfold subset_union _mm256_or_si256
  exact Nat.testBit_or a b x

theorem testBit_init_empty (x : Nat) : subset_init_empty.testBit x = false := by
  unfold subset_init_empty _mm256_setzero_si256
  exact Nat.zero_testBit x

theorem init_full_eq : subset_init_full = 2 ^ 256 - 1 := by
  decide!

theorem testBit_init_full (x : Nat) : subset_init_full.testBit x = decide (x < 256) := by
  rw [init_full_eq, Nat.testBit_two_pow_sub_one]

/-- A byte set with a member is not empty. -/
theorem not_is_empty_of_testBit (a x : Nat) (h : a.testBit x = true) :
    subset_is_empty a = false := by
  unfold subset_is_empty _mm256_testz_si256
  have hne : a ≠ 0 := by
    intro h0
    rw [h0, Nat.zero_testBit] at h
    exact absurd h (by decide)
  simp [hne]

/-! ## Enumerating a byte set -/

theorem ctz_scan_spec (n x : Nat) (hx : x < 2 ^ n) (h0 : x ≠ 0) :
    x.testBit (ctz_scan n x) = true ∧ ∀ j < ctz_scan n x, x.testBit j = false := by
  induction n generalizing x with
  | zero =>
    have : x = 0 := by simpa using hx
    exact absurd this h0
  | succ n ih =>
    unfold ctz_scan
    by_cases hodd : x % 2 = 1
    · simp only [hodd, if_true]
      refine ⟨by simp [Nat.testBit_zero, hodd], fun j hj => absurd hj (Nat.not_lt_zero j)⟩
    · simp only [hodd, if_false]
      have hx2 : x / 2 < 2 ^ n := by
        rw [Nat.pow_succ] at hx; omega
      have h02 : x / 2 ≠ 0 := by omega
      obtain ⟨h1, h2⟩ := ih (x / 2) hx2 h02
      refine ⟨?_, ?_⟩
      · rw [Nat.add_comm, Nat.testBit_succ]; exact h1
      · intro j hj
        cases j with
        | zero => simp [Nat.testBit_zero, hodd]
        | succ j => rw [Nat.testBit_succ]; exact h2 j (by omega)

theorem ctz_scan_le (n x : Nat) : ctz_scan n x ≤ n := by
  induction n generalizing x with
  | zero => simp [ctz_scan]
  | succ n ih =>
    unfold ctz_scan
    split
    · omega
    · have := ih (x / 2); omega

/-- The statement `chunk &= (chunk - 1)` clears the lowest set bit and no other. -/
theorem testBit_clear_lowest (x p i : Nat) (hp : x.testBit p = true)
    (hlow : ∀ j < p, x.testBit j = false) :
    (x &&& (x - 1)).testBit i = (x.testBit i && !decide (i = p)) := by
  have hmod : x % 2 ^ (p + 1) = 2 ^ p := by
    apply Nat.eq_of_testBit_eq; intro j
    rw [Nat.testBit_mod_two_pow, Nat.testBit_two_pow]
    by_cases h1 : j < p
    · have : j < p + 1 := by omega
      have h2 : ¬ p = j := by omega
      simp [this, hlow j h1, h2]
    · by_cases h2 : j = p
      · subst h2; simp [hp]
      · have : ¬ j < p + 1 := by omega
        have h3 : ¬ p = j := fun h => h2 h.symm
        simp [this, h3]
  have hx : x = 2 ^ (p + 1) * (x / 2 ^ (p + 1)) + 2 ^ p := by
    have := Nat.div_add_mod x (2 ^ (p + 1))
    rw [hmod] at this
    exact this.symm
  have hpos : 0 < 2 ^ p := Nat.pos_pow_of_pos p (by decide)
  have hx1 : x - 1 = 2 ^ (p + 1) * (x / 2 ^ (p + 1)) + (2 ^ p - 1) := by omega
  have hlt1 : 2 ^ p < 2 ^ (p + 1) := Nat.pow_lt_pow_right (by decide) (by omega)
  have hlt2 : 2 ^ p - 1 < 2 ^ (p + 1) := by omega
  have b1 : x.testBit i = if i < p + 1 then (2 ^ p).testBit i
      else (x / 2 ^ (p + 1)).testBit (i - (p + 1)) := by
    conv => lhs; rw [hx]
    exact Nat.testBit_mul_pow_two_add _ hlt1 i
  have b2 : (x - 1).testBit i = if i < p + 1 then (2 ^ p - 1).testBit i
      else (x / 2 ^ (p + 1)).testBit (i - (p + 1)) := by
    rw [hx1]
    exact Nat.testBit_mul_pow_two_add _ hlt2 i
  rw [Nat.testBit_and, b2, b1, Nat.testBit_two_pow, Nat.testBit_two_pow_sub_one]
  by_cases h1 : i < p + 1
  · by_cases h2 : i = p
    · subst h2; simp
    · have h3 : ¬ p = i := fun h => h2 h.symm
      simp [h1, h2, h3]
  · have h2 : ¬ i = p := by omega
    simp [h1, h2]

/-- Every set bit of a 64-bit word is pushed by the loop of `subset_get_elements`, when the
iteration bound covers the bits that are still set. -/
theorem elements_loop_complete (k fuel chunk : Nat) (hlt : chunk < 2 ^ 64)
    (hinv : ∀ i, i + fuel < 64 → chunk.testBit i = false) (i : Nat) (hi : i < 64)
    (hbit : chunk.testBit i = true) :
    (i + k * 64) % 256 ∈ elements_loop k fuel chunk := by
  induction fuel generalizing chunk with
  | zero =>
    have := hinv i (by omega)
    rw [hbit] at this
    exact absurd this (by decide)
  | succ fuel ih =>
    have hne : chunk ≠ 0 := by
      intro h0; rw [h0, Nat.zero_testBit] at hbit; exact absurd hbit (by decide)
    obtain ⟨hp, hlow⟩ := ctz_scan_spec 64 chunk hlt hne
    unfold elements_loop
    simp only [hne, ne_eq, not_false_eq_true, if_true]
    by_cases hip : i = ctz_scan 64 chunk
    · rw [hip]
      exact List.mem_cons_self _ _
    · apply List.mem_cons_of_mem
      apply ih
      · exact Nat.lt_of_le_of_lt Nat.and_le_left hlt
      · intro j hj
        rw [testBit_clear_lowest chunk _ j hp hlow]
        by_cases hjp : j = ctz_scan 64 chunk
        · simp [hjp]
        · cases hb : chunk.testBit j with
          | false => simp
          | true =>
            exfalso
            have hpj : ctz_scan 64 chunk < j := by
              rcases Nat.lt_trichotomy (ctz_scan 64 chunk) j with h | h | h
              · exact h
              · exact absurd h.symm hjp
              · have := hlow j h; rw [hb] at this; exact absurd this (by decide)
            have := hinv (ctz_scan 64 chunk) (by omega)
            rw [hp] at this
            exact absurd this (by decide)
      · rw [testBit_clear_lowest chunk _ i hp hlow, hbit]
        simp [hip]

/-- Every member of a byte set is in the list `subset_get_elements` returns. -/
theorem mem_get_elements (a x : Nat) (hx : x < 256) (h : a.testBit x = true) :
    x ∈ subset_get_elements a := by
  have hbit : (elem 64 a (x / 64)).testBit (x % 64) = true := by
    have := subset_mem_eq a x
    unfold subset_mem _mm256_extract_epi64 at this
    rw [this, h]
  have hlt : ∀ k, elem 64 a k < 2 ^ 64 := fun k => Nat.mod_lt _ (Nat.pos_pow_of_pos 64 (by decide))
  have hm : x % 64 < 64 := Nat.mod_lt _ (by decide)
  have key : ∀ k, x / 64 = k → x ∈ elements_loop k 64 (elem 64 a k) := by
    intro k hk
    have hx2 : (x % 64 + k * 64) % 256 = x := by
      have := Nat.div_add_mod x 64
      omega
    have := elements_loop_complete k 64 (elem 64 a k) (hlt k) (fun i hi => absurd hi (by omega))
      (x % 64) hm (by rw [← hk]; exact hbit)
    rw [hx2] at this
    exact this
  unfold subset_get_elements _mm256_extract_epi64
  simp only [List.mem_append]
  have hk : x / 64 = 0 ∨ x / 64 = 1 ∨ x / 64 = 2 ∨ x / 64 = 3 := by omega
  rcases hk with h0 | h1 | h2 | h3
  · exact Or.inl (Or.inl (Or.inl (key 0 h0)))
  · exact Or.inl (Or.inl (Or.inr (key 1 h1)))
  · exact Or.inl (Or.inr (key 2 h2))
  · exact Or.inr (key 3 h3)

/-! ## The difference tables -/

/-- A loop over `0 .. n - 1` that acts at one index at most. -/
theorem foldl_range_select {α : Type} (n k : Nat) (P : Nat → Prop) [DecidablePred P]
    (g : α → α) (cell : α) :
    (List.range n).foldl (fun c d => if d = k ∧ P d then g c else c) cell
      = if k < n ∧ P k then g cell else cell := by
  induction n with
  | zero => simp
  | succ n ih =>
    rw [List.range_succ, List.foldl_append, ih]
    simp only [List.foldl_cons, List.foldl_nil]
    by_cases hk : k < n
    · have h1 : ¬ n = k := by omega
      have h2 : k < n + 1 := by omega
      simp [hk, h1, h2]
    · by_cases hn : n = k
      · subst hn
        simp
      · have h2 : ¬ k < n + 1 := by omega
        simp [hk, hn, h2]

/-- A loop that appends one value per selected index builds the filtered, mapped list. -/
theorem foldl_append_filter {α : Type} (l : List Nat) (C : Nat → Bool) (v : Nat → α)
    (init : List α) :
    l.foldl (fun cell x => if C x then cell ++ [v x] else cell) init
      = init ++ (l.filter C).map v := by
  induction l generalizing init with
  | nil => simp
  | cons x l ih =>
    rw [List.foldl_cons, ih]
    by_cases hc : C x = true
    · simp [hc, List.filter_cons]
    · simp [hc, List.filter_cons]

/-- The cell `DDTV_out[din][dout]` lists `SBOX[x]` over the `x` with
`SBOX[x] ^ SBOX[x ^ din] = dout`, in increasing order of `x`. -/
theorem DDTV_out_eq (din dout : Nat) (hd : din < 256) :
    DDTV_out din dout
      = ((List.range 256).filter
          (fun x => decide (SBOX.getD x 0 ^^^ SBOX.getD (x ^^^ din) 0 = dout))).map
          (fun x => SBOX.getD (x % 256) 0) := by
  unfold DDTV_out
  have inner : ∀ (x : Nat) (cell : List Nat),
      (List.range 256).foldl (fun cell din' =>
        let dout' := SBOX.getD x 0 ^^^ SBOX.getD (x ^^^ din') 0
        if din' = din ∧ dout' = dout then cell ++ [SBOX.getD (x % 256) 0] else cell) cell
      = if decide (SBOX.getD x 0 ^^^ SBOX.getD (x ^^^ din) 0 = dout) = true
          then cell ++ [SBOX.getD (x % 256) 0] else cell := by
    intro x cell
    have := foldl_range_select 256 din
      (fun d => SBOX.getD x 0 ^^^ SBOX.getD (x ^^^ d) 0 = dout)
      (fun c => c ++ [SBOX.getD (x % 256) 0]) cell
    simp only [] at this ⊢
    rw [this]
    simp [hd]
  simp only [inner]
  rw [foldl_append_filter]
  simp

theorem mem_DDTV_out (din dout e : Nat) (hd : din < 256) :
    e ∈ DDTV_out din dout ↔
      ∃ x, x < 256 ∧ SBOX.getD x 0 ^^^ SBOX.getD (x ^^^ din) 0 = dout ∧ e = SBOX.getD x 0 := by
  rw [DDTV_out_eq din dout hd]
  simp only [List.mem_map, List.mem_filter, List.mem_range, decide_eq_true_eq]
  constructor
  · rintro ⟨x, ⟨hx, hxd⟩, rfl⟩
    exact ⟨x, hx, hxd, by rw [Nat.mod_eq_of_lt hx]⟩
  · rintro ⟨x, hx, hxd, rfl⟩
    exact ⟨x, ⟨hx, hxd⟩, by rw [Nat.mod_eq_of_lt hx]⟩

theorem mem_POSSIBLE_DELTA_Y (d y : Nat) (hd : d < 256) :
    y ∈ POSSIBLE_DELTA_Y d ↔
      y < 256 ∧ ∃ x, x < 256 ∧ SBOX.getD x 0 ^^^ SBOX.getD (x ^^^ d) 0 = y := by
  unfold POSSIBLE_DELTA_Y
  simp only [List.mem_filter, List.mem_range, Bool.not_eq_true']
  constructor
  · rintro ⟨hy, hne⟩
    refine ⟨hy, ?_⟩
    cases hl : DDTV_out d y with
    | nil => rw [hl] at hne; simp at hne
    | cons e l =>
      have he : e ∈ DDTV_out d y := by rw [hl]; exact List.mem_cons_self _ _
      obtain ⟨x, hx, hxd, _⟩ := (mem_DDTV_out d y e hd).mp he
      exact ⟨x, hx, hxd⟩
  · rintro ⟨hy, x, hx, hxd⟩
    refine ⟨hy, ?_⟩
    have he : SBOX.getD x 0 ∈ DDTV_out d y := (mem_DDTV_out d y _ hd).mpr ⟨x, hx, hxd, rfl⟩
    cases hl : DDTV_out d y with
    | nil => rw [hl] at he; simp at he
    | cons e l => rfl

/-- Bits of a set built by `subset_add_element` over a list. -/
theorem testBit_foldl_add_element (l : List Nat) (h : Nat → Nat) (hh : ∀ e, h e < 256)
    (init y : Nat) :
    (l.foldl (fun cell e => subset_add_element cell (h e)) init).testBit y
      = (init.testBit y || l.any (fun e => decide (h e = y))) := by
  induction l generalizing init with
  | nil => simp
  | cons e l ih =>
    rw [List.foldl_cons, ih, testBit_add_element _ _ _ (hh e), List.any_cons, Bool.or_assoc]

theorem testBit_DDTV_out_shifted (a b c y : Nat) (ha : a < 256) :
    (DDTV_out_shifted a b c).testBit y = true ↔
      ∃ x, x < 256 ∧ SBOX.getD x 0 ^^^ SBOX.getD (x ^^^ a) 0 = b
        ∧ (SBOX.getD x 0 ^^^ c) % 256 = y := by
  unfold DDTV_out_shifted
  rw [testBit_foldl_add_element _ (fun e => (e ^^^ c) % 256)
    (fun e => Nat.mod_lt _ (by decide)), testBit_init_empty]
  simp only [Bool.false_or, List.any_eq_true, decide_eq_true_eq]
  constructor
  · rintro ⟨e, he, hy⟩
    obtain ⟨x, hx, hxd, rfl⟩ := (mem_DDTV_out a b e ha).mp he
    exact ⟨x, hx, hxd, hy⟩
  · rintro ⟨x, hx, hxd, hy⟩
    exact ⟨SBOX.getD x 0, (mem_DDTV_out a b _ ha).mpr ⟨x, hx, hxd, rfl⟩, hy⟩

/-! ## The table `T` -/

theorem adds_foldl {ι : Type} (l : List ι) (F : ι → Nat → Nat) (C : ι → Nat → Prop)
    (h : ∀ x ∈ l, Adds (F x) (C x)) :
    Adds (fun cell => l.foldl (fun c x => F x c) cell) (fun y => ∃ x ∈ l, C x y) := by
  induction l with
  | nil =>
    intro cell y
    simp
  | cons a l ih =>
    intro cell y
    have ih' := ih (fun x hx => h x (List.mem_cons_of_mem _ hx))
    have ha := h a (List.mem_cons_self _ _)
    show ((l.foldl (fun c x => F x c) (F a cell)).testBit y = true) ↔ _
    rw [ih' (F a cell) y, ha cell y]
    constructor
    · rintro ((hc | hc) | ⟨x, hx, hc⟩)
      · exact Or.inl hc
      · exact Or.inr ⟨a, List.mem_cons_self _ _, hc⟩
      · exact Or.inr ⟨x, List.mem_cons_of_mem _ hx, hc⟩
    · rintro (hc | ⟨x, hx, hc⟩)
      · exact Or.inl (Or.inl hc)
      · rcases List.mem_cons.mp hx with rfl | hx
        · exact Or.inl (Or.inr hc)
        · exact Or.inr ⟨x, hx, hc⟩

theorem adds_T_inner (LT : Tables) (i z j i' x0 x1 x2 y0 y1 y2 : Nat) :
    Adds (T_inner LT i z j i' x0 x1 x2 y0 y1 y2) (T_adds LT i z j i' x0 x1 x2 y0 y1 y2) := by
  intro cell y
  unfold T_inner T_adds
  by_cases hc : i' = i ∧ linear_layer LT ((y0 <<< 16) ^^^ (y1 <<< 8) ^^^ y2) = z
  · rw [if_pos hc]
    rcases j with _ | _ | _ | j
    · simp [testBit_union, hc.1, hc.2]
    · simp [testBit_union, hc.1, hc.2]
    · simp [testBit_union, hc.1, hc.2]
    · simp [hc.1, hc.2]
  · rw [if_neg hc]
    constructor
    · exact Or.inl
    · rintro (h | ⟨h1, h2, _⟩)
      · exact h
      · exact absurd ⟨h1, h2⟩ hc

theorem build_T_eq (LT : Tables) (PAIRS : List pair_t) (i z j : Nat) :
    build_T LT PAIRS i z j
      = (List.range N_PAIRS).foldl
          (fun c i' => T_loop_dout LT i z j i' (PAIRS.getD i' default).d c) subset_init_empty :=
  rfl

/-- The members of the cell `T[i][z][j]`, read off the five loops. -/
theorem testBit_build_T (LT : Tables) (PAIRS : List pair_t) (i z j y : Nat) :
    (build_T LT PAIRS i z j).testBit y = true ↔
      ∃ i' ∈ List.range N_PAIRS, ∃ dout ∈ POSSIBLE_DELTA_Y (PAIRS.getD i' default).d,
        ∃ y0 ∈ POSSIBLE_DELTA_Y ((T_delta_x7 LT (PAIRS.getD i' default).d dout >>> 16) % 256),
        ∃ y1 ∈ POSSIBLE_DELTA_Y ((T_delta_x7 LT (PAIRS.getD i' default).d dout >>> 8) % 256),
        ∃ y2 ∈ POSSIBLE_DELTA_Y (T_delta_x7 LT (PAIRS.getD i' default).d dout % 256),
        T_adds LT i z j i'
          ((T_delta_x7 LT (PAIRS.getD i' default).d dout >>> 16) % 256)
          ((T_delta_x7 LT (PAIRS.getD i' default).d dout >>> 8) % 256)
          (T_delta_x7 LT (PAIRS.getD i' default).d dout % 256) y0 y1 y2 y := by
  have h2 : ∀ i' x0 x1 x2 y0 y1, Adds (T_loop2 LT i z j i' x0 x1 x2 y0 y1)
      (fun y => ∃ y2 ∈ POSSIBLE_DELTA_Y x2, T_adds LT i z j i' x0 x1 x2 y0 y1 y2 y) :=
    fun i' x0 x1 x2 y0 y1 => adds_foldl (POSSIBLE_DELTA_Y x2)
      (fun y2 => T_inner LT i z j i' x0 x1 x2 y0 y1 y2)
      (fun y2 => T_adds LT i z j i' x0 x1 x2 y0 y1 y2)
      (fun y2 _ => adds_T_inner LT i z j i' x0 x1 x2 y0 y1 y2)
  have h1 : ∀ i' x0 x1 x2 y0, Adds (T_loop1 LT i z j i' x0 x1 x2 y0)
      (fun y => ∃ y1 ∈ POSSIBLE_DELTA_Y x1, ∃ y2 ∈ POSSIBLE_DELTA_Y x2,
        T_adds LT i z j i' x0 x1 x2 y0 y1 y2 y) :=
    fun i' x0 x1 x2 y0 => adds_foldl (POSSIBLE_DELTA_Y x1)
      (fun y1 => T_loop2 LT i z j i' x0 x1 x2 y0 y1)
      (fun y1 y => ∃ y2 ∈ POSSIBLE_DELTA_Y x2, T_adds LT i z j i' x0 x1 x2 y0 y1 y2 y)
      (fun y1 _ => h2 i' x0 x1 x2 y0 y1)
  have h0 : ∀ i' x0 x1 x2, Adds (T_loop0 LT i z j i' x0 x1 x2)
      (fun y => ∃ y0 ∈ POSSIBLE_DELTA_Y x0, ∃ y1 ∈ POSSIBLE_DELTA_Y x1,
        ∃ y2 ∈ POSSIBLE_DELTA_Y x2, T_adds LT i z j i' x0 x1 x2 y0 y1 y2 y) :=
    fun i' x0 x1 x2 => adds_foldl (POSSIBLE_DELTA_Y x0)
      (fun y0 => T_loop1 LT i z j i' x0 x1 x2 y0)
      (fun y0 y => ∃ y1 ∈ POSSIBLE_DELTA_Y x1, ∃ y2 ∈ POSSIBLE_DELTA_Y x2,
        T_adds LT i z j i' x0 x1 x2 y0 y1 y2 y)
      (fun y0 _ => h1 i' x0 x1 x2 y0)
  have hd : ∀ i' din, Adds (T_loop_dout LT i z j i' din)
      (fun y => ∃ dout ∈ POSSIBLE_DELTA_Y din,
        ∃ y0 ∈ POSSIBLE_DELTA_Y ((T_delta_x7 LT din dout >>> 16) % 256),
        ∃ y1 ∈ POSSIBLE_DELTA_Y ((T_delta_x7 LT din dout >>> 8) % 256),
        ∃ y2 ∈ POSSIBLE_DELTA_Y (T_delta_x7 LT din dout % 256),
        T_adds LT i z j i' ((T_delta_x7 LT din dout >>> 16) % 256)
          ((T_delta_x7 LT din dout >>> 8) % 256) (T_delta_x7 LT din dout % 256) y0 y1 y2 y) :=
    fun i' din => adds_foldl (POSSIBLE_DELTA_Y din)
      (fun dout => T_loop0 LT i z j i' ((T_delta_x7 LT din dout >>> 16) % 256)
        ((T_delta_x7 LT din dout >>> 8) % 256) (T_delta_x7 LT din dout % 256))
      (fun dout y => ∃ y0 ∈ POSSIBLE_DELTA_Y ((T_delta_x7 LT din dout >>> 16) % 256),
        ∃ y1 ∈ POSSIBLE_DELTA_Y ((T_delta_x7 LT din dout >>> 8) % 256),
        ∃ y2 ∈ POSSIBLE_DELTA_Y (T_delta_x7 LT din dout % 256),
        T_adds LT i z j i' ((T_delta_x7 LT din dout >>> 16) % 256)
          ((T_delta_x7 LT din dout >>> 8) % 256) (T_delta_x7 LT din dout % 256) y0 y1 y2 y)
      (fun dout _ => h0 i' _ _ _)
  have hp := adds_foldl (List.range N_PAIRS)
    (fun i' => T_loop_dout LT i z j i' (PAIRS.getD i' default).d)
    (fun i' y => ∃ dout ∈ POSSIBLE_DELTA_Y (PAIRS.getD i' default).d,
        ∃ y0 ∈ POSSIBLE_DELTA_Y ((T_delta_x7 LT (PAIRS.getD i' default).d dout >>> 16) % 256),
        ∃ y1 ∈ POSSIBLE_DELTA_Y ((T_delta_x7 LT (PAIRS.getD i' default).d dout >>> 8) % 256),
        ∃ y2 ∈ POSSIBLE_DELTA_Y (T_delta_x7 LT (PAIRS.getD i' default).d dout % 256),
        T_adds LT i z j i'
          ((T_delta_x7 LT (PAIRS.getD i' default).d dout >>> 16) % 256)
          ((T_delta_x7 LT (PAIRS.getD i' default).d dout >>> 8) % 256)
          (T_delta_x7 LT (PAIRS.getD i' default).d dout % 256) y0 y1 y2 y)
    (fun i' _ => hd i' _)
  have hfin := hp subset_init_empty y
  rw [testBit_init_empty] at hfin
  rw [build_T_eq]
  simp only [false_or, Bool.false_eq_true] at hfin
  exact hfin

/-! ## Related tweaks -/

theorem rk_diff_xor (r : Nat) : XorAdditive (rk_diff r) := by
  rcases r with _ | _ | _ | _ | _ | _ | _ | _ | _ | r
  · exact XorAdditive.id
  · exact XorAdditive.zero
  · exact XorAdditive.zero
  · exact XorAdditive.zero
  · exact XorAdditive.zero
  · exact XorAdditive.zero
  · exact XorAdditive.id.shl 16
  · exact XorAdditive.id.shl 8
  · exact XorAdditive.id
  · exact XorAdditive.zero

theorem ks_lin_diff_basis : ∀ r < 10, ∀ i < 8,
    ks_lin r (((2 ^ i) <<< 40) <<< 64) = rk_diff r (2 ^ i) := by
  decide!

theorem ks_lin_diff (r d : Nat) (hr : r ≤ 9) (hd : d < 2 ^ 8) :
    ks_lin r ((d <<< 40) <<< 64) = rk_diff r d :=
  XorAdditive.ext_on_bits (f := fun d => ks_lin r ((d <<< 40) <<< 64)) (g := rk_diff r)
    ((ks_lin_xor r).comp ((XorAdditive.id.shl 40).shl 64)) (rk_diff_xor r) 8
    (ks_lin_diff_basis r (by omega)) d hd

/-- Round keys 0 to 9 under the related tweak `t ^ (d << 40)`. -/
theorem key_schedule_related (key t d r : Nat) (hr : r ≤ 9) (hd : d < 256) :
    (key_schedule key (t ^^^ (d <<< 40))).getD r 0
      = (key_schedule key t).getD r 0 ^^^ rk_diff r d := by
  rw [key_schedule_tweak key _ r hr, key_schedule_tweak key t r hr, shl_xor, ks_lin_xor r,
    ks_lin_diff r d hr hd, Nat.xor_assoc]

theorem lin10_diff_basis : ∀ i < 8,
    normalize_round_key 0 ((2 ^ i) <<< 40) 10 = (2 ^ i) <<< 16 := by
  decide!

theorem lin10_diff (d : Nat) (hd : d < 2 ^ 8) :
    normalize_round_key 0 (d <<< 40) 10 = d <<< 16 :=
  XorAdditive.ext_on_bits (f := fun d => normalize_round_key 0 (d <<< 40) 10)
    (g := fun d => d <<< 16)
    ((normalize_round_key_zero_xor 10).comp (XorAdditive.id.shl 40)) (XorAdditive.id.shl 16) 8
    lin10_diff_basis d hd

theorem byte9_diff_basis : ∀ i < 8,
    ((((2 ^ i) <<< 40) >>> 48) &&& 0xFF) ^^^ ((((2 ^ i) <<< 40) >>> 16) &&& 0xFF) = 0 := by
  decide!

theorem byte9_diff (d : Nat) (hd : d < 2 ^ 8) :
    (((d <<< 40) >>> 48) &&& 0xFF) ^^^ (((d <<< 40) >>> 16) &&& 0xFF) = 0 :=
  XorAdditive.ext_on_bits
    (f := fun d => (((d <<< 40) >>> 48) &&& 0xFF) ^^^ (((d <<< 40) >>> 16) &&& 0xFF))
    (g := fun _ => 0)
    (normalize_9_low_byte_xor.comp (XorAdditive.id.shl 40)) XorAdditive.zero 8
    byte9_diff_basis d hd

/-- The parts of `normalize_round_key_10`: the round key, the linear tweak constant and the two
S-box entries. -/
theorem normalize_round_key_10_eq (k b t : Nat) :
    normalize_round_key_10 k b t
      = k ^^^ normalize_round_key 0 t 10 ^^^ SBOX.getD b 0
          ^^^ SBOX.getD (b ^^^ (((t >>> 48) &&& 0xFF) ^^^ ((t >>> 16) &&& 0xFF))) 0 := by
  unfold normalize_round_key_10
  simp only [normalize_round_key, Nat.zero_xor, Nat.xor_assoc]

/-- Round key 10 under the related tweak `t ^ (d << 40)`. -/
theorem key_schedule_related_10 (key t d : Nat) (ht : t < 2 ^ 64) (hd : d < 256) :
    (key_schedule key (t ^^^ (d <<< 40))).getD 10 0
      = (key_schedule key t).getD 10 0 ^^^ (d <<< 16) := by
  have hd40 : d <<< 40 < 2 ^ 64 := by
    rw [Nat.shiftLeft_eq]
    have : d * 2 ^ 40 < 256 * 2 ^ 40 := Nat.mul_lt_mul_of_pos_right hd (by decide)
    exact Nat.lt_of_lt_of_le this (by decide)
  have ht' : t ^^^ (d <<< 40) < 2 ^ 64 := Nat.xor_lt_two_pow ht hd40
  have e1 : normalize_round_key 0 (t ^^^ (d <<< 40)) 10
      = normalize_round_key 0 t 10 ^^^ normalize_round_key 0 (d <<< 40) 10 :=
    normalize_round_key_zero_xor 10 t (d <<< 40)
  have e2 : (((t ^^^ (d <<< 40)) >>> 48) &&& 0xFF) ^^^ (((t ^^^ (d <<< 40)) >>> 16) &&& 0xFF)
      = (((t >>> 48) &&& 0xFF) ^^^ ((t >>> 16) &&& 0xFF))
        ^^^ ((((d <<< 40) >>> 48) &&& 0xFF) ^^^ (((d <<< 40) >>> 16) &&& 0xFF)) :=
    normalize_9_low_byte_xor t (d <<< 40)
  rw [key_schedule_10_tweak key _ ht', key_schedule_10_tweak key t ht,
    normalize_round_key_10_eq, normalize_round_key_10_eq, e1, lin10_diff d hd, e2,
    byte9_diff d hd, Nat.xor_zero]
  generalize (key_schedule key 0).getD 10 0 = k
  generalize normalize_round_key 0 t 10 = n
  generalize SBOX.getD ((key_schedule key 0).getD 9 0 % 256) 0 = u
  generalize SBOX.getD ((key_schedule key 0).getD 9 0 % 256
    ^^^ (((t >>> 48) &&& 0xFF) ^^^ ((t >>> 16) &&& 0xFF))) 0 = v
  generalize d <<< 16 = e
  simp only [Nat.xor_assoc, Nat.xor_comm, xor_left_comm]

/-! ## S-box differences -/

/-- A difference in the top byte of a 24-bit state goes through `sub_bytes` as a difference
in the top byte. -/
theorem sub_bytes_top_diff (s d : Nat) (hd : d < 256) :
    sub_bytes (s ^^^ (d <<< 16))
      = sub_bytes s ^^^ ((SBOX.getD ((s >>> 16) % 256) 0
          ^^^ SBOX.getD ((s >>> 16) % 256 ^^^ d) 0) <<< 16) := by
  have e0 : ((s ^^^ (d <<< 16)) >>> 16) % 256 = (s >>> 16) % 256 ^^^ d := by
    rw [shr_xor, Nat.shiftLeft_shiftRight, mod256_xor, Nat.mod_eq_of_lt hd]
  have e1 : ((s ^^^ (d <<< 16)) >>> 8) % 256 = (s >>> 8) % 256 := by
    rw [shr_xor, mod256_xor]
    have : ((d <<< 16) >>> 8) % 256 = 0 := by
      rw [Nat.shiftLeft_eq, Nat.shiftRight_eq_div_pow]; omega
    rw [this, Nat.xor_zero]
  have e2 : (s ^^^ (d <<< 16)) % 256 = s % 256 := by
    rw [mod256_xor]
    have : (d <<< 16) % 256 = 0 := by
      rw [Nat.shiftLeft_eq]; omega
    rw [this, Nat.xor_zero]
  unfold sub_bytes
  simp only [and_0xFF]
  rw [e0, e1, e2, shl_xor]
  generalize SBOX.getD ((s >>> 16) % 256) 0 <<< 16 = a
  generalize SBOX.getD ((s >>> 16) % 256 ^^^ d) 0 <<< 16 = b
  generalize SBOX.getD ((s >>> 8) % 256) 0 <<< 8 = c
  generalize SBOX.getD (s % 256) 0 = e
  apply Nat.eq_of_testBit_eq; intro i
  simp only [Nat.testBit_xor]
  cases a.testBit i <;> cases b.testBit i <;> cases c.testBit i <;> cases e.testBit i <;> rfl

/-- A difference of a 24-bit state goes through `sub_bytes` lane by lane. -/
theorem sub_bytes_diff (s dx : Nat) :
    sub_bytes (s ^^^ dx)
      = sub_bytes s
        ^^^ (((SBOX.getD (lane s 0) 0 ^^^ SBOX.getD (lane s 0 ^^^ lane dx 0) 0) <<< 16)
          ^^^ ((SBOX.getD (lane s 1) 0 ^^^ SBOX.getD (lane s 1 ^^^ lane dx 1) 0) <<< 8)
          ^^^ (SBOX.getD (lane s 2) 0 ^^^ SBOX.getD (lane s 2 ^^^ lane dx 2) 0)) := by
  have e0 : ((s ^^^ dx) >>> 16) % 256 = (s >>> 16) % 256 ^^^ (dx >>> 16) % 256 := by
    rw [shr_xor, mod256_xor]
  have e1 : ((s ^^^ dx) >>> 8) % 256 = (s >>> 8) % 256 ^^^ (dx >>> 8) % 256 := by
    rw [shr_xor, mod256_xor]
  unfold sub_bytes lane
  simp only [and_0xFF]
  rw [e0, e1, mod256_xor s dx, shl_xor, shl_xor]
  generalize SBOX.getD ((s >>> 16) % 256) 0 <<< 16 = a
  generalize SBOX.getD ((s >>> 16) % 256 ^^^ (dx >>> 16) % 256) 0 <<< 16 = a'
  generalize SBOX.getD ((s >>> 8) % 256) 0 <<< 8 = b
  generalize SBOX.getD ((s >>> 8) % 256 ^^^ (dx >>> 8) % 256) 0 <<< 8 = b'
  generalize SBOX.getD (s % 256) 0 = c
  generalize SBOX.getD (s % 256 ^^^ dx % 256) 0 = c'
  apply Nat.eq_of_testBit_eq; intro i
  simp only [Nat.testBit_xor]
  cases a.testBit i <;> cases a'.testBit i <;> cases b.testBit i <;> cases b'.testBit i <;>
    cases c.testBit i <;> cases c'.testBit i <;> rfl

/-! ## The differential trail of a pair -/

theorem enc_state_succ (LT : Tables) (rk : List Nat) (p n : Nat) :
    enc_state LT rk p (n + 1) = round_with_MC LT (enc_state LT rk p n) (rk.getD (1 + n) 0) := by
  unfold enc_state
  rw [List.range'_1_concat, List.foldl_append]
  rfl

theorem enc_state_zero (LT : Tables) (rk : List Nat) (p : Nat) :
    enc_state LT rk p 0 = p ^^^ rk.getD 0 0 := rfl

theorem encrypt_eq (LT : Tables) (p key t : Nat) :
    encrypt LT p key t
      = round_no_MC (enc_state LT (key_schedule key t) p 9) ((key_schedule key t).getD 10 0) :=
  rfl

theorem enc_state_lt (key t p n : Nat) (hp : p < 2 ^ 24) :
    enc_state generate_tables (key_schedule key t) p n < 2 ^ 24 := by
  unfold enc_state
  exact rounds_lt (fun i => (key_schedule key t).getD i 0) (key_schedule_getD_lt key t) _ _
    (Nat.xor_lt_two_pow hp (key_schedule_getD_lt key t 0))

/-- After the key addition and after each of rounds 1 to 5 the two states of a pair are
equal. -/
theorem trail_equal (key p t d n : Nat) (hd : d < 256) (hn : n ≤ 5) :
    enc_state generate_tables (key_schedule key (t ^^^ (d <<< 40))) (p ^^^ d) n
      = enc_state generate_tables (key_schedule key t) p n := by
  induction n with
  | zero =>
    rw [enc_state_zero, enc_state_zero, key_schedule_related key t d 0 (by decide) hd]
    show p ^^^ d ^^^ ((key_schedule key t).getD 0 0 ^^^ d) = _
    generalize (key_schedule key t).getD 0 0 = k
    apply Nat.eq_of_testBit_eq; intro i
    simp only [Nat.testBit_xor]
    cases p.testBit i <;> cases d.testBit i <;> cases k.testBit i <;> rfl
  | succ n ih =>
    rw [enc_state_succ, enc_state_succ, ih (by omega),
      key_schedule_related key t d (1 + n) (by omega) hd]
    have : rk_diff (1 + n) d = 0 := by
      have h : 1 + n = 1 ∨ 1 + n = 2 ∨ 1 + n = 3 ∨ 1 + n = 4 ∨ 1 + n = 5 := by omega
      rcases h with h | h | h | h | h <;> rw [h] <;> rfl
    rw [this, Nat.xor_zero]

theorem round_with_MC_eq (LT : Tables) (s k : Nat) :
    round_with_MC LT s k = linear_layer LT (sub_bytes s) ^^^ k := rfl

/-- After round 6 the two states of a pair differ by `d << 16`. -/
theorem trail_6 (key p t d : Nat) (hd : d < 256) :
    enc_state generate_tables (key_schedule key (t ^^^ (d <<< 40))) (p ^^^ d) 6
      = enc_state generate_tables (key_schedule key t) p 6 ^^^ (d <<< 16) := by
  rw [enc_state_succ _ _ (p ^^^ d) 5, enc_state_succ _ _ p 5,
    trail_equal key p t d 5 hd (by decide),
    key_schedule_related key t d (1 + 5) (by decide) hd, round_with_MC_eq, round_with_MC_eq]
  show _ ^^^ (_ ^^^ d <<< 16) = _
  rw [Nat.xor_assoc]

theorem LUT_L_FROM_MSB_eq (dout : Nat) (h : dout < 256) :
    generate_tables.LUT_L_FROM_MSB.getD dout 0 = linear_layer generate_tables (dout <<< 16) := by
  have hlt : dout <<< 16 < 2 ^ 24 := by
    rw [Nat.shiftLeft_eq]; omega
  rw [linear_layer_eq _ hlt]
  simp only [generate_tables]
  exact getD_map_range _ _ _ h

theorem sbox_diff_lt (x d : Nat) (hx : x < 256) (hd : d < 256) : sbox_diff x d < 256 :=
  Nat.xor_lt_two_pow (n := 8) (SBOX_lt x hx)
    (SBOX_lt _ (Nat.xor_lt_two_pow (n := 8) hx hd))

theorem lane_lt (w j : Nat) : lane w j < 256 := by
  unfold lane
  split <;> exact Nat.mod_lt _ (by decide)

/-- After round 7 the two states of a pair differ by `delta_x7`, computed from the S-box
output difference `dout` of the active byte. -/
theorem trail_7 (key p t d : Nat) (hd : d < 256) :
    enc_state generate_tables (key_schedule key (t ^^^ (d <<< 40))) (p ^^^ d) 7
      = enc_state generate_tables (key_schedule key t) p 7
        ^^^ T_delta_x7 generate_tables d
          (sbox_diff (lane (enc_state generate_tables (key_schedule key t) p 6) 0) d) := by
  have hdo := sbox_diff_lt (lane (enc_state generate_tables (key_schedule key t) p 6) 0) d
    (lane_lt _ _) hd
  have hsh : sbox_diff (lane (enc_state generate_tables (key_schedule key t) p 6) 0) d <<< 16
      < 2 ^ 24 := by
    rw [Nat.shiftLeft_eq]; omega
  rw [enc_state_succ _ _ (p ^^^ d) 6, enc_state_succ _ _ p 6, trail_6 key p t d hd,
    key_schedule_related key t d (1 + 6) (by decide) hd, round_with_MC_eq, round_with_MC_eq,
    sub_bytes_top_diff _ d hd]
  unfold T_delta_x7
  rw [LUT_L_FROM_MSB_eq _ hdo]
  have e : SBOX.getD ((enc_state generate_tables (key_schedule key t) p 6 >>> 16) % 256) 0
      ^^^ SBOX.getD ((enc_state generate_tables (key_schedule key t) p 6 >>> 16) % 256 ^^^ d) 0
      = sbox_diff (lane (enc_state generate_tables (key_schedule key t) p 6) 0) d := rfl
  rw [e, linear_layer_xor _ _ (sub_bytes_lt _) hsh]
  show _ ^^^ _ ^^^ (_ ^^^ d <<< 8) = _
  generalize linear_layer generate_tables
    (sub_bytes (enc_state generate_tables (key_schedule key t) p 6)) = a
  generalize linear_layer generate_tables _ = b
  generalize (key_schedule key t).getD (1 + 6) 0 = k
  generalize d <<< 8 = e
  apply Nat.eq_of_testBit_eq; intro i
  simp only [Nat.testBit_xor]
  cases a.testBit i <;> cases b.testBit i <;> cases k.testBit i <;> cases e.testBit i <;> rfl

theorem trail_7' (key p t d : Nat) (hd : d < 256) :
    enc_state generate_tables (key_schedule key (t ^^^ (d <<< 40))) (p ^^^ d) 7
      = enc_state generate_tables (key_schedule key t) p 7 ^^^ trail_dx7 key p t d :=
  trail_7 key p t d hd

theorem trail_dout_lt (key p t d : Nat) (hd : d < 256) : trail_dout key p t d < 256 :=
  sbox_diff_lt _ d (lane_lt _ _) hd

theorem trail_dy7_lt (key p t d k : Nat) : trail_dy7 key p t d k < 256 :=
  sbox_diff_lt _ _ (lane_lt _ _) (lane_lt _ _)

/-- After round 8 the two states of a pair differ by the linear layer of the round-8 S-box
output difference, XOR `d`. -/
theorem trail_8 (key p t d : Nat) (hd : d < 256) :
    enc_state generate_tables (key_schedule key (t ^^^ (d <<< 40))) (p ^^^ d) 8
      = enc_state generate_tables (key_schedule key t) p 8
        ^^^ linear_layer generate_tables ((trail_dy7 key p t d 0 <<< 16)
          ^^^ (trail_dy7 key p t d 1 <<< 8) ^^^ trail_dy7 key p t d 2) ^^^ d := by
  have hlt := pack3_lt _ _ _ (trail_dy7_lt key p t d 0) (trail_dy7_lt key p t d 1)
    (trail_dy7_lt key p t d 2)
  rw [enc_state_succ _ _ (p ^^^ d) 7, enc_state_succ _ _ p 7, trail_7' key p t d hd,
    key_schedule_related key t d (1 + 7) (by decide) hd, round_with_MC_eq, round_with_MC_eq,
    sub_bytes_diff]
  have e : ((SBOX.getD (lane (enc_state generate_tables (key_schedule key t) p 7) 0) 0
        ^^^ SBOX.getD (lane (enc_state generate_tables (key_schedule key t) p 7) 0
          ^^^ lane (trail_dx7 key p t d) 0) 0) <<< 16)
      ^^^ ((SBOX.getD (lane (enc_state generate_tables (key_schedule key t) p 7) 1) 0
        ^^^ SBOX.getD (lane (enc_state generate_tables (key_schedule key t) p 7) 1
          ^^^ lane (trail_dx7 key p t d) 1) 0) <<< 8)
      ^^^ (SBOX.getD (lane (enc_state generate_tables (key_schedule key t) p 7) 2) 0
        ^^^ SBOX.getD (lane (enc_state generate_tables (key_schedule key t) p 7) 2
          ^^^ lane (trail_dx7 key p t d) 2) 0)
      = (trail_dy7 key p t d 0 <<< 16) ^^^ (trail_dy7 key p t d 1 <<< 8)
        ^^^ trail_dy7 key p t d 2 := rfl
  rw [e, linear_layer_xor _ _ (sub_bytes_lt _) hlt]
  show _ ^^^ _ ^^^ (_ ^^^ d) = _
  generalize linear_layer generate_tables
    (sub_bytes (enc_state generate_tables (key_schedule key t) p 7)) = a
  generalize linear_layer generate_tables _ = b
  generalize (key_schedule key t).getD (1 + 7) 0 = k
  apply Nat.eq_of_testBit_eq; intro i
  simp only [Nat.testBit_xor]
  cases a.testBit i <;> cases b.testBit i <;> cases k.testBit i <;> cases d.testBit i <;> rfl

/-! ## Peeling the last two rounds -/

theorem inv_round_with_MC_inv_key_eq (s k : Nat) (hs : s < 2 ^ 24) (hk : k < 2 ^ 24) :
    inv_round_with_MC_inv_key generate_tables s (inv_linear_layer generate_tables k)
      = inv_round_with_MC generate_tables s k := by
  unfold inv_round_with_MC_inv_key inv_round_with_MC
  simp only []
  rw [inv_linear_layer_xor s k hs hk]

/-- With the round keys 9 and 10 of its tweak, the first two inversions return the state of a
ciphertext after round 8. -/
theorem peel_two_rounds (key p t : Nat) (hp : p < 2 ^ 24) :
    inv_round_with_MC_inv_key generate_tables
      (inv_round_no_MC (encrypt generate_tables p key t) ((key_schedule key t).getD 10 0))
      (inv_linear_layer generate_tables ((key_schedule key t).getD 9 0))
      = enc_state generate_tables (key_schedule key t) p 8 := by
  rw [encrypt_eq, inv_round_no_MC_round_no_MC _ _ (enc_state_lt key t p 9 hp),
    inv_round_with_MC_inv_key_eq _ _ (enc_state_lt key t p 9 hp) (key_schedule_getD_lt key t 9),
    enc_state_succ _ _ p 8]
  exact inv_round_with_MC_round_with_MC _ _ (enc_state_lt key t p 8 hp)

theorem shl40_lt (d : Nat) (hd : d < 256) : d <<< 40 < 2 ^ 64 := by
  rw [Nat.shiftLeft_eq]
  have : d * 2 ^ 40 < 256 * 2 ^ 40 := Nat.mul_lt_mul_of_pos_right hd (by decide)
  exact Nat.lt_of_lt_of_le this (by decide)

theorem peel_two_rounds_prime (key p t d : Nat) (hp : p < 2 ^ 24) (ht : t < 2 ^ 64)
    (hd : d < 256) :
    inv_round_with_MC_inv_key generate_tables
      (inv_round_no_MC (encrypt generate_tables (p ^^^ d) key (t ^^^ (d <<< 40)))
        ((key_schedule key t).getD 10 0 ^^^ (d <<< 16)))
      (inv_linear_layer generate_tables ((key_schedule key t).getD 9 0))
      = enc_state generate_tables (key_schedule key (t ^^^ (d <<< 40))) (p ^^^ d) 8 := by
  have hpd : p ^^^ d < 2 ^ 24 :=
    Nat.xor_lt_two_pow hp (Nat.lt_of_lt_of_le hd (by decide))
  have h := peel_two_rounds key (p ^^^ d) (t ^^^ (d <<< 40)) hpd
  rw [key_schedule_related_10 key t d ht hd, key_schedule_related key t d 9 (by decide) hd] at h
  have : rk_diff 9 d = 0 := rfl
  rw [this, Nat.xor_zero] at h
  exact h

/-! ## Lanes -/

theorem lane_xor (a b j : Nat) : lane (a ^^^ b) j = lane a j ^^^ lane b j := by
  unfold lane
  split
  · rw [shr_xor, mod256_xor]
  · rw [shr_xor, mod256_xor]
  · rw [mod256_xor]

theorem lane_pack3 (a0 a1 a2 j : Nat) (h0 : a0 < 256) (h1 : a1 < 256) (h2 : a2 < 256) :
    lane ((a0 <<< 16) ^^^ (a1 <<< 8) ^^^ a2) j = [a0, a1, a2].getD (min j 2) 0 := by
  rcases j with _ | _ | j
  · exact pack3_byte0 a0 a1 a2 h0 h1 h2
  · exact pack3_byte1 a0 a1 a2 h1 h2
  · have : min (j + 1 + 1) 2 = 2 := by omega
    rw [this]
    exact pack3_byte2 a0 a1 a2 h1 h2

theorem lane_sub_bytes (s j : Nat) : lane (sub_bytes s) j = SBOX.getD (lane s j) 0 := by
  have hb : ∀ x : Nat, SBOX.getD (x % 256) 0 < 256 := fun x => SBOX_lt _ (Nat.mod_lt _ (by decide))
  unfold sub_bytes
  simp only [and_0xFF]
  rw [lane_pack3 _ _ _ _ (hb _) (hb _) (hb _)]
  rcases j with _ | _ | j
  · rfl
  · rfl
  · have : min (j + 1 + 1) 2 = 2 := by omega
    rw [this]
    rfl

theorem pack_lanes (w : Nat) (h : w < 2 ^ 24) :
    (lane w 0 <<< 16) ^^^ (lane w 1 <<< 8) ^^^ lane w 2 = w :=
  bytes_pack3 w h

theorem lane_zero_eq (w : Nat) (h : w < 2 ^ 24) : lane w 0 = w >>> 16 := by
  unfold lane
  simp only []
  rw [Nat.shiftRight_eq_div_pow]
  omega

/-! ## The tweak constants of rounds 7, 8 and 9 -/

theorem normalize_zero_lt (r t : Nat) (hr : r ≤ 9) (h6 : r ≠ 6) (ht : t < 2 ^ 64) :
    normalize_round_key 0 t r < 2 ^ 24 := by
  have h := key_schedule_tweak 0 t r hr
  rw [ks_lin_tweak r t hr h6 ht] at h
  have e : normalize_round_key 0 t r
      = (key_schedule 0 0).getD r 0 ^^^ (key_schedule 0 t).getD r 0 := by
    rw [h, Nat.xor_cancel_left]
  rw [e]
  exact Nat.xor_lt_two_pow (key_schedule_getD_lt 0 0 r) (key_schedule_getD_lt 0 t r)

/-- The round key for tweak `t`, transported through the inverse linear layer, splits into the
tweak-0 part and the tweak constant. -/
theorem inv_ll_round_key (key t r : Nat) (hr : r ≤ 9) (h6 : r ≠ 6) (ht : t < 2 ^ 64) :
    inv_linear_layer generate_tables ((key_schedule key t).getD r 0)
      = inv_linear_layer generate_tables ((key_schedule key 0).getD r 0)
        ^^^ inv_linear_layer generate_tables (normalize_round_key 0 t r) := by
  rw [key_schedule_tweak key t r hr, ks_lin_tweak r t hr h6 ht,
    inv_linear_layer_xor _ _ (key_schedule_getD_lt key 0 r) (normalize_zero_lt r t hr h6 ht)]

/-- Undoing the linear layer and the tweak constant of round `1 + n` on the state after that
round leaves the S-box output of the round, XOR the transported tweak-0 round key. -/
theorem state_unmix (key p t n j : Nat) (hn : 1 + n ≤ 9) (h6 : 1 + n ≠ 6) (ht : t < 2 ^ 64) :
    lane (inv_linear_layer generate_tables
        (enc_state generate_tables (key_schedule key t) p (n + 1))) j
      ^^^ lane (inv_linear_layer generate_tables (normalize_round_key 0 t (1 + n))) j
      = SBOX.getD (lane (enc_state generate_tables (key_schedule key t) p n) j) 0
        ^^^ lane (inv_linear_layer generate_tables ((key_schedule key 0).getD (1 + n) 0)) j := by
  rw [enc_state_succ, round_with_MC_eq,
    inv_linear_layer_xor _ _ (linear_layer_lt _ (sub_bytes_lt _)) (key_schedule_getD_lt key t _),
    inv_linear_layer_linear_layer _ (sub_bytes_lt _), inv_ll_round_key key t _ hn h6 ht,
    lane_xor, lane_xor, lane_sub_bytes]
  generalize SBOX.getD (lane (enc_state generate_tables (key_schedule key t) p n) j) 0 = a
  generalize lane (inv_linear_layer generate_tables ((key_schedule key 0).getD (1 + n) 0)) j = b
  generalize lane (inv_linear_layer generate_tables (normalize_round_key 0 t (1 + n))) j = c
  apply Nat.eq_of_testBit_eq; intro i
  simp only [Nat.testBit_xor]
  cases a.testBit i <;> cases b.testBit i <;> cases c.testBit i <;> rfl

/-! ## Normalisation undone -/

theorem normalize_round_key_twice (k t r : Nat) (hr : r ≤ 10) :
    normalize_round_key (normalize_round_key k t r) t r = k := by
  rw [normalize_round_key_eq_xor _ t r hr, normalize_round_key_eq_xor k t r hr,
    Nat.xor_cancel_right]

theorem normalize_round_key_10_twice (k b t : Nat) :
    normalize_round_key_10 (normalize_round_key_10 k b t) b t = k := by
  rw [normalize_round_key_10_eq, normalize_round_key_10_eq]
  generalize normalize_round_key 0 t 10 = n
  generalize SBOX.getD b 0 = u
  generalize SBOX.getD (b ^^^ (((t >>> 48) &&& 0xFF) ^^^ ((t >>> 16) &&& 0xFF))) 0 = v
  apply Nat.eq_of_testBit_eq; intro i
  simp only [Nat.testBit_xor]
  cases k.testBit i <;> cases n.testBit i <;> cases u.testBit i <;> cases v.testBit i <;> rfl

theorem normalize_9_low_byte_basis : ∀ i < 64,
    normalize_round_key 0 (2 ^ i) 9 % 2 ^ 8
      = (((2 ^ i) >>> 48) &&& 0xFF) ^^^ (((2 ^ i) >>> 16) &&& 0xFF) := by
  decide!

theorem normalize_9_low_byte (t : Nat) (ht : t < 2 ^ 64) :
    normalize_round_key 0 t 9 % 256 = ((t >>> 48) &&& 0xFF) ^^^ ((t >>> 16) &&& 0xFF) :=
  XorAdditive.ext_on_bits (f := fun t => normalize_round_key 0 t 9 % 2 ^ 8)
    (g := fun t => ((t >>> 48) &&& 0xFF) ^^^ ((t >>> 16) &&& 0xFF))
    ((normalize_round_key_zero_xor 9).mod_two_pow 8) normalize_9_low_byte_xor 64
    normalize_9_low_byte_basis t ht

/-- Round key 10 for tweak `t` from the tweak-0 round key 10 and the low byte of round key 9
for the same tweak `t`: the form in which the search body uses `normalize_round_key_10`. -/
theorem key_schedule_10_real (key t : Nat) (ht : t < 2 ^ 64) :
    (key_schedule key t).getD 10 0
      = normalize_round_key_10 ((key_schedule key 0).getD 10 0)
          ((key_schedule key t).getD 9 0 % 256) t := by
  have e9 : (key_schedule key t).getD 9 0 % 256
      = (key_schedule key 0).getD 9 0 % 256
        ^^^ (((t >>> 48) &&& 0xFF) ^^^ ((t >>> 16) &&& 0xFF)) := by
    rw [key_schedule_tweak key t 9 (by decide), ks_lin_tweak 9 t (by decide) (by decide) ht,
      mod256_xor, normalize_9_low_byte t ht]
  rw [key_schedule_10_tweak key t ht, e9, normalize_round_key_10_eq, normalize_round_key_10_eq,
    Nat.xor_assoc ((key_schedule key 0).getD 9 0 % 256), Nat.xor_self, Nat.xor_zero]
  generalize (key_schedule key 0).getD 10 0 = k
  generalize normalize_round_key 0 t 10 = n
  generalize SBOX.getD ((key_schedule key 0).getD 9 0 % 256) 0 = u
  generalize SBOX.getD ((key_schedule key 0).getD 9 0 % 256
    ^^^ (((t >>> 48) &&& 0xFF) ^^^ ((t >>> 16) &&& 0xFF))) 0 = v
  simp only [Nat.xor_assoc, Nat.xor_comm, xor_left_comm]

theorem key_schedule_10_back (key t : Nat) (ht : t < 2 ^ 64) :
    normalize_round_key_10 ((key_schedule key t).getD 10 0)
      ((key_schedule key t).getD 9 0 % 256) t = (key_schedule key 0).getD 10 0 := by
  rw [key_schedule_10_real key t ht, normalize_round_key_10_twice]

/-! ## The round-7 filter on a pair -/

/-- With the tweak-0 round key 8, one iteration of the loop over the pairs does not jump to
`next_rk_8`, and intersects with the set of `DDTV_out_shifted` that holds the top byte of the
transported round key 7. -/
theorem rk7_step_correct (key p t d L : Nat) (hp : p < 2 ^ 24) (ht : t < 2 ^ 64)
    (hd : d < 256) :
    rk7_step generate_tables (enc_state generate_tables (key_schedule key t) p 8)
      (enc_state generate_tables (key_schedule key (t ^^^ (d <<< 40))) (p ^^^ d) 8) t d
      ((key_schedule key 0).getD 8 0) (some L)
      = some (subset_intersect L (DDTV_out_shifted d (trail_dout key p t d)
          (SBOX.getD (lane (enc_state generate_tables (key_schedule key t) p 6) 0) 0
            ^^^ lane (inv_linear_layer generate_tables ((key_schedule key 0).getD 7 0)) 0))) := by
  have hpd : p ^^^ d < 2 ^ 24 :=
    Nat.xor_lt_two_pow hp (Nat.lt_of_lt_of_le hd (by decide))
  have hdo := trail_dout_lt key p t d hd
  have hsh : trail_dout key p t d <<< 16 < 2 ^ 24 := by
    rw [Nat.shiftLeft_eq]; omega
  have e8 : normalize_round_key ((key_schedule key 0).getD 8 0) t 8
      = (key_schedule key t).getD 8 0 :=
    (key_schedule_normalize key t 8 (by decide) (by decide) ht).symm
  have e8' : (key_schedule key t).getD 8 0 ^^^ d
      = (key_schedule key (t ^^^ (d <<< 40))).getD 8 0 :=
    (key_schedule_related key t d 8 (by decide) hd).symm
  have i1 : inv_round_with_MC generate_tables
      (enc_state generate_tables (key_schedule key t) p 8) ((key_schedule key t).getD 8 0)
      = enc_state generate_tables (key_schedule key t) p 7 := by
    rw [enc_state_succ _ _ p 7]
    exact inv_round_with_MC_round_with_MC _ _ (enc_state_lt key t p 7 hp)
  have i1' : inv_round_with_MC generate_tables
      (enc_state generate_tables (key_schedule key (t ^^^ (d <<< 40))) (p ^^^ d) 8)
      ((key_schedule key (t ^^^ (d <<< 40))).getD 8 0)
      = enc_state generate_tables (key_schedule key (t ^^^ (d <<< 40))) (p ^^^ d) 7 := by
    rw [enc_state_succ _ _ (p ^^^ d) 7]
    exact inv_round_with_MC_round_with_MC _ _ (enc_state_lt key _ _ 7 hpd)
  have hv7' : inv_linear_layer generate_tables
      (enc_state generate_tables (key_schedule key (t ^^^ (d <<< 40))) (p ^^^ d) 7 ^^^ (d <<< 8))
      = inv_linear_layer generate_tables (enc_state generate_tables (key_schedule key t) p 7)
        ^^^ (trail_dout key p t d <<< 16) := by
    have e : enc_state generate_tables (key_schedule key (t ^^^ (d <<< 40))) (p ^^^ d) 7
        ^^^ (d <<< 8)
        = enc_state generate_tables (key_schedule key t) p 7
          ^^^ linear_layer generate_tables (trail_dout key p t d <<< 16) := by
      rw [trail_7' key p t d hd]
      unfold trail_dx7 T_delta_x7
      rw [LUT_L_FROM_MSB_eq _ hdo, Nat.xor_assoc, Nat.xor_assoc, Nat.xor_self, Nat.xor_zero]
    rw [e, inv_linear_layer_xor _ _ (enc_state_lt key t p 7 hp) (linear_layer_lt _ hsh),
      inv_linear_layer_linear_layer _ hsh]
  have hz : (trail_dout key p t d <<< 16) &&& 0x00FFFF = 0 := by
    rw [and_0xFFFF]
    exact shl_mod_two_pow _ 16 16 (Nat.le_refl _)
  have hdv : ((trail_dout key p t d <<< 16) >>> 16) % 256 = trail_dout key p t d := by
    rw [Nat.shiftLeft_shiftRight, Nat.mod_eq_of_lt hdo]
  have hidx : (inv_linear_layer generate_tables
        (enc_state generate_tables (key_schedule key t) p 7) >>> 16) % 256
      ^^^ (inv_linear_layer generate_tables (normalize_round_key 0 t 7) >>> 16) % 256
      = SBOX.getD (lane (enc_state generate_tables (key_schedule key t) p 6) 0) 0
        ^^^ lane (inv_linear_layer generate_tables ((key_schedule key 0).getD 7 0)) 0 :=
    state_unmix key p t 6 0 (by decide) (by decide) ht
  unfold rk7_step
  simp only []
  rw [e8, e8', i1, i1', hv7', Nat.xor_cancel_left, hz, hdv, hidx]
  simp

/-- The top byte of the transported round key 7 is in the set one iteration intersects
with. -/
theorem rk7_set_contains (key p t d : Nat) (hd : d < 256) :
    (DDTV_out_shifted d (trail_dout key p t d)
      (SBOX.getD (lane (enc_state generate_tables (key_schedule key t) p 6) 0) 0
        ^^^ lane (inv_linear_layer generate_tables ((key_schedule key 0).getD 7 0)) 0)).testBit
      (lane (inv_linear_layer generate_tables ((key_schedule key 0).getD 7 0)) 0) = true := by
  rw [testBit_DDTV_out_shifted _ _ _ _ hd]
  refine ⟨lane (enc_state generate_tables (key_schedule key t) p 6) 0, lane_lt _ _, rfl, ?_⟩
  rw [Nat.xor_cancel_left, Nat.mod_eq_of_lt (lane_lt _ _)]

/-! ## The search body on the correct guess -/

section Body

variable {key : Nat} {PAIRS : List pair_t} {pp tt dd : Nat → Nat}
variable {rk10_ L_inv_rk9_ : Nat}

theorem body_L_inv_rk9_eq (h : PairsFrom key PAIRS pp tt dd)
    (hL : L_inv_rk9_ = inv_linear_layer generate_tables ((key_schedule key (tt 0)).getD 9 0))
    (i : Nat) (hi : i < 3) :
    body_L_inv_rk9 generate_tables PAIRS L_inv_rk9_ i
      = inv_linear_layer generate_tables ((key_schedule key (tt i)).getD 9 0) := by
  unfold body_L_inv_rk9
  by_cases h0 : i = 0
  · rw [if_pos h0, hL, h0]
  · rw [if_neg h0, hL, (h 0 (by decide)).1, (h i hi).1]
    show _ ^^^ inv_linear_layer generate_tables (normalize_round_key 0 (tt 0 ^^^ tt i) 9) = _
    have e : normalize_round_key 0 (tt 0 ^^^ tt i) 9
        = normalize_round_key 0 (tt 0) 9 ^^^ normalize_round_key 0 (tt i) 9 :=
      normalize_round_key_zero_xor 9 (tt 0) (tt i)
    have b0 := normalize_zero_lt 9 (tt 0) (by decide) (by decide) (h 0 (by decide)).2.2.1
    have bi := normalize_zero_lt 9 (tt i) (by decide) (by decide) (h i hi).2.2.1
    rw [e, inv_linear_layer_xor _ _ b0 bi,
      inv_ll_round_key key (tt 0) 9 (by decide) (by decide) (h 0 (by decide)).2.2.1,
      inv_ll_round_key key (tt i) 9 (by decide) (by decide) (h i hi).2.2.1]
    generalize inv_linear_layer generate_tables ((key_schedule key 0).getD 9 0) = r
    generalize inv_linear_layer generate_tables (normalize_round_key 0 (tt 0) 9) = a
    generalize inv_linear_layer generate_tables (normalize_round_key 0 (tt i) 9) = b
    apply Nat.eq_of_testBit_eq; intro k
    simp only [Nat.testBit_xor]
    cases r.testBit k <;> cases a.testBit k <;> cases b.testBit k <;> rfl

theorem body_rk10_eq (h : PairsFrom key PAIRS pp tt dd)
    (hL : L_inv_rk9_ = inv_linear_layer generate_tables ((key_schedule key (tt 0)).getD 9 0))
    (hR : rk10_ = (key_schedule key (tt 0)).getD 10 0) (i : Nat) (hi : i < 3) :
    body_rk10 generate_tables PAIRS rk10_ L_inv_rk9_ i = (key_schedule key (tt i)).getD 10 0 := by
  unfold body_rk10
  by_cases h0 : i = 0
  · rw [if_pos h0, hR, h0]
  · rw [if_neg h0, body_L_inv_rk9_eq h hL 0 (by decide), body_L_inv_rk9_eq h hL i hi,
      linear_layer_inv_linear_layer _ (key_schedule_getD_lt key _ 9),
      linear_layer_inv_linear_layer _ (key_schedule_getD_lt key _ 9), hR,
      (h 0 (by decide)).1, (h i hi).1]
    show normalize_round_key_10 (normalize_round_key_10 _ _ (tt 0)) _ (tt i) = _
    rw [key_schedule_10_back key (tt 0) (h 0 (by decide)).2.2.1,
      ← key_schedule_10_real key (tt i) (h i hi).2.2.1]

theorem body_x8_eq (h : PairsFrom key PAIRS pp tt dd)
    (hL : L_inv_rk9_ = inv_linear_layer generate_tables ((key_schedule key (tt 0)).getD 9 0))
    (hR : rk10_ = (key_schedule key (tt 0)).getD 10 0) (i : Nat) (hi : i < 3) :
    body_x8 generate_tables PAIRS rk10_ L_inv_rk9_ i
      = enc_state generate_tables (key_schedule key (tt i)) (pp i) 8 := by
  unfold body_x8
  rw [body_rk10_eq h hL hR i hi, body_L_inv_rk9_eq h hL i hi, (h i hi).1]
  exact peel_two_rounds key (pp i) (tt i) (h i hi).2.1

theorem body_x8_PRIME_eq (h : PairsFrom key PAIRS pp tt dd)
    (hL : L_inv_rk9_ = inv_linear_layer generate_tables ((key_schedule key (tt 0)).getD 9 0))
    (hR : rk10_ = (key_schedule key (tt 0)).getD 10 0) (i : Nat) (hi : i < 3) :
    body_x8_PRIME generate_tables PAIRS rk10_ L_inv_rk9_ i
      = enc_state generate_tables (key_schedule key (tt i ^^^ (dd i <<< 40)))
          (pp i ^^^ dd i) 8 := by
  unfold body_x8_PRIME body_rk10_PRIME
  rw [body_rk10_eq h hL hR i hi, body_L_inv_rk9_eq h hL i hi, (h i hi).1]
  exact peel_two_rounds_prime key (pp i) (tt i) (dd i) (h i hi).2.1 (h i hi).2.2.1 (h i hi).2.2.2

theorem body_delta_z7_eq (h : PairsFrom key PAIRS pp tt dd)
    (hL : L_inv_rk9_ = inv_linear_layer generate_tables ((key_schedule key (tt 0)).getD 9 0))
    (hR : rk10_ = (key_schedule key (tt 0)).getD 10 0) (i : Nat) (hi : i < 3) :
    body_delta_z7 generate_tables PAIRS rk10_ L_inv_rk9_ i
      = linear_layer generate_tables ((trail_dy7 key (pp i) (tt i) (dd i) 0 <<< 16)
          ^^^ (trail_dy7 key (pp i) (tt i) (dd i) 1 <<< 8)
          ^^^ trail_dy7 key (pp i) (tt i) (dd i) 2) := by
  unfold body_delta_z7
  rw [body_x8_eq h hL hR i hi, body_x8_PRIME_eq h hL hR i hi,
    trail_8 key (pp i) (tt i) (dd i) (h i hi).2.2.2, (h i hi).1]
  show _ ^^^ _ ^^^ dd i = _
  generalize enc_state generate_tables (key_schedule key (tt i)) (pp i) 8 = a
  generalize linear_layer generate_tables _ = b
  generalize dd i = d
  apply Nat.eq_of_testBit_eq; intro k
  simp only [Nat.testBit_xor]
  cases a.testBit k <;> cases b.testBit k <;> cases d.testBit k <;> rfl

theorem body_v8_norm_8 (h : PairsFrom key PAIRS pp tt dd)
    (hL : L_inv_rk9_ = inv_linear_layer generate_tables ((key_schedule key (tt 0)).getD 9 0))
    (hR : rk10_ = (key_schedule key (tt 0)).getD 10 0) (i j : Nat) (hi : i < 3) :
    body_v8 generate_tables PAIRS rk10_ L_inv_rk9_ j i ^^^ norm_8 generate_tables PAIRS j i
      = SBOX.getD (lane (enc_state generate_tables (key_schedule key (tt i)) (pp i) 7) j) 0
        ^^^ lane (inv_linear_layer generate_tables ((key_schedule key 0).getD 8 0)) j := by
  unfold body_v8 norm_8 norm_8_
  rw [body_x8_eq h hL hR i hi, (h i hi).1]
  exact state_unmix key (pp i) (tt i) 7 j (by decide) (by decide) (h i hi).2.2.1

theorem pair_diff (h : PairsFrom key PAIRS pp tt dd) (i : Nat) (hi : i < 3) :
    (PAIRS.getD i default).d = dd i := by
  rw [(h i hi).1]; rfl

theorem pair_tweak (h : PairsFrom key PAIRS pp tt dd) (i : Nat) (hi : i < 3) :
    (PAIRS.getD i default).t = tt i := by
  rw [(h i hi).1]; rfl

/-- The S-box outputs of round 8 of pair `i` are in the cell of `T` the body looks up. -/
theorem T_contains (h : PairsFrom key PAIRS pp tt dd) (i j : Nat) (hi : i < 3) (hj : j < 3) :
    (build_T generate_tables PAIRS i
      (linear_layer generate_tables ((trail_dy7 key (pp i) (tt i) (dd i) 0 <<< 16)
          ^^^ (trail_dy7 key (pp i) (tt i) (dd i) 1 <<< 8)
          ^^^ trail_dy7 key (pp i) (tt i) (dd i) 2)) j).testBit
      (SBOX.getD (lane (enc_state generate_tables (key_schedule key (tt i)) (pp i) 7) j) 0)
      = true := by
  have hd := (h i hi).2.2.2
  have hS : ∀ x, x < 256 → (SBOX.getD x 0 ^^^ 0) % 256 = SBOX.getD x 0 := by
    intro x hx
    rw [Nat.xor_zero, Nat.mod_eq_of_lt (SBOX_lt x hx)]
  have hy : ∀ k, trail_dy7 key (pp i) (tt i) (dd i) k
      ∈ POSSIBLE_DELTA_Y (lane (trail_dx7 key (pp i) (tt i) (dd i)) k) := by
    intro k
    rw [mem_POSSIBLE_DELTA_Y _ _ (lane_lt _ _)]
    exact ⟨trail_dy7_lt _ _ _ _ _, _, lane_lt _ _, rfl⟩
  have hin : ∀ k, (DDTV_out_shifted (lane (trail_dx7 key (pp i) (tt i) (dd i)) k)
      (trail_dy7 key (pp i) (tt i) (dd i) k) 0).testBit
      (SBOX.getD (lane (enc_state generate_tables (key_schedule key (tt i)) (pp i) 7) k) 0)
      = true := by
    intro k
    rw [testBit_DDTV_out_shifted _ _ _ _ (lane_lt _ _)]
    exact ⟨_, lane_lt _ _, rfl, hS _ (lane_lt _ _)⟩
  rw [testBit_build_T]
  refine ⟨i, List.mem_range.mpr hi, trail_dout key (pp i) (tt i) (dd i), ?_,
    trail_dy7 key (pp i) (tt i) (dd i) 0, ?_, trail_dy7 key (pp i) (tt i) (dd i) 1, ?_,
    trail_dy7 key (pp i) (tt i) (dd i) 2, ?_, rfl, rfl, ?_⟩
  · rw [pair_diff h i hi, mem_POSSIBLE_DELTA_Y _ _ hd]
    exact ⟨trail_dout_lt _ _ _ _ hd, _, lane_lt _ _, rfl⟩
  · rw [pair_diff h i hi]; exact hy 0
  · rw [pair_diff h i hi]; exact hy 1
  · rw [pair_diff h i hi]; exact hy 2
  · rw [pair_diff h i hi]
    have hj' : j = 0 ∨ j = 1 ∨ j = 2 := by omega
    rcases hj' with rfl | rfl | rfl
    · exact Or.inl ⟨rfl, hin 0⟩
    · exact Or.inr (Or.inl ⟨rfl, hin 1⟩)
    · exact Or.inr (Or.inr ⟨rfl, hin 2⟩)

theorem body_intersection_eq (T : Nat → Nat → Nat → Nat) (j : Nat) :
    body_intersection generate_tables PAIRS T rk10_ L_inv_rk9_ j
      = subset_intersect
          (subset_intersect (T 0 (body_delta_z7 generate_tables PAIRS rk10_ L_inv_rk9_ 0) j)
            (subset_shift (T 1 (body_delta_z7 generate_tables PAIRS rk10_ L_inv_rk9_ 1) j)
              (body_v8 generate_tables PAIRS rk10_ L_inv_rk9_ j 0 ^^^ norm_8 generate_tables PAIRS j 0
                ^^^ body_v8 generate_tables PAIRS rk10_ L_inv_rk9_ j 1
                ^^^ norm_8 generate_tables PAIRS j 1)))
          (subset_shift (T 2 (body_delta_z7 generate_tables PAIRS rk10_ L_inv_rk9_ 2) j)
            (body_v8 generate_tables PAIRS rk10_ L_inv_rk9_ j 0 ^^^ norm_8 generate_tables PAIRS j 0
              ^^^ body_v8 generate_tables PAIRS rk10_ L_inv_rk9_ j 2
              ^^^ norm_8 generate_tables PAIRS j 2)) :=
  rfl

theorem xor_shift_index (s0 si k a0 b0 ai bi : Nat) (h0 : a0 ^^^ b0 = s0 ^^^ k)
    (hi : ai ^^^ bi = si ^^^ k) : s0 ^^^ (a0 ^^^ b0 ^^^ ai ^^^ bi) = si := by
  rw [Nat.xor_assoc (a0 ^^^ b0), h0, hi]
  apply Nat.eq_of_testBit_eq; intro n
  simp only [Nat.testBit_xor]
  cases s0.testBit n <;> cases si.testBit n <;> cases k.testBit n <;> rfl

/-- The round-8 S-box output of pair 0 in lane `j` survives the three-lane intersection. -/
theorem intersection_contains (h : PairsFrom key PAIRS pp tt dd)
    (hL : L_inv_rk9_ = inv_linear_layer generate_tables ((key_schedule key (tt 0)).getD 9 0))
    (hR : rk10_ = (key_schedule key (tt 0)).getD 10 0) (j : Nat) (hj : j < 3) :
    (body_intersection generate_tables PAIRS (build_T generate_tables PAIRS) rk10_ L_inv_rk9_
      j).testBit
      (SBOX.getD (lane (enc_state generate_tables (key_schedule key (tt 0)) (pp 0) 7) j) 0)
      = true := by
  have hS : ∀ i, SBOX.getD
      (lane (enc_state generate_tables (key_schedule key (tt i)) (pp i) 7) j) 0 < 256 :=
    fun i => SBOX_lt _ (lane_lt _ _)
  have hc : ∀ i, body_v8 generate_tables PAIRS rk10_ L_inv_rk9_ j 0
      ^^^ norm_8 generate_tables PAIRS j 0
      ^^^ body_v8 generate_tables PAIRS rk10_ L_inv_rk9_ j i
      ^^^ norm_8 generate_tables PAIRS j i < 256 := by
    intro i
    unfold body_v8 norm_8
    exact Nat.xor_lt_two_pow (n := 8) (Nat.xor_lt_two_pow (n := 8)
      (Nat.xor_lt_two_pow (n := 8) (lane_lt _ _) (lane_lt _ _)) (lane_lt _ _)) (lane_lt _ _)
  have hsh : ∀ i, i < 3 →
      (subset_shift (build_T generate_tables PAIRS i
          (body_delta_z7 generate_tables PAIRS rk10_ L_inv_rk9_ i) j)
        (body_v8 generate_tables PAIRS rk10_ L_inv_rk9_ j 0 ^^^ norm_8 generate_tables PAIRS j 0
          ^^^ body_v8 generate_tables PAIRS rk10_ L_inv_rk9_ j i
          ^^^ norm_8 generate_tables PAIRS j i)).testBit
        (SBOX.getD (lane (enc_state generate_tables (key_schedule key (tt 0)) (pp 0) 7) j) 0)
        = true := by
    intro i hi
    rw [subset_shift_testBit _ _ _ (hc i) (hS 0),
      xor_shift_index _ _ _ _ _ _ _ (body_v8_norm_8 h hL hR 0 j (by decide))
        (body_v8_norm_8 h hL hR i j hi),
      body_delta_z7_eq h hL hR i hi]
    exact T_contains h i j hi hj
  rw [body_intersection_eq, testBit_intersect, testBit_intersect, hsh 1 (by decide),
    hsh 2 (by decide), body_delta_z7_eq h hL hR 0 (by decide), T_contains h 0 j (by decide) hj]
  rfl

theorem body_bad_guess_false (h : PairsFrom key PAIRS pp tt dd)
    (hL : L_inv_rk9_ = inv_linear_layer generate_tables ((key_schedule key (tt 0)).getD 9 0))
    (hR : rk10_ = (key_schedule key (tt 0)).getD 10 0) (COUNTERS : Bool) :
    body_bad_guess COUNTERS generate_tables PAIRS (build_T generate_tables PAIRS) rk10_
      L_inv_rk9_ = false := by
  have he : ∀ j, j < 3 → subset_is_empty (body_intersection generate_tables PAIRS
      (build_T generate_tables PAIRS) rk10_ L_inv_rk9_ j) = false :=
    fun j hj => not_is_empty_of_testBit _ _ (intersection_contains h hL hR j hj)
  have r3 : List.range 3 = [0, 1, 2] := rfl
  unfold body_bad_guess
  cases COUNTERS
  · simp only [r3, List.foldl_cons, List.foldl_nil, he 0 (by decide), he 1 (by decide),
      he 2 (by decide), Bool.false_eq_true, if_false]
  · simp only [r3, List.map_cons, List.map_nil, List.any_cons, List.any_nil,
      List.getD_cons_zero, List.getD_cons_succ, he 0 (by decide), he 1 (by decide),
      he 2 (by decide), if_true, Bool.or_false]

theorem body_L_inv_rk7_0_eq (rk8 : Nat) :
    body_L_inv_rk7_0 generate_tables PAIRS rk10_ L_inv_rk9_ rk8
      = (List.range N_PAIRS).foldl (fun acc i =>
          rk7_step generate_tables (body_x8 generate_tables PAIRS rk10_ L_inv_rk9_ i)
            (body_x8_PRIME generate_tables PAIRS rk10_ L_inv_rk9_ i)
            (PAIRS.getD i default).t (PAIRS.getD i default).d rk8 acc)
          (some subset_init_full) :=
  rfl

/-- With the tweak-0 round key 8 the loop over the pairs does not jump to `next_rk_8`, and the
set it leaves holds the top byte of the transported round key 7. -/
theorem body_L_inv_rk7_0_contains (h : PairsFrom key PAIRS pp tt dd)
    (hL : L_inv_rk9_ = inv_linear_layer generate_tables ((key_schedule key (tt 0)).getD 9 0))
    (hR : rk10_ = (key_schedule key (tt 0)).getD 10 0) :
    ∃ L, body_L_inv_rk7_0 generate_tables PAIRS rk10_ L_inv_rk9_ ((key_schedule key 0).getD 8 0)
        = some L
      ∧ L.testBit (lane (inv_linear_layer generate_tables ((key_schedule key 0).getD 7 0)) 0)
        = true := by
  have r3 : List.range N_PAIRS = [0, 1, 2] := rfl
  have hs : ∀ i, i < 3 → ∀ L,
      rk7_step generate_tables (body_x8 generate_tables PAIRS rk10_ L_inv_rk9_ i)
        (body_x8_PRIME generate_tables PAIRS rk10_ L_inv_rk9_ i)
        (PAIRS.getD i default).t (PAIRS.getD i default).d ((key_schedule key 0).getD 8 0)
        (some L)
      = some (subset_intersect L (DDTV_out_shifted (dd i) (trail_dout key (pp i) (tt i) (dd i))
          (SBOX.getD (lane (enc_state generate_tables (key_schedule key (tt i)) (pp i) 6) 0) 0
            ^^^ lane (inv_linear_layer generate_tables ((key_schedule key 0).getD 7 0)) 0))) := by
    intro i hi L
    rw [body_x8_eq h hL hR i hi, body_x8_PRIME_eq h hL hR i hi, pair_tweak h i hi,
      pair_diff h i hi]
    exact rk7_step_correct key (pp i) (tt i) (dd i) L (h i hi).2.1 (h i hi).2.2.1 (h i hi).2.2.2
  rw [body_L_inv_rk7_0_eq, r3]
  simp only [List.foldl_cons, List.foldl_nil]
  rw [hs 0 (by decide), hs 1 (by decide), hs 2 (by decide)]
  refine ⟨_, rfl, ?_⟩
  rw [testBit_intersect, testBit_intersect, testBit_intersect,
    rk7_set_contains key (pp 0) (tt 0) (dd 0) (h 0 (by decide)).2.2.2,
    rk7_set_contains key (pp 1) (tt 1) (dd 1) (h 1 (by decide)).2.2.2,
    rk7_set_contains key (pp 2) (tt 2) (dd 2) (h 2 (by decide)).2.2.2, testBit_init_full]
  simp [lane_lt]

theorem xor_cancel_lane (e a b s k : Nat) (he : e = s) (h : a ^^^ b = s ^^^ k) :
    e ^^^ a ^^^ b = k := by
  rw [he, Nat.xor_assoc, h, Nat.xor_cancel_left]

/-- Search soundness: on the guess made of the round keys 9 and 10 of pair 0, the body of the
search loop emits the top byte of the transported round key 7 and the tweak-0 round keys 8, 9
and 10. -/
theorem search_body_sound (h : PairsFrom key PAIRS pp tt dd)
    (hL : L_inv_rk9_ = inv_linear_layer generate_tables ((key_schedule key (tt 0)).getD 9 0))
    (hR : rk10_ = (key_schedule key (tt 0)).getD 10 0) (COUNTERS : Bool) :
    (lane (inv_linear_layer generate_tables ((key_schedule key 0).getD 7 0)) 0,
      (key_schedule key 0).getD 8 0, (key_schedule key 0).getD 9 0,
      (key_schedule key 0).getD 10 0)
      ∈ search_body COUNTERS generate_tables PAIRS (build_T generate_tables PAIRS) rk10_
          L_inv_rk9_ := by
  have ht0 := (h 0 (by decide)).2.2.1
  have hmem : ∀ j, j < 3 →
      SBOX.getD (lane (enc_state generate_tables (key_schedule key (tt 0)) (pp 0) 7) j) 0
        ∈ subset_get_elements (body_intersection generate_tables PAIRS
            (build_T generate_tables PAIRS) rk10_ L_inv_rk9_ j) :=
    fun j hj => mem_get_elements _ _ (SBOX_lt _ (lane_lt _ _))
      (intersection_contains h hL hR j hj)
  have hk : ∀ j,
      SBOX.getD (lane (enc_state generate_tables (key_schedule key (tt 0)) (pp 0) 7) j) 0
        ^^^ body_v8 generate_tables PAIRS rk10_ L_inv_rk9_ j 0 ^^^ norm_8 generate_tables PAIRS j 0
      = lane (inv_linear_layer generate_tables ((key_schedule key 0).getD 8 0)) j :=
    fun j => xor_cancel_lane _ _ _ _ _ rfl (body_v8_norm_8 h hL hR 0 j (by decide))
  have hrk8 : linear_layer generate_tables
      ((lane (inv_linear_layer generate_tables ((key_schedule key 0).getD 8 0)) 0 <<< 16)
        ^^^ (lane (inv_linear_layer generate_tables ((key_schedule key 0).getD 8 0)) 1 <<< 8)
        ^^^ lane (inv_linear_layer generate_tables ((key_schedule key 0).getD 8 0)) 2)
      = (key_schedule key 0).getD 8 0 := by
    rw [pack_lanes _ (inv_linear_layer_lt _ (key_schedule_getD_lt key 0 8)),
      linear_layer_inv_linear_layer _ (key_schedule_getD_lt key 0 8)]
  have h9 : normalize_round_key (linear_layer generate_tables L_inv_rk9_)
      (PAIRS.getD 0 default).t 9 = (key_schedule key 0).getD 9 0 := by
    rw [hL, linear_layer_inv_linear_layer _ (key_schedule_getD_lt key _ 9),
      pair_tweak h 0 (by decide),
      key_schedule_normalize key (tt 0) 9 (by decide) (by decide) ht0,
      normalize_round_key_twice _ _ 9 (by decide)]
  have h10 : normalize_round_key_10 rk10_ (linear_layer generate_tables L_inv_rk9_ % 256)
      (PAIRS.getD 0 default).t = (key_schedule key 0).getD 10 0 := by
    rw [hL, hR, linear_layer_inv_linear_layer _ (key_schedule_getD_lt key _ 9),
      pair_tweak h 0 (by decide)]
    exact key_schedule_10_back key (tt 0) ht0
  obtain ⟨L, hLs, hLb⟩ := body_L_inv_rk7_0_contains h hL hR
  unfold search_body
  rw [body_bad_guess_false h hL hR COUNTERS]
  simp only [Bool.false_eq_true, if_false]
  refine List.mem_flatMap.mpr ⟨_, hmem 0 (by decide), ?_⟩
  refine List.mem_flatMap.mpr ⟨_, hmem 1 (by decide), ?_⟩
  refine List.mem_flatMap.mpr ⟨_, hmem 2 (by decide), ?_⟩
  rw [hk 0, hk 1, hk 2, hrk8, hLs, h9, h10]
  exact List.mem_map.mpr ⟨_, mem_get_elements _ _ (lane_lt _ _) hLb, rfl⟩

theorem correct_guess_snd (h : PairsFrom key PAIRS pp tt dd) :
    (correct_guess generate_tables PAIRS (key_schedule key 0)).2
      = inv_linear_layer generate_tables ((key_schedule key (tt 0)).getD 9 0) := by
  unfold correct_guess
  simp only []
  rw [pair_tweak h 0 (by decide),
    ← key_schedule_normalize key (tt 0) 9 (by decide) (by decide) (h 0 (by decide)).2.2.1]

theorem correct_guess_fst (h : PairsFrom key PAIRS pp tt dd) :
    (correct_guess generate_tables PAIRS (key_schedule key 0)).1
      = (key_schedule key (tt 0)).getD 10 0 := by
  unfold correct_guess
  simp only []
  rw [pair_tweak h 0 (by decide),
    ← key_schedule_normalize key (tt 0) 9 (by decide) (by decide) (h 0 (by decide)).2.2.1,
    linear_layer_inv_linear_layer _ (key_schedule_getD_lt key _ 9)]
  exact (key_schedule_10_real key (tt 0) (h 0 (by decide)).2.2.1).symm

/-- Search soundness on the guess of `CHECK_CORRECT_FIRST`. -/
theorem search_body_correct_guess (h : PairsFrom key PAIRS pp tt dd) (COUNTERS : Bool) :
    (inv_linear_layer generate_tables ((key_schedule key 0).getD 7 0) >>> 16,
      (key_schedule key 0).getD 8 0, (key_schedule key 0).getD 9 0,
      (key_schedule key 0).getD 10 0)
      ∈ search_body COUNTERS generate_tables PAIRS (build_T generate_tables PAIRS)
          (correct_guess generate_tables PAIRS (key_schedule key 0)).1
          (correct_guess generate_tables PAIRS (key_schedule key 0)).2 := by
  rw [← lane_zero_eq _ (inv_linear_layer_lt _ (key_schedule_getD_lt key 0 7))]
  exact search_body_sound h (correct_guess_snd h) (correct_guess_fst h) COUNTERS

end Body

theorem pairsFrom_three (key p0 t0 d0 p1 t1 d1 p2 t2 d2 : Nat)
    (hp0 : p0 < 2 ^ 24) (ht0 : t0 < 2 ^ 64) (hd0 : d0 < 256)
    (hp1 : p1 < 2 ^ 24) (ht1 : t1 < 2 ^ 64) (hd1 : d1 < 256)
    (hp2 : p2 < 2 ^ 24) (ht2 : t2 < 2 ^ 64) (hd2 : d2 < 256) :
    PairsFrom key [make_pair generate_tables key p0 t0 d0, make_pair generate_tables key p1 t1 d1,
        make_pair generate_tables key p2 t2 d2]
      (fun i => [p0, p1, p2].getD i 0) (fun i => [t0, t1, t2].getD i 0)
      (fun i => [d0, d1, d2].getD i 0) := by
  intro i hi
  interval_cases i
  · exact ⟨rfl, hp0, ht0, hd0⟩
  · exact ⟨rfl, hp1, ht1, hd1⟩
  · exact ⟨rfl, hp2, ht2, hd2⟩

/-! ## The cells of `T`, in terms of the S-box -/

theorem mem_POSSIBLE_DELTA_Y_nonempty (x y : Nat) :
    y ∈ POSSIBLE_DELTA_Y x ↔ y < 256 ∧ DDTV_out x y ≠ [] := by
  unfold POSSIBLE_DELTA_Y
  simp only [List.mem_filter, List.mem_range, Bool.not_eq_true', List.isEmpty_eq_false]

theorem pack3_or (a b c : Nat) (hb : b < 256) (hc : c < 256) :
    (a <<< 16) ||| (b <<< 8) ||| c = (a <<< 16) ^^^ (b <<< 8) ^^^ c := by
  have e1 : (a <<< 16) ||| (b <<< 8) = a * 2 ^ 16 + b <<< 8 :=
    shl_or_eq_add (b <<< 8) a 16 (by rw [Nat.shiftLeft_eq]; omega)
  have e2 : a * 2 ^ 16 + b <<< 8 = (a * 256 + b) <<< 8 := by
    simp only [Nat.shiftLeft_eq]; omega
  rw [e1, e2, shl_or_eq_add c _ 8 (by omega), pack3_eq a b c hb hc]
  omega

theorem T_delta_x7_eq (d dout : Nat) (h : dout < 256) :
    T_delta_x7 generate_tables d dout
      = mix_columns (rotate_rows (dout <<< 16)) ^^^ (d <<< 8) := by
  have hlt : dout <<< 16 < 2 ^ 24 := by
    rw [Nat.shiftLeft_eq]; omega
  unfold T_delta_x7
  rw [LUT_L_FROM_MSB_eq dout h, linear_layer_eq _ hlt]

theorem testBit_shifted_zero (a b y : Nat) (ha : a < 256) :
    (DDTV_out_shifted a b 0).testBit y = true ↔
      ∃ x, x < 256 ∧ y = SBOX.getD x 0 ∧ SBOX.getD x 0 ^^^ SBOX.getD (x ^^^ a) 0 = b := by
  rw [testBit_DDTV_out_shifted a b 0 y ha]
  constructor
  · rintro ⟨x, hx, hb, hy⟩
    rw [Nat.xor_zero, Nat.mod_eq_of_lt (SBOX_lt x hx)] at hy
    exact ⟨x, hx, hy.symm, hb⟩
  · rintro ⟨x, hx, hy, hb⟩
    refine ⟨x, hx, hb, ?_⟩
    rw [Nat.xor_zero, Nat.mod_eq_of_lt (SBOX_lt x hx)]
    exact hy.symm

/-- The members of the cell `T[i][dz][j]`. -/
theorem testBit_build_T_iff (PAIRS : List pair_t) (i dz j y : Nat) (hi : i < N_PAIRS)
    (hj : j < 3) :
    (build_T generate_tables PAIRS i dz j).testBit y = true ↔
      ∃ dout dy0 dy1 dy2 dx, dout < 256 ∧ dy0 < 256 ∧ dy1 < 256 ∧ dy2 < 256
        ∧ dx = mix_columns (rotate_rows (dout <<< 16)) ^^^ ((PAIRS.getD i default).d <<< 8)
        ∧ DDTV_out (PAIRS.getD i default).d dout ≠ []
        ∧ DDTV_out (lane dx 0) dy0 ≠ [] ∧ DDTV_out (lane dx 1) dy1 ≠ []
        ∧ DDTV_out (lane dx 2) dy2 ≠ []
        ∧ linear_layer generate_tables ((dy0 <<< 16) ||| (dy1 <<< 8) ||| dy2) = dz
        ∧ ∃ x, x < 256 ∧ y = SBOX.getD x 0
          ∧ SBOX.getD x 0 ^^^ SBOX.getD (x ^^^ lane dx j) 0 = [dy0, dy1, dy2].getD j 0 := by
  rw [testBit_build_T]
  constructor
  · rintro ⟨i', _, dout, hdout, y0, hy0, y1, hy1, y2, hy2, hii, hz, hc⟩
    subst hii
    rw [mem_POSSIBLE_DELTA_Y_nonempty] at hdout hy0 hy1 hy2
    rw [T_delta_x7_eq _ _ hdout.1] at hy0 hy1 hy2 hc
    refine ⟨dout, y0, y1, y2, _, hdout.1, hy0.1, hy1.1, hy2.1, rfl, hdout.2, hy0.2, hy1.2,
      hy2.2, ?_, ?_⟩
    · rw [pack3_or y0 y1 y2 hy1.1 hy2.1]
      exact hz
    · rcases hc with ⟨hj0, hb⟩ | ⟨hj1, hb⟩ | ⟨hj2, hb⟩
      · subst hj0
        exact (testBit_shifted_zero _ _ _ (lane_lt _ 0)).mp hb
      · subst hj1
        exact (testBit_shifted_zero _ _ _ (lane_lt _ 1)).mp hb
      · subst hj2
        exact (testBit_shifted_zero _ _ _ (lane_lt _ 2)).mp hb
  · rintro ⟨dout, y0, y1, y2, dx, hdo, h0, h1, h2, hdx, ndo, n0, n1, n2, hz, hx⟩
    subst hdx
    refine ⟨i, List.mem_range.mpr hi, dout, (mem_POSSIBLE_DELTA_Y_nonempty _ _).mpr ⟨hdo, ndo⟩,
      y0, ?_, y1, ?_, y2, ?_, rfl, ?_, ?_⟩
    · rw [T_delta_x7_eq _ _ hdo]
      exact (mem_POSSIBLE_DELTA_Y_nonempty _ _).mpr ⟨h0, n0⟩
    · rw [T_delta_x7_eq _ _ hdo]
      exact (mem_POSSIBLE_DELTA_Y_nonempty _ _).mpr ⟨h1, n1⟩
    · rw [T_delta_x7_eq _ _ hdo]
      exact (mem_POSSIBLE_DELTA_Y_nonempty _ _).mpr ⟨h2, n2⟩
    · rw [← pack3_or y0 y1 y2 h1 h2]
      exact hz
    · rw [T_delta_x7_eq _ _ hdo]
      interval_cases j
      · exact Or.inl ⟨rfl, (testBit_shifted_zero _ _ _ (lane_lt _ 0)).mpr hx⟩
      · exact Or.inr (Or.inl ⟨rfl, (testBit_shifted_zero _ _ _ (lane_lt _ 1)).mpr hx⟩)
      · exact Or.inr (Or.inr ⟨rfl, (testBit_shifted_zero _ _ _ (lane_lt _ 2)).mpr hx⟩)

/-! ## Vectors determined by their 256 bits -/

theorem testBit_false_of_lt (a j : Nat) (ha : a < 2 ^ 256) (hj : 256 ≤ j) :
    a.testBit j = false :=
  Nat.testBit_lt_two_pow (Nat.lt_of_lt_of_le ha (Nat.pow_le_pow_right (by decide) hj))

/-- Two vectors below `2 ^ 256` with the same 256 bits are equal. -/
theorem eq_of_testBit_256 (a b : Nat) (ha : a < 2 ^ 256) (hb : b < 2 ^ 256)
    (h : ∀ x, x < 256 → a.testBit x = b.testBit x) : a = b := by
  apply Nat.eq_of_testBit_eq; intro j
  by_cases hj : j < 256
  · exact h j hj
  · rw [testBit_false_of_lt a j ha (by omega), testBit_false_of_lt b j hb (by omega)]

theorem ofElems_lt (w n : Nat) (f : Nat → Nat) (hw : 0 < w) (h : w * n = 256) :
    ofElems w n f < 2 ^ 256 := by
  apply Nat.lt_pow_two_of_testBit
  intro j hj
  rw [testBit_ofElems w n f hw j, h]
  simp [Nat.not_lt.mpr hj]

theorem cond_lt (F : Nat → Nat) (hF : ∀ a, F a < 2 ^ 256) (P : Prop) [Decidable P] (a : Nat)
    (ha : a < 2 ^ 256) : (if P then F a else a) < 2 ^ 256 := by
  split
  · exact hF a
  · exact ha

theorem swap_lt (a mh ml k : Nat) :
    _mm256_or_si256 (_mm256_srli_epi16 (_mm256_and_si256 a (_mm256_set1_epi8 mh)) k)
      (_mm256_slli_epi16 (_mm256_and_si256 a (_mm256_set1_epi8 ml)) k) < 2 ^ 256 := by
  unfold _mm256_or_si256 _mm256_srli_epi16 _mm256_slli_epi16
  exact Nat.or_lt_two_pow (ofElems_lt 16 16 _ (by decide) rfl) (ofElems_lt 16 16 _ (by decide) rfl)

/-- The result of `subset_shift` is a 256-bit vector. -/
theorem subset_shift_lt (b c : Nat) (hb : b < 2 ^ 256) : subset_shift b c < 2 ^ 256 := by
  unfold subset_shift
  simp only []
  refine cond_lt (fun a => _mm256_or_si256
        (_mm256_srli_epi16 (_mm256_and_si256 a (_mm256_set1_epi8 0xAA)) 1)
        (_mm256_slli_epi16 (_mm256_and_si256 a (_mm256_set1_epi8 0x55)) 1))
      (fun a => swap_lt a 0xAA 0x55 1) _ _ ?_
  refine cond_lt (fun a => _mm256_or_si256
        (_mm256_srli_epi16 (_mm256_and_si256 a (_mm256_set1_epi8 0xCC)) 2)
        (_mm256_slli_epi16 (_mm256_and_si256 a (_mm256_set1_epi8 0x33)) 2))
      (fun a => swap_lt a 0xCC 0x33 2) _ _ ?_
  refine cond_lt (fun a => _mm256_or_si256
        (_mm256_srli_epi16 (_mm256_and_si256 a (_mm256_set1_epi8 0xF0)) 4)
        (_mm256_slli_epi16 (_mm256_and_si256 a (_mm256_set1_epi8 0x0F)) 4))
      (fun a => swap_lt a 0xF0 0x0F 4) _ _ ?_
  refine cond_lt (fun a => _mm256_shuffle_epi8 a
        (_mm256_set_epi8 [14, 15, 12, 13, 10, 11, 8, 9, 6, 7, 4, 5, 2, 3, 0, 1,
          14, 15, 12, 13, 10, 11, 8, 9, 6, 7, 4, 5, 2, 3, 0, 1]))
      (fun a => ofElems_lt 8 32 _ (by decide) rfl) _ _ ?_
  refine cond_lt (fun a => _mm256_shufflehi_epi16
        (_mm256_shufflelo_epi16 a (_MM_SHUFFLE 2 3 0 1)) (_MM_SHUFFLE 2 3 0 1))
      (fun a => ofElems_lt 16 16 _ (by decide) rfl) _ _ ?_
  refine cond_lt (fun a => _mm256_shuffle_epi32 a (_MM_SHUFFLE 2 3 0 1))
      (fun a => ofElems_lt 32 8 _ (by decide) rfl) _ _ ?_
  refine cond_lt (fun a => _mm256_permute4x64_epi64 a (_MM_SHUFFLE 2 3 0 1))
      (fun a => ofElems_lt 64 4 _ (by decide) rfl) _ _ ?_
  exact cond_lt (fun a => _mm256_permute2x128_si256 a a 1)
      (fun a => ofElems_lt 128 2 _ (by decide) rfl) _ _ hb

theorem subset_shift_zero (S : Nat) : subset_shift S 0 = S := by
  unfold subset_shift
  simp

theorem subset_shift_shift (S a b : Nat) (hS : S < 2 ^ 256) (ha : a < 256) (hb : b < 256) :
    subset_shift (subset_shift S a) b = subset_shift S (a ^^^ b) := by
  have hab : a ^^^ b < 256 := Nat.xor_lt_two_pow (n := 8) ha hb
  apply eq_of_testBit_256 _ _ (subset_shift_lt _ _ (subset_shift_lt _ _ hS))
    (subset_shift_lt _ _ hS)
  intro x hx
  have hxb : x ^^^ b < 256 := Nat.xor_lt_two_pow (n := 8) hx hb
  rw [subset_shift_testBit _ b x hb hx, subset_shift_testBit S a _ ha hxb,
    subset_shift_testBit S _ x hab hx, Nat.xor_assoc, Nat.xor_comm b a]

theorem subset_shift_intersect (A B c : Nat) (hA : A < 2 ^ 256) (hc : c < 256) :
    subset_shift (subset_intersect A B) c
      = subset_intersect (subset_shift A c) (subset_shift B c) := by
  have h1 : subset_intersect A B < 2 ^ 256 := Nat.lt_of_le_of_lt Nat.and_le_left hA
  have h2 : subset_intersect (subset_shift A c) (subset_shift B c) < 2 ^ 256 :=
    Nat.lt_of_le_of_lt Nat.and_le_left (subset_shift_lt A c hA)
  apply eq_of_testBit_256 _ _ (subset_shift_lt _ c h1) h2
  intro x hx
  rw [subset_shift_testBit _ c x hc hx, testBit_intersect, testBit_intersect,
    subset_shift_testBit A c x hc hx, subset_shift_testBit B c x hc hx]

theorem foldl_add_element_lt (l : List Nat) (h : Nat → Nat) (hh : ∀ e, h e < 256)
    (init : Nat) (hi : init < 2 ^ 256) :
    l.foldl (fun cell e => subset_add_element cell (h e)) init < 2 ^ 256 := by
  induction l generalizing init with
  | nil => exact hi
  | cons e l ih =>
    rw [List.foldl_cons]
    apply ih
    rw [subset_add_element_eq _ _ (hh e)]
    exact Nat.or_lt_two_pow hi (Nat.pow_lt_pow_right (by decide) (hh e))

theorem DDTV_out_shifted_lt (a b c : Nat) : DDTV_out_shifted a b c < 2 ^ 256 := by
  unfold DDTV_out_shifted
  exact foldl_add_element_lt _ (fun e => (e ^^^ c) % 256) (fun e => Nat.mod_lt _ (by decide)) _
    (Nat.pos_pow_of_pos 256 (by decide))

/-- The precomputed shifted cell is the shift of the unshifted cell. -/
theorem DDTV_out_shifted_eq_shift (a b c : Nat) (ha : a < 256) (hc : c < 256) :
    DDTV_out_shifted a b c = subset_shift (DDTV_out_shifted a b 0) c := by
  apply eq_of_testBit_256 _ _ (DDTV_out_shifted_lt a b c)
    (subset_shift_lt _ c (DDTV_out_shifted_lt a b 0))
  intro x hx
  rw [subset_shift_testBit _ c x hc hx, Bool.eq_iff_iff, testBit_DDTV_out_shifted a b c x ha,
    testBit_DDTV_out_shifted a b 0 _ ha]
  constructor
  · rintro ⟨x', hx', hb, hy⟩
    refine ⟨x', hx', hb, ?_⟩
    have hs := SBOX_lt x' hx'
    rw [Nat.mod_eq_of_lt (Nat.xor_lt_two_pow (n := 8) hs hc)] at hy
    rw [Nat.xor_zero, Nat.mod_eq_of_lt hs, ← hy, Nat.xor_cancel_right]
  · rintro ⟨x', hx', hb, hy⟩
    refine ⟨x', hx', hb, ?_⟩
    have hs := SBOX_lt x' hx'
    rw [Nat.xor_zero, Nat.mod_eq_of_lt hs] at hy
    rw [Nat.mod_eq_of_lt (Nat.xor_lt_two_pow (n := 8) hs hc), hy, Nat.xor_cancel_right]

/-- The members of a shifted cell are the members of the list, XORed with `c`. -/
theorem testBit_shifted_iff (a b c x : Nat) (ha : a < 256) (hc : c < 256) :
    (DDTV_out_shifted a b c).testBit x = true ↔ ∃ y ∈ DDTV_out a b, y ^^^ c = x := by
  rw [testBit_DDTV_out_shifted a b c x ha]
  constructor
  · rintro ⟨x', hx', hb, hy⟩
    rw [Nat.mod_eq_of_lt (Nat.xor_lt_two_pow (n := 8) (SBOX_lt x' hx') hc)] at hy
    exact ⟨_, (mem_DDTV_out a b _ ha).mpr ⟨x', hx', hb, rfl⟩, hy⟩
  · rintro ⟨y, hy, hyx⟩
    obtain ⟨x', hx', hb, rfl⟩ := (mem_DDTV_out a b y ha).mp hy
    refine ⟨x', hx', hb, ?_⟩
    rw [Nat.mod_eq_of_lt (Nat.xor_lt_two_pow (n := 8) (SBOX_lt x' hx') hc)]
    exact hyx

/-! ## The members of a byte set, as a list -/

/-- The positions where `P` holds, below `n`, start with the lowest one. -/
theorem filter_range_lowest (P : Nat → Bool) (n p : Nat) (hp : p < n) (hP : P p = true)
    (hlow : ∀ j, j < p → P j = false) :
    (List.range n).filter P
      = p :: (List.range n).filter (fun i => P i && !decide (i = p)) := by
  induction n with
  | zero => omega
  | succ n ih =>
    rw [List.range_succ, List.filter_append, List.filter_append]
    by_cases hpn : p = n
    · subst hpn
      have e1 : (List.range p).filter P = [] :=
        List.filter_eq_nil_iff.mpr (fun a ha => by rw [hlow a (List.mem_range.mp ha)]; decide)
      have e2 : (List.range p).filter (fun i => P i && !decide (i = p)) = [] :=
        List.filter_eq_nil_iff.mpr (fun a ha => by simp [hlow a (List.mem_range.mp ha)])
      rw [e1, e2]
      simp [hP]
    · rw [ih (by omega)]
      have hn : decide (n = p) = false := by
        simp only [decide_eq_false_iff_not]
        exact fun h => hpn h.symm
      simp [List.filter_cons, hn]

theorem ctz_scan_lt (x : Nat) (hx : x < 2 ^ 64) (h0 : x ≠ 0) : ctz_scan 64 x < 64 := by
  obtain ⟨hp, _⟩ := ctz_scan_spec 64 x hx h0
  rcases Nat.lt_or_ge (ctz_scan 64 x) 64 with h | h
  · exact h
  · have := Nat.testBit_lt_two_pow (Nat.lt_of_lt_of_le hx (Nat.pow_le_pow_right (by decide) h))
    rw [hp] at this
    exact absurd this (by decide)

/-- One loop of `subset_get_elements` pushes the set bits of its word in ascending order, when
the iteration bound covers the bits that are still set. -/
theorem elements_loop_eq (k fuel chunk : Nat) (hlt : chunk < 2 ^ 64)
    (hinv : ∀ i, i + fuel < 64 → chunk.testBit i = false) :
    elements_loop k fuel chunk
      = ((List.range 64).filter (fun i => chunk.testBit i)).map
          (fun i => (i + k * 64) % 256) := by
  induction fuel generalizing chunk with
  | zero =>
    have e : (List.range 64).filter (fun i => chunk.testBit i) = [] :=
      List.filter_eq_nil_iff.mpr (fun i hi => by
        have := List.mem_range.mp hi
        rw [hinv i (by omega)]; decide)
    rw [e]
    rfl
  | succ fuel ih =>
    unfold elements_loop
    by_cases hne : chunk = 0
    · have e : (List.range 64).filter (fun i => chunk.testBit i) = [] :=
        List.filter_eq_nil_iff.mpr (fun i _ => by rw [hne, Nat.zero_testBit]; decide)
      rw [e]
      simp [hne]
    · obtain ⟨hp, hlow⟩ := ctz_scan_spec 64 chunk hlt hne
      have hp64 := ctz_scan_lt chunk hlt hne
      have hclear : (fun i => (chunk &&& (chunk - 1)).testBit i)
          = (fun i => chunk.testBit i && !decide (i = ctz_scan 64 chunk)) :=
        funext (fun i => testBit_clear_lowest chunk _ i hp hlow)
      have hinv2 : ∀ j, j + fuel < 64 → (chunk &&& (chunk - 1)).testBit j = false := by
        intro j hj
        rw [testBit_clear_lowest chunk _ j hp hlow]
        by_cases hjp : j = ctz_scan 64 chunk
        · simp [hjp]
        · cases hb : chunk.testBit j with
          | false => simp
          | true =>
            exfalso
            have hpj : ctz_scan 64 chunk < j := by
              rcases Nat.lt_trichotomy (ctz_scan 64 chunk) j with h | h | h
              · exact h
              · exact absurd h.symm hjp
              · have := hlow j h; rw [hb] at this; exact absurd this (by decide)
            have := hinv (ctz_scan 64 chunk) (by omega)
            rw [hp] at this
            exact absurd this (by decide)
      simp only [hne, ne_eq, not_false_eq_true, if_true]
      rw [ih _ (Nat.lt_of_le_of_lt Nat.and_le_left hlt) hinv2, hclear,
        filter_range_lowest (fun i => chunk.testBit i) 64 _ hp64 hp hlow, List.map_cons]
      rfl

theorem range_256_split :
    List.range 256
      = List.range' 0 64 ++ List.range' 64 64 ++ List.range' 128 64 ++ List.range' 192 64 := by
  decide!

/-- The bits of the 64-bit word `k` of a vector, as bits of the vector. -/
theorem chunk_filter (a k : Nat) (hk : k ≤ 3) :
    ((List.range 64).filter (fun i => (elem 64 a k).testBit i)).map
        (fun i => (i + k * 64) % 256)
      = (List.range' (k * 64) 64).filter (fun x => a.testBit x) := by
  rw [List.range'_eq_map_range, List.filter_map]
  have e1 : (List.range 64).filter (fun i => (elem 64 a k).testBit i)
      = (List.range 64).filter ((fun x => a.testBit x) ∘ fun x => k * 64 + x) := by
    apply List.filter_congr
    intro i hi
    have hi' := List.mem_range.mp hi
    rw [testBit_elem]
    simp [hi', Nat.mul_comm]
  rw [e1]
  apply List.map_congr_left
  intro i hi
  have hi' := List.mem_range.mp (List.mem_of_mem_filter hi)
  show (i + k * 64) % 256 = k * 64 + i
  omega

/-- The list `subset_get_elements` returns is the list of the members, in ascending order. -/
theorem subset_get_elements_eq (a : Nat) :
    subset_get_elements a = (List.range 256).filter (fun x => a.testBit x) := by
  have hlt : ∀ k, elem 64 a k < 2 ^ 64 := fun k => Nat.mod_lt _ (Nat.pos_pow_of_pos 64 (by decide))
  have key : ∀ k s, k ≤ 3 → s = k * 64 → elements_loop k 64 (elem 64 a k)
      = (List.range' s 64).filter (fun x => a.testBit x) := fun k s hk hs => by
    rw [elements_loop_eq k 64 _ (hlt k) (fun i hi => absurd hi (by omega)), chunk_filter a k hk,
      hs]
  unfold subset_get_elements _mm256_extract_epi64
  rw [key 0 0 (by decide) rfl, key 1 64 (by decide) rfl, key 2 128 (by decide) rfl,
    key 3 192 (by decide) rfl, range_256_split, List.filter_append, List.filter_append, List.filter_append]

/-- The value `subset_size` returns is the number of members. -/
theorem subset_size_eq (a : Nat) :
    subset_size a = ((List.range 256).filter (fun x => a.testBit x)).length := by
  have key : ∀ k s, k ≤ 3 → s = k * 64 → __builtin_popcountll (elem 64 a k)
      = ((List.range' s 64).filter (fun x => a.testBit x)).length := fun k s hk hs => by
    rw [hs, ← chunk_filter a k hk, List.length_map]
    rfl
  have hle : ∀ s, ((List.range' s 64).filter (fun x => a.testBit x)).length ≤ 64 := fun s => by
    have := List.length_filter_le (fun x => a.testBit x) (List.range' s 64)
    rw [List.length_range'] at this
    exact this
  unfold subset_size _mm256_extract_epi64
  simp only []
  rw [key 0 0 (by decide) rfl, key 1 64 (by decide) rfl, key 2 128 (by decide) rfl,
    key 3 192 (by decide) rfl, range_256_split, List.filter_append, List.filter_append,
    List.filter_append, List.length_append, List.length_append, List.length_append]
  have h0 := hle 0
  have h1 := hle 64
  have h2 := hle 128
  have h3 := hle 192
  omega

theorem xor_perm_range (c : Nat) (hc : c < 256) :
    ((List.range 256).map (fun x => x ^^^ c)).Perm (List.range 256) := by
  have hinj : Function.Injective (fun x : Nat => x ^^^ c) := fun x y h => by
    have h2 : (x ^^^ c) ^^^ c = (y ^^^ c) ^^^ c := congrArg (fun z => z ^^^ c) h
    rw [Nat.xor_cancel_right, Nat.xor_cancel_right] at h2
    exact h2
  rw [List.perm_ext_iff_of_nodup ((List.nodup_range 256).map hinj) (List.nodup_range 256)]
  intro x
  simp only [List.mem_map, List.mem_range]
  constructor
  · rintro ⟨y, hy, rfl⟩
    exact Nat.xor_lt_two_pow (n := 8) hy hc
  · intro hx
    exact ⟨x ^^^ c, Nat.xor_lt_two_pow (n := 8) hx hc, Nat.xor_cancel_right _ _⟩

/-- Counting the bytes `x` with `P (x ^ c)` is counting the bytes with `P`. -/
theorem filter_xor_length (P : Nat → Bool) (c : Nat) (hc : c < 256) :
    ((List.range 256).filter (fun x => P (x ^^^ c))).length
      = ((List.range 256).filter P).length := by
  have e : ((List.range 256).filter (fun x => P (x ^^^ c))).length
      = (((List.range 256).map (fun x => x ^^^ c)).filter P).length := by
    rw [List.filter_map, List.length_map]
    rfl
  rw [e]
  exact ((xor_perm_range c hc).filter P).length_eq

theorem subset_size_shift (S c : Nat) (hc : c < 256) :
    subset_size (subset_shift S c) = subset_size S := by
  rw [subset_size_eq, subset_size_eq, ← filter_xor_length (fun x => S.testBit x) c hc]
  apply congrArg List.length
  apply List.filter_congr
  intro x hx
  exact subset_shift_testBit S c x hc (List.mem_range.mp hx)

theorem pairwise_lt_get_elements (a : Nat) :
    List.Pairwise (fun x y => x < y) (subset_get_elements a) := by
  rw [subset_get_elements_eq]
  exact List.Pairwise.sublist (List.filter_sublist _) (List.pairwise_lt_range 256)

theorem mem_get_elements_iff (a x : Nat) :
    x ∈ subset_get_elements a ↔ x < 256 ∧ subset_mem a x = true := by
  rw [subset_get_elements_eq, subset_mem_eq, List.mem_filter, List.mem_range]

/-! ## The cells of `DDTV_out` -/

theorem SBOX_injective (x y : Nat) (hx : x < 256) (hy : y < 256)
    (h : SBOX.getD x 0 = SBOX.getD y 0) : x = y := by
  have h2 := congrArg (fun z => inv_SBOX.getD z 0) h
  simp only [] at h2
  rw [inv_SBOX_SBOX x hx, inv_SBOX_SBOX y hy] at h2
  exact h2

/-- A cell of `DDTV_out` holds no value twice. -/
theorem nodup_DDTV_out (din dout : Nat) (hd : din < 256) : (DDTV_out din dout).Nodup := by
  rw [DDTV_out_eq din dout hd]
  apply List.Nodup.map_on
  · intro x hx y hy h
    have hx' := List.mem_range.mp (List.mem_of_mem_filter hx)
    have hy' := List.mem_range.mp (List.mem_of_mem_filter hy)
    rw [Nat.mod_eq_of_lt hx', Nat.mod_eq_of_lt hy'] at h
    exact SBOX_injective x y hx' hy' h
  · exact (List.nodup_range 256).filter _

/-- The length of a cell of `DDTV_out` is the entry of the difference distribution table. -/
theorem length_DDTV_out (din dout : Nat) (hd : din < 256) :
    (DDTV_out din dout).length
      = ((List.range 256).filter
          (fun x => decide (SBOX.getD x 0 ^^^ SBOX.getD (x ^^^ din) 0 = dout))).length := by
  rw [DDTV_out_eq din dout hd, List.length_map]

theorem sum_indicator (n k : Nat) :
    ((List.range n).map (fun d => if k = d then 1 else 0)).sum = if k < n then 1 else 0 := by
  induction n with
  | zero => rfl
  | succ n ih =>
    rw [List.range_succ, List.map_append, List.sum_append, ih]
    simp only [List.map_cons, List.map_nil, List.sum_cons, List.sum_nil]
    by_cases h1 : k < n
    · have h2 : ¬ k = n := by omega
      have h3 : k < n + 1 := by omega
      simp [h1, h2, h3]
    · by_cases h2 : k = n
      · have h3 : k < n + 1 := by omega
        simp [h1, h2]
      · have h3 : ¬ k < n + 1 := by omega
        simp [h1, h2, h3]

/-- The sizes of the fibres of `f` over `0 .. n - 1` add up to the length of the list, when
`f` stays below `n` on the list. -/
theorem sum_fibres (f : Nat → Nat) (n : Nat) (l : List Nat) (h : ∀ x ∈ l, f x < n) :
    ((List.range n).map (fun d => (l.filter (fun x => decide (f x = d))).length)).sum
      = l.length := by
  induction l with
  | nil => simp
  | cons a l ih =>
    have e : (fun d => ((a :: l).filter (fun x => decide (f x = d))).length)
        = (fun d => (if f a = d then 1 else 0) + (l.filter (fun x => decide (f x = d))).length) := by
      funext d
      by_cases hd : f a = d
      · simp [List.filter_cons, hd]; omega
      · simp [List.filter_cons, hd]
    rw [e, List.sum_map_add, sum_indicator, ih (fun x hx => h x (List.mem_cons_of_mem _ hx))]
    have := h a (List.mem_cons_self _ _)
    simp [this]; omega

/-- The lengths of the cells of one row of `DDTV_out` add up to 256. -/
theorem sum_DDTV_out_row (din : Nat) (hd : din < 256) :
    ((List.range 256).map (fun dout => (DDTV_out din dout).length)).sum = 256 := by
  have e : (fun dout => (DDTV_out din dout).length)
      = (fun dout => ((List.range 256).filter
          (fun x => decide (SBOX.getD x 0 ^^^ SBOX.getD (x ^^^ din) 0 = dout))).length) :=
    funext (fun dout => length_DDTV_out din dout hd)
  rw [e, sum_fibres (fun x => SBOX.getD x 0 ^^^ SBOX.getD (x ^^^ din) 0) 256 (List.range 256)
    (fun x hx => sbox_diff_lt x din (List.mem_range.mp hx) hd), List.length_range]

theorem sum_const_range (n c : Nat) (g : Nat → Nat) (h : ∀ i, i < n → g i = c) :
    ((List.range n).map g).sum = n * c := by
  induction n with
  | zero => simp
  | succ n ih =>
    rw [List.range_succ, List.map_append, List.sum_append, ih (fun i hi => h i (by omega))]
    simp only [List.map_cons, List.map_nil, List.sum_cons, List.sum_nil]
    rw [h n (by omega), Nat.succ_mul]
    omega

/-- The table `DDTV_out` stores 65536 values in total. -/
theorem sum_DDTV_out :
    ((List.range 256).map (fun din =>
      ((List.range 256).map (fun dout => (DDTV_out din dout).length)).sum)).sum = 65536 :=
  sum_const_range 256 256 _ (fun din hd => sum_DDTV_out_row din hd)

/-! ## Bounds and shape of what the search body computes -/

/-- The loop over the pairs inside the `rk8` enumeration, with its locals named. -/
theorem body_L_inv_rk7_0_locals (LT : Tables) (PAIRS : List pair_t)
    (rk10_ L_inv_rk9_ rk8 : Nat) :
    body_L_inv_rk7_0 LT PAIRS rk10_ L_inv_rk9_ rk8
      = (List.range N_PAIRS).foldl (fun acc i =>
          match acc with
          | none => none
          | some L_inv_rk7_0 =>
            if (body_v7 LT PAIRS rk10_ L_inv_rk9_ rk8 i
                ^^^ body_v7_PRIME LT PAIRS rk10_ L_inv_rk9_ rk8 i) &&& 0x00FFFF ≠ 0 then none
            else some (subset_intersect L_inv_rk7_0
              (DDTV_out_shifted (PAIRS.getD i default).d
                (body_delta_v7_0 LT PAIRS rk10_ L_inv_rk9_ rk8 i)
                (body_shift_index LT PAIRS rk10_ L_inv_rk9_ rk8 i))))
          (some subset_init_full) :=
  rfl

theorem body_x8_lt (LT : Tables) (PAIRS : List pair_t) (rk10_ L_inv_rk9_ i : Nat) :
    body_x8 LT PAIRS rk10_ L_inv_rk9_ i < 2 ^ 24 := by
  unfold body_x8 inv_round_with_MC_inv_key
  exact inv_sub_bytes_lt _

theorem body_x8_PRIME_lt (LT : Tables) (PAIRS : List pair_t) (rk10_ L_inv_rk9_ i : Nat) :
    body_x8_PRIME LT PAIRS rk10_ L_inv_rk9_ i < 2 ^ 24 := by
  unfold body_x8_PRIME inv_round_with_MC_inv_key
  exact inv_sub_bytes_lt _

theorem body_delta_z7_lt (LT : Tables) (PAIRS : List pair_t) (rk10_ L_inv_rk9_ i : Nat)
    (hd : (PAIRS.getD i default).d < 256) :
    body_delta_z7 LT PAIRS rk10_ L_inv_rk9_ i < 2 ^ 24 := by
  unfold body_delta_z7
  exact Nat.xor_lt_two_pow
    (Nat.xor_lt_two_pow (body_x8_lt _ _ _ _ _) (body_x8_PRIME_lt _ _ _ _ _))
    (Nat.lt_of_lt_of_le hd (by decide))

theorem body_delta_v7_0_lt (LT : Tables) (PAIRS : List pair_t) (rk10_ L_inv_rk9_ rk8 i : Nat) :
    body_delta_v7_0 LT PAIRS rk10_ L_inv_rk9_ rk8 i < 256 :=
  Nat.mod_lt _ (by decide)

theorem body_shift_index_lt (LT : Tables) (PAIRS : List pair_t)
    (rk10_ L_inv_rk9_ rk8 i : Nat) :
    body_shift_index LT PAIRS rk10_ L_inv_rk9_ rk8 i < 256 :=
  Nat.xor_lt_two_pow (n := 8) (Nat.mod_lt _ (by decide)) (Nat.mod_lt _ (by decide))

/-- Every candidate the search body prints is the tuple `emitted` of a path whose last four
components are bytes. -/
theorem mem_search_body (COUNTERS : Bool) (LT : Tables) (PAIRS : List pair_t)
    (T : Nat → Nat → Nat → Nat) (rk10_ L_inv_rk9_ : Nat) (x : Nat × Nat × Nat × Nat)
    (h : x ∈ search_body COUNTERS LT PAIRS T rk10_ L_inv_rk9_) :
    ∃ rk8_0 rk8_1 rk8_2 L_inv_rk7_0_, rk8_0 < 256 ∧ rk8_1 < 256 ∧ rk8_2 < 256
      ∧ L_inv_rk7_0_ < 256
      ∧ x = emitted LT (PAIRS.getD 0 default).t rk10_ L_inv_rk9_ rk8_0 rk8_1 rk8_2
          L_inv_rk7_0_ := by
  have hb : ∀ e S j, e ∈ subset_get_elements S →
      e ^^^ body_v8 LT PAIRS rk10_ L_inv_rk9_ j 0 ^^^ norm_8 LT PAIRS j 0 < 256 :=
    fun e S j he => Nat.xor_lt_two_pow (n := 8)
      (Nat.xor_lt_two_pow (n := 8) ((mem_get_elements_iff S e).mp he).1 (lane_lt _ _))
      (lane_lt _ _)
  unfold search_body at h
  split at h
  · exact absurd h (List.not_mem_nil _)
  · obtain ⟨e0, he0, h⟩ := List.mem_flatMap.mp h
    obtain ⟨e1, he1, h⟩ := List.mem_flatMap.mp h
    obtain ⟨e2, he2, h⟩ := List.mem_flatMap.mp h
    simp only [] at h
    split at h
    · exact absurd h (List.not_mem_nil _)
    · obtain ⟨l, hl, rfl⟩ := List.mem_map.mp h
      exact ⟨_, _, _, l, hb e0 _ 0 he0, hb e1 _ 1 he1, hb e2 _ 2 he2,
        ((mem_get_elements_iff _ l).mp hl).1, rfl⟩

theorem pack3_injective (a0 a1 a2 b0 b1 b2 : Nat) (ha0 : a0 < 256) (ha1 : a1 < 256)
    (ha2 : a2 < 256) (hb0 : b0 < 256) (hb1 : b1 < 256) (hb2 : b2 < 256)
    (h : (a0 <<< 16) ^^^ (a1 <<< 8) ^^^ a2 = (b0 <<< 16) ^^^ (b1 <<< 8) ^^^ b2) :
    a0 = b0 ∧ a1 = b1 ∧ a2 = b2 := by
  refine ⟨?_, ?_, ?_⟩
  · rw [← pack3_byte0 a0 a1 a2 ha0 ha1 ha2, h, pack3_byte0 b0 b1 b2 hb0 hb1 hb2]
  · rw [← pack3_byte1 a0 a1 a2 ha1 ha2, h, pack3_byte1 b0 b1 b2 hb1 hb2]
  · rw [← pack3_byte2 a0 a1 a2 ha1 ha2, h, pack3_byte2 b0 b1 b2 hb1 hb2]

theorem linear_layer_injective (a b : Nat) (ha : a < 2 ^ 24) (hb : b < 2 ^ 24)
    (h : linear_layer generate_tables a = linear_layer generate_tables b) : a = b := by
  rw [← inv_linear_layer_linear_layer a ha, h, inv_linear_layer_linear_layer b hb]

/-- The printed tuple determines the path. -/
theorem emitted_injective (t0 rk10_ L_inv_rk9_ a0 a1 a2 l rk10_' L_inv_rk9_' b0 b1 b2 l' : Nat)
    (hL : L_inv_rk9_ < 2 ^ 24) (hL' : L_inv_rk9_' < 2 ^ 24)
    (ha0 : a0 < 256) (ha1 : a1 < 256) (ha2 : a2 < 256)
    (hb0 : b0 < 256) (hb1 : b1 < 256) (hb2 : b2 < 256)
    (h : emitted generate_tables t0 rk10_ L_inv_rk9_ a0 a1 a2 l
      = emitted generate_tables t0 rk10_' L_inv_rk9_' b0 b1 b2 l') :
    rk10_ = rk10_' ∧ L_inv_rk9_ = L_inv_rk9_' ∧ a0 = b0 ∧ a1 = b1 ∧ a2 = b2 ∧ l = l' := by
  unfold emitted at h
  simp only [Prod.mk.injEq] at h
  obtain ⟨h7, h8, h9, h10⟩ := h
  have e9 : linear_layer generate_tables L_inv_rk9_
      = linear_layer generate_tables L_inv_rk9_' := by
    rw [← normalize_round_key_twice (linear_layer generate_tables L_inv_rk9_) t0 9 (by decide),
      h9, normalize_round_key_twice _ t0 9 (by decide)]
  have eL := linear_layer_injective _ _ hL hL' e9
  have e8 := pack3_injective a0 a1 a2 b0 b1 b2 ha0 ha1 ha2 hb0 hb1 hb2
    (linear_layer_injective _ _ (pack3_lt a0 a1 a2 ha0 ha1 ha2)
      (pack3_lt b0 b1 b2 hb0 hb1 hb2) h8)
  have e10 : rk10_ = rk10_' := by
    rw [← normalize_round_key_10_twice rk10_ (linear_layer generate_tables L_inv_rk9_ % 256) t0,
      h10, ← e9, normalize_round_key_10_twice]
  exact ⟨e10, eL, e8.1, e8.2.1, e8.2.2, h7⟩

/-! ## Transport between tweaks, and empty lanes of `T` -/

theorem pairwise_lt_POSSIBLE_DELTA_Y (d : Nat) :
    List.Pairwise (fun x y => x < y) (POSSIBLE_DELTA_Y d) := by
  unfold POSSIBLE_DELTA_Y
  exact List.Pairwise.sublist (List.filter_sublist _) (List.pairwise_lt_range 256)

theorem DDTV_out_ne_nil_iff (d dout : Nat) (hd : d < 256) :
    DDTV_out d dout ≠ [] ↔
      ∃ x, x < 256 ∧ SBOX.getD x 0 ^^^ SBOX.getD (x ^^^ d) 0 = dout := by
  constructor
  · intro h
    obtain ⟨e, he⟩ := List.exists_mem_of_ne_nil _ h
    obtain ⟨x, hx, hxd, _⟩ := (mem_DDTV_out d dout e hd).mp he
    exact ⟨x, hx, hxd⟩
  · rintro ⟨x, hx, hxd⟩
    exact List.ne_nil_of_mem ((mem_DDTV_out d dout _ hd).mpr ⟨x, hx, hxd, rfl⟩)

/-- The transport of round key 9 from the tweak `t0` to the tweak `ti`. -/
theorem transport_rk9 (key t0 ti : Nat) (h0 : t0 < 2 ^ 64) (hi : ti < 2 ^ 64) :
    inv_linear_layer generate_tables ((key_schedule key t0).getD 9 0)
        ^^^ inv_linear_layer generate_tables (normalize_round_key 0 (t0 ^^^ ti) 9)
      = inv_linear_layer generate_tables ((key_schedule key ti).getD 9 0) := by
  have h0i : t0 ^^^ ti < 2 ^ 64 := Nat.xor_lt_two_pow h0 hi
  have e : (key_schedule key t0).getD 9 0 ^^^ normalize_round_key 0 (t0 ^^^ ti) 9
      = (key_schedule key ti).getD 9 0 := by
    have ex : normalize_round_key 0 (t0 ^^^ ti) 9
        = normalize_round_key 0 t0 9 ^^^ normalize_round_key 0 ti 9 :=
      normalize_round_key_zero_xor 9 t0 ti
    rw [key_schedule_normalize key t0 9 (by decide) (by decide) h0,
      key_schedule_normalize key ti 9 (by decide) (by decide) hi,
      normalize_round_key_eq_xor _ t0 9 (by decide),
      normalize_round_key_eq_xor _ ti 9 (by decide), ex, Nat.xor_assoc,
      Nat.xor_cancel_left]
  rw [← inv_linear_layer_xor _ _ (key_schedule_getD_lt key t0 9)
    (normalize_zero_lt 9 _ (by decide) (by decide) h0i), e]

/-- The transport of round key 10 from the tweak `t0` to the tweak `ti`. -/
theorem transport_rk10 (key t0 ti : Nat) (h0 : t0 < 2 ^ 64) (hi : ti < 2 ^ 64) :
    normalize_round_key_10
        (normalize_round_key_10 ((key_schedule key t0).getD 10 0)
          ((key_schedule key t0).getD 9 0 % 256) t0)
        ((key_schedule key ti).getD 9 0 % 256) ti
      = (key_schedule key ti).getD 10 0 := by
  rw [key_schedule_10_back key t0 h0]
  exact (key_schedule_10_real key ti hi).symm

theorem key_schedule_constant (key t r : Nat) (hr : r ≤ 9) (h6 : r ≠ 6) (ht : t < 2 ^ 64) :
    (key_schedule key t).getD r 0
      = (key_schedule key 0).getD r 0 ^^^ normalize_round_key 0 t r := by
  rw [key_schedule_tweak key t r hr, ks_lin_tweak r t hr h6 ht]

theorem subset_is_empty_iff (a : Nat) :
    subset_is_empty a = true ↔ ∀ y, a.testBit y = false := by
  unfold subset_is_empty _mm256_testz_si256
  rw [Nat.and_self]
  constructor
  · intro h y
    by_cases h0 : a = 0
    · rw [h0, Nat.zero_testBit]
    · simp [h0] at h
  · intro h
    have h0 : a = 0 := by
      apply Nat.eq_of_testBit_eq
      intro i
      rw [h i, Nat.zero_testBit]
    simp [h0]

/-- A lane of a cell of `T` has a member exactly when some iteration of the five loops
addresses the cell. -/
theorem build_T_nonempty_iff (LT : Tables) (PAIRS : List pair_t) (i z j : Nat) (hj : j < 3) :
    (∃ y, (build_T LT PAIRS i z j).testBit y = true) ↔
      ∃ i' ∈ List.range N_PAIRS, ∃ dout ∈ POSSIBLE_DELTA_Y (PAIRS.getD i' default).d,
        ∃ y0 ∈ POSSIBLE_DELTA_Y ((T_delta_x7 LT (PAIRS.getD i' default).d dout >>> 16) % 256),
        ∃ y1 ∈ POSSIBLE_DELTA_Y ((T_delta_x7 LT (PAIRS.getD i' default).d dout >>> 8) % 256),
        ∃ y2 ∈ POSSIBLE_DELTA_Y (T_delta_x7 LT (PAIRS.getD i' default).d dout % 256),
        i' = i ∧ linear_layer LT ((y0 <<< 16) ^^^ (y1 <<< 8) ^^^ y2) = z := by
  have hm : ∀ a b, b ∈ POSSIBLE_DELTA_Y (a % 256) →
      ∃ y, (DDTV_out_shifted (a % 256) b 0).testBit y = true := by
    intro a b hb
    have ha : a % 256 < 256 := Nat.mod_lt _ (by decide)
    obtain ⟨e, he⟩ := List.exists_mem_of_ne_nil _
      ((mem_POSSIBLE_DELTA_Y_nonempty _ _).mp hb).2
    exact ⟨e ^^^ 0, (testBit_shifted_iff _ b 0 _ ha (by decide)).mpr ⟨e, he, rfl⟩⟩
  constructor
  · rintro ⟨y, hy⟩
    obtain ⟨i', hi', dout, hdout, y0, hy0, y1, hy1, y2, hy2, hii, hz, _⟩ :=
      (testBit_build_T LT PAIRS i z j y).mp hy
    exact ⟨i', hi', dout, hdout, y0, hy0, y1, hy1, y2, hy2, hii, hz⟩
  · rintro ⟨i', hi', dout, hdout, y0, hy0, y1, hy1, y2, hy2, hii, hz⟩
    interval_cases j
    · obtain ⟨y, hy⟩ := hm _ y0 hy0
      exact ⟨y, (testBit_build_T LT PAIRS i z 0 y).mpr
        ⟨i', hi', dout, hdout, y0, hy0, y1, hy1, y2, hy2, hii, hz, Or.inl ⟨rfl, hy⟩⟩⟩
    · obtain ⟨y, hy⟩ := hm _ y1 hy1
      exact ⟨y, (testBit_build_T LT PAIRS i z 1 y).mpr
        ⟨i', hi', dout, hdout, y0, hy0, y1, hy1, y2, hy2, hii, hz,
          Or.inr (Or.inl ⟨rfl, hy⟩)⟩⟩
    · obtain ⟨y, hy⟩ := hm _ y2 hy2
      exact ⟨y, (testBit_build_T LT PAIRS i z 2 y).mpr
        ⟨i', hi', dout, hdout, y0, hy0, y1, hy1, y2, hy2, hii, hz,
          Or.inr (Or.inr ⟨rfl, hy⟩)⟩⟩

/-- Two lanes of a cell of `T` are empty together. -/
theorem build_T_empty_lanes (LT : Tables) (PAIRS : List pair_t) (i z j k : Nat) (hj : j < 3)
    (hk : k < 3) :
    subset_is_empty (build_T LT PAIRS i z j) = true
      ↔ subset_is_empty (build_T LT PAIRS i z k) = true := by
  have key : ∀ j, j < 3 → (subset_is_empty (build_T LT PAIRS i z j) = true ↔
      ¬ ∃ i' ∈ List.range N_PAIRS, ∃ dout ∈ POSSIBLE_DELTA_Y (PAIRS.getD i' default).d,
        ∃ y0 ∈ POSSIBLE_DELTA_Y ((T_delta_x7 LT (PAIRS.getD i' default).d dout >>> 16) % 256),
        ∃ y1 ∈ POSSIBLE_DELTA_Y ((T_delta_x7 LT (PAIRS.getD i' default).d dout >>> 8) % 256),
        ∃ y2 ∈ POSSIBLE_DELTA_Y (T_delta_x7 LT (PAIRS.getD i' default).d dout % 256),
        i' = i ∧ linear_layer LT ((y0 <<< 16) ^^^ (y1 <<< 8) ^^^ y2) = z) := by
    intro j hj
    rw [← build_T_nonempty_iff LT PAIRS i z j hj, subset_is_empty_iff]
    constructor
    · rintro h ⟨y, hy⟩
      rw [h y] at hy
      exact absurd hy (by decide)
    · intro h y
      cases hb : (build_T LT PAIRS i z j).testBit y with
      | false => rfl
      | true => exact absurd ⟨y, hb⟩ h
  rw [key j hj, key k hk]

/-! ## The two variants of the three-lane filter, and the size of round keys -/

/-- Both variants of the three-lane filter jump to `bad_guess_` exactly when one of the three
intersections is empty. -/
theorem body_bad_guess_eq (COUNTERS : Bool) (LT : Tables) (PAIRS : List pair_t)
    (T : Nat → Nat → Nat → Nat) (rk10_ L_inv_rk9_ : Nat) :
    body_bad_guess COUNTERS LT PAIRS T rk10_ L_inv_rk9_
      = (subset_is_empty (body_intersection LT PAIRS T rk10_ L_inv_rk9_ 0)
        || subset_is_empty (body_intersection LT PAIRS T rk10_ L_inv_rk9_ 1)
        || subset_is_empty (body_intersection LT PAIRS T rk10_ L_inv_rk9_ 2)) := by
  have r3 : List.range 3 = [0, 1, 2] := rfl
  unfold body_bad_guess
  rw [r3]
  cases COUNTERS
  · simp only [Bool.false_eq_true, if_false, List.foldl_cons, List.foldl_nil]
    cases subset_is_empty (body_intersection LT PAIRS T rk10_ L_inv_rk9_ 0) <;>
      cases subset_is_empty (body_intersection LT PAIRS T rk10_ L_inv_rk9_ 1) <;>
      cases subset_is_empty (body_intersection LT PAIRS T rk10_ L_inv_rk9_ 2) <;> rfl
  · simp only [if_true, List.map_cons, List.map_nil, List.any_cons, List.any_nil,
      Bool.or_false, Bool.or_assoc]
    rfl

theorem body_bad_guess_counters (LT : Tables) (PAIRS : List pair_t)
    (T : Nat → Nat → Nat → Nat) (rk10_ L_inv_rk9_ : Nat) :
    body_bad_guess true LT PAIRS T rk10_ L_inv_rk9_
      = body_bad_guess false LT PAIRS T rk10_ L_inv_rk9_ := by
  rw [body_bad_guess_eq, body_bad_guess_eq]

/-- The search body prints the same candidates with and without the counters. -/
theorem search_body_counters (LT : Tables) (PAIRS : List pair_t)
    (T : Nat → Nat → Nat → Nat) (rk10_ L_inv_rk9_ : Nat) :
    search_body true LT PAIRS T rk10_ L_inv_rk9_
      = search_body false LT PAIRS T rk10_ L_inv_rk9_ := by
  unfold search_body
  rw [body_bad_guess_counters]

/-- The search body prints nothing when a lane intersection is empty. -/
theorem search_body_empty_lane (COUNTERS : Bool) (LT : Tables) (PAIRS : List pair_t)
    (T : Nat → Nat → Nat → Nat) (rk10_ L_inv_rk9_ j : Nat) (hj : j < 3)
    (h : subset_is_empty (body_intersection LT PAIRS T rk10_ L_inv_rk9_ j) = true) :
    search_body COUNTERS LT PAIRS T rk10_ L_inv_rk9_ = [] := by
  have hb : body_bad_guess COUNTERS LT PAIRS T rk10_ L_inv_rk9_ = true := by
    rw [body_bad_guess_eq]
    interval_cases j <;> simp [h]
  unfold search_body
  rw [hb]
  rfl

/-- The words of `key_schedule` and the normalisations of a 24-bit round key, round 6
excepted, are below `2 ^ 24`. -/
theorem normalize_round_key_lt (k t r : Nat) (hk : k < 2 ^ 24) (ht : t < 2 ^ 64) (hr : r ≤ 9)
    (h6 : r ≠ 6) : normalize_round_key k t r < 2 ^ 24 := by
  rw [normalize_round_key_eq_xor k t r (by omega)]
  exact Nat.xor_lt_two_pow hk (normalize_zero_lt r t hr h6 ht)

theorem normalize_zero_10_lt (t : Nat) (ht : t < 2 ^ 64) :
    normalize_round_key 0 t 10 < 2 ^ 24 := by
  have h1 : (((t >>> 32) &&& 0xFFFF) ^^^ (t &&& 0xFFFF)) <<< 8 < 2 ^ 24 := by
    have a : (t >>> 32) &&& 0xFFFF < 2 ^ 16 := Nat.and_lt_two_pow _ (by decide)
    have b : t &&& 0xFFFF < 2 ^ 16 := Nat.and_lt_two_pow _ (by decide)
    have c := Nat.xor_lt_two_pow a b
    rw [Nat.shiftLeft_eq]
    omega
  have h2 : t >>> 56 < 2 ^ 24 := by
    rw [Nat.shiftRight_eq_div_pow]
    omega
  show 0 ^^^ ((((t >>> 32) &&& 0xFFFF) ^^^ (t &&& 0xFFFF)) <<< 8) ^^^ (t >>> 56) < 2 ^ 24
  exact Nat.xor_lt_two_pow (Nat.xor_lt_two_pow (by decide) h1) h2

theorem normalize_round_key_lt_10 (k t : Nat) (hk : k < 2 ^ 24) (ht : t < 2 ^ 64) :
    normalize_round_key k t 10 < 2 ^ 24 := by
  rw [normalize_round_key_eq_xor k t 10 (by decide)]
  exact Nat.xor_lt_two_pow hk (normalize_zero_10_lt t ht)

theorem normalize_round_key_10_lt (k b t : Nat) (hk : k < 2 ^ 24) (hb : b < 256)
    (ht : t < 2 ^ 64) : normalize_round_key_10 k b t < 2 ^ 24 := by
  have hi : b ^^^ ((t >>> 48) &&& 0xFF) ^^^ ((t >>> 16) &&& 0xFF) < 256 :=
    Nat.xor_lt_two_pow (n := 8)
      (Nat.xor_lt_two_pow (n := 8) hb (Nat.and_lt_two_pow _ (by decide)))
      (Nat.and_lt_two_pow _ (by decide))
  have h10 := normalize_round_key_lt_10 k t hk ht
  have s1 : SBOX.getD b 0 < 2 ^ 24 := Nat.lt_of_lt_of_le (SBOX_lt b hb) (by decide)
  have s2 : SBOX.getD (b ^^^ ((t >>> 48) &&& 0xFF) ^^^ ((t >>> 16) &&& 0xFF)) 0 < 2 ^ 24 :=
    Nat.lt_of_lt_of_le (SBOX_lt _ hi) (by decide)
  unfold normalize_round_key_10
  exact Nat.xor_lt_two_pow (Nat.xor_lt_two_pow h10 s1) s2

/-! ## The claims -/

/-- C1: with the tables built by `generate_tables`, `encrypt` maps the plaintext `0x010203`
under the master key `0x2b7e151628aed2a6abf7158809cf4f3c` and the tweak `0x543bd88000017550`
to `0xf28c1e`. -/
theorem C1_encrypt_test_vector :
    encrypt generate_tables 0x010203 0x2b7e151628aed2a6abf7158809cf4f3c 0x543bd88000017550
      = 0xf28c1e := by
  decide!

/-- C2: for every 24-bit plaintext, every master key and every tweak, `decrypt` undoes
`encrypt` (tables built by `generate_tables`); and `decrypt` maps the test ciphertext
`0xf28c1e` back to `0x010203`. -/
theorem C2_decrypt_encrypt :
    (∀ p key t : Nat, p < 2 ^ 24 →
      decrypt generate_tables (encrypt generate_tables p key t) key t = p)
    ∧ decrypt generate_tables 0xf28c1e 0x2b7e151628aed2a6abf7158809cf4f3c 0x543bd88000017550
        = 0x010203 :=
  ⟨fun p key t hp => decrypt_encrypt p key t hp, by decide!⟩

theorem C2_decrypt_encrypt_witness :
    decrypt generate_tables
      (encrypt generate_tables 0x7e47ce 0x2b7e151628aed2a6abf7158809cf4f3c 0x543bd88000017550)
      0x2b7e151628aed2a6abf7158809cf4f3c 0x543bd88000017550 = 0x7e47ce :=
  C2_decrypt_encrypt.1 0x7e47ce 0x2b7e151628aed2a6abf7158809cf4f3c 0x543bd88000017550
    (by decide)

/-- C3: search soundness. For every master key and every three pairs made of a 24-bit
plaintext `p_i`, a 64-bit tweak `t_i` and a byte difference `d_i` (with
`c_i = encrypt p_i key t_i` and `c'_i = encrypt (p_i ^ d_i) key (t_i ^ (d_i << 40))`, as
`make_pair` queries them), the body of the search loop, with either setting of `COUNTERS`, with
the table `T` of step 2, and run on the guess that `CHECK_CORRECT_FIRST` injects (`correct_guess`,
computed from `RK = key_schedule key 0`), emits the candidate
`(inv_linear_layer RK[7] >> 16, RK[8], RK[9], RK[10])`. The differences need not be non-zero
or distinct. -/
theorem C3_search_soundness (COUNTERS : Bool) (key p0 t0 d0 p1 t1 d1 p2 t2 d2 : Nat)
    (PAIRS : List pair_t)
    (hP : PAIRS = [make_pair generate_tables key p0 t0 d0,
      make_pair generate_tables key p1 t1 d1, make_pair generate_tables key p2 t2 d2])
    (hp0 : p0 < 2 ^ 24) (ht0 : t0 < 2 ^ 64) (hd0 : d0 < 256)
    (hp1 : p1 < 2 ^ 24) (ht1 : t1 < 2 ^ 64) (hd1 : d1 < 256)
    (hp2 : p2 < 2 ^ 24) (ht2 : t2 < 2 ^ 64) (hd2 : d2 < 256) :
    (inv_linear_layer generate_tables ((key_schedule key 0).getD 7 0) >>> 16,
      (key_schedule key 0).getD 8 0, (key_schedule key 0).getD 9 0,
      (key_schedule key 0).getD 10 0)
      ∈ search_body COUNTERS generate_tables PAIRS (build_T generate_tables PAIRS)
          (correct_guess generate_tables PAIRS (key_schedule key 0)).1
          (correct_guess generate_tables PAIRS (key_schedule key 0)).2 := by
  subst hP
  exact search_body_correct_guess
    (pairsFrom_three key p0 t0 d0 p1 t1 d1 p2 t2 d2 hp0 ht0 hd0 hp1 ht1 hd1 hp2 ht2 hd2)
    COUNTERS

theorem C3_search_soundness_witness :
    (inv_linear_layer generate_tables
        ((key_schedule 0x2b7e151628aed2a6abf7158809cf4f3c 0).getD 7 0) >>> 16,
      (key_schedule 0x2b7e151628aed2a6abf7158809cf4f3c 0).getD 8 0,
      (key_schedule 0x2b7e151628aed2a6abf7158809cf4f3c 0).getD 9 0,
      (key_schedule 0x2b7e151628aed2a6abf7158809cf4f3c 0).getD 10 0)
      ∈ search_body false generate_tables
          [make_pair generate_tables 0x2b7e151628aed2a6abf7158809cf4f3c 0x010203
              0x543bd88000017550 0x01,
            make_pair generate_tables 0x2b7e151628aed2a6abf7158809cf4f3c 0x7e47ce
              0x0123456789abcdef 0x80,
            make_pair generate_tables 0x2b7e151628aed2a6abf7158809cf4f3c 0xf3a08b
              0xfedcba9876543210 0x5a]
          (build_T generate_tables
            [make_pair generate_tables 0x2b7e151628aed2a6abf7158809cf4f3c 0x010203
              0x543bd88000017550 0x01,
            make_pair generate_tables 0x2b7e151628aed2a6abf7158809cf4f3c 0x7e47ce
              0x0123456789abcdef 0x80,
            make_pair generate_tables 0x2b7e151628aed2a6abf7158809cf4f3c 0xf3a08b
              0xfedcba9876543210 0x5a])
          (correct_guess generate_tables
            [make_pair generate_tables 0x2b7e151628aed2a6abf7158809cf4f3c 0x010203
              0x543bd88000017550 0x01,
            make_pair generate_tables 0x2b7e151628aed2a6abf7158809cf4f3c 0x7e47ce
              0x0123456789abcdef 0x80,
            make_pair generate_tables 0x2b7e151628aed2a6abf7158809cf4f3c 0xf3a08b
              0xfedcba9876543210 0x5a]
            (key_schedule 0x2b7e151628aed2a6abf7158809cf4f3c 0)).1
          (correct_guess generate_tables
            [make_pair generate_tables 0x2b7e151628aed2a6abf7158809cf4f3c 0x010203
              0x543bd88000017550 0x01,
            make_pair generate_tables 0x2b7e151628aed2a6abf7158809cf4f3c 0x7e47ce
              0x0123456789abcdef 0x80,
            make_pair generate_tables 0x2b7e151628aed2a6abf7158809cf4f3c 0xf3a08b
              0xfedcba9876543210 0x5a]
            (key_schedule 0x2b7e151628aed2a6abf7158809cf4f3c 0)).2 :=
  C3_search_soundness false 0x2b7e151628aed2a6abf7158809cf4f3c 0x010203 0x543bd88000017550 0x01
    0x7e47ce 0x0123456789abcdef 0x80 0xf3a08b 0xfedcba9876543210 0x5a _ rfl
    (by decide) (by decide) (by decide) (by decide) (by decide) (by decide)
    (by decide) (by decide) (by decide)

/-- C4: `subset_shift` is the XOR-shift of a byte set. For every vector `S`, every byte `c` and
every byte `x`, `x` is a member of `subset_shift S c` if and only if `x ^ c` is a member of `S`,
membership of `x` being bit `x mod 64` of the 64-bit word `x div 64` (`subset_mem`). -/
theorem C4_subset_shift (S c x : Nat) (hc : c < 256) (hx : x < 256) :
    subset_mem (subset_shift S c) x = true ↔ subset_mem S (x ^^^ c) = true := by
  rw [subset_mem_eq, subset_mem_eq, subset_shift_testBit S c x hc hx]

theorem C4_subset_shift_witness :
    subset_mem (subset_shift (subset_add_element (subset_add_element 0 5) 200) 0x5A) 0x92
        = true
      ↔ subset_mem (subset_add_element (subset_add_element 0 5) 200) (0x92 ^^^ 0x5A) = true :=
  C4_subset_shift (subset_add_element (subset_add_element 0 5) 200) 0x5A 0x92 (by decide)
    (by decide)

/-- C5: correctness of the table `T` of step 2. For every pair index `i < N_PAIRS` with input
difference `d_i`, every `dz`, every lane `j < 3` and every `y`: `y` is a member of
`T[i][dz][j]` if and only if there are bytes `dout`, `dy0`, `dy1`, `dy2` such that, with
`dx = mix_columns (rotate_rows (dout << 16)) ^ (d_i << 8)`, the cells `DDTV_out[d_i][dout]`
and `DDTV_out[dx_k][dy_k]` (`k = 0, 1, 2`, `dx_k` the lanes of `dx`) are non-empty,
`linear_layer ((dy0 << 16) | (dy1 << 8) | dy2) = dz`, and `y = SBOX[x]` for a byte `x` with
`SBOX[x] ^ SBOX[x ^ dx_j] = dy_j`. -/
theorem C5_T_correct (PAIRS : List pair_t) (i dz j y : Nat) (hi : i < N_PAIRS) (hj : j < 3) :
    subset_mem (build_T generate_tables PAIRS i dz j) y = true ↔
      ∃ dout dy0 dy1 dy2 dx, dout < 256 ∧ dy0 < 256 ∧ dy1 < 256 ∧ dy2 < 256
        ∧ dx = mix_columns (rotate_rows (dout <<< 16)) ^^^ ((PAIRS.getD i default).d <<< 8)
        ∧ DDTV_out (PAIRS.getD i default).d dout ≠ []
        ∧ DDTV_out (lane dx 0) dy0 ≠ [] ∧ DDTV_out (lane dx 1) dy1 ≠ []
        ∧ DDTV_out (lane dx 2) dy2 ≠ []
        ∧ linear_layer generate_tables ((dy0 <<< 16) ||| (dy1 <<< 8) ||| dy2) = dz
        ∧ ∃ x, x < 256 ∧ y = SBOX.getD x 0
          ∧ SBOX.getD x 0 ^^^ SBOX.getD (x ^^^ lane dx j) 0 = [dy0, dy1, dy2].getD j 0 := by
  rw [subset_mem_eq]
  exact testBit_build_T_iff PAIRS i dz j y hi hj

theorem C5_T_correct_witness :
    subset_mem (build_T generate_tables
        [make_pair generate_tables 0x2b7e151628aed2a6abf7158809cf4f3c 0x010203
            0x543bd88000017550 0x01,
          make_pair generate_tables 0x2b7e151628aed2a6abf7158809cf4f3c 0x7e47ce
            0x0123456789abcdef 0x80,
          make_pair generate_tables 0x2b7e151628aed2a6abf7158809cf4f3c 0xf3a08b
            0xfedcba9876543210 0x5a] 1 0x6936ac 2) 0x63 = true ↔
      ∃ dout dy0 dy1 dy2 dx, dout < 256 ∧ dy0 < 256 ∧ dy1 < 256 ∧ dy2 < 256
        ∧ dx = mix_columns (rotate_rows (dout <<< 16))
            ^^^ (([make_pair generate_tables 0x2b7e151628aed2a6abf7158809cf4f3c 0x010203
                0x543bd88000017550 0x01,
              make_pair generate_tables 0x2b7e151628aed2a6abf7158809cf4f3c 0x7e47ce
                0x0123456789abcdef 0x80,
              make_pair generate_tables 0x2b7e151628aed2a6abf7158809cf4f3c 0xf3a08b
                0xfedcba9876543210 0x5a].getD 1 default).d <<< 8)
        ∧ DDTV_out ([make_pair generate_tables 0x2b7e151628aed2a6abf7158809cf4f3c 0x010203
                0x543bd88000017550 0x01,
              make_pair generate_tables 0x2b7e151628aed2a6abf7158809cf4f3c 0x7e47ce
                0x0123456789abcdef 0x80,
              make_pair generate_tables 0x2b7e151628aed2a6abf7158809cf4f3c 0xf3a08b
                0xfedcba9876543210 0x5a].getD 1 default).d dout ≠ []
        ∧ DDTV_out (lane dx 0) dy0 ≠ [] ∧ DDTV_out (lane dx 1) dy1 ≠ []
        ∧ DDTV_out (lane dx 2) dy2 ≠ []
        ∧ linear_layer generate_tables ((dy0 <<< 16) ||| (dy1 <<< 8) ||| dy2) = 0x6936ac
        ∧ ∃ x, x < 256 ∧ 0x63 = SBOX.getD x 0
          ∧ SBOX.getD x 0 ^^^ SBOX.getD (x ^^^ lane dx 2) 0 = [dy0, dy1, dy2].getD 2 0 :=
  C5_T_correct _ 1 0x6936ac 2 0x63 (by decide) (by decide)

/-- C6, at the input where it fails: for the master key 0 and the tweak `2 ^ 32`, round key 6
of `key_schedule` is `0x636262`, while `normalize_round_key` applied to the tweak-0 round
key 6 (`0x636362`) gives `0x626362`. -/
theorem C6_round_6_differs :
    (key_schedule 0 0x100000000).getD 6 0 = 0x636262
    ∧ (key_schedule 0 0).getD 6 0 = 0x636362
    ∧ normalize_round_key ((key_schedule 0 0).getD 6 0) 0x100000000 6 = 0x626362 := by
  decide!

/-- C7: for every master key and every 64-bit tweak `t`, round key 10 for the tweak `t` is
`normalize_round_key_10` of the tweak-0 round key 10, the low byte of the tweak-0 round
key 9, and `t`. -/
theorem C7_round_key_10 (key t : Nat) (ht : t < 2 ^ 64) :
    (key_schedule key t).getD 10 0
      = normalize_round_key_10 ((key_schedule key 0).getD 10 0)
          ((key_schedule key 0).getD 9 0 % 256) t :=
  key_schedule_10_tweak key t ht

theorem C7_round_key_10_witness :
    (key_schedule 0x2b7e151628aed2a6abf7158809cf4f3c 0x543bd88000017550).getD 10 0
      = normalize_round_key_10 ((key_schedule 0x2b7e151628aed2a6abf7158809cf4f3c 0).getD 10 0)
          ((key_schedule 0x2b7e151628aed2a6abf7158809cf4f3c 0).getD 9 0 % 256)
          0x543bd88000017550 :=
  C7_round_key_10 0x2b7e151628aed2a6abf7158809cf4f3c 0x543bd88000017550 (by decide)

/-- C8: after `generate_tables`, the table-driven `linear_layer` is `mix_columns` after
`rotate_rows` on every 24-bit state. -/
theorem C8_linear_layer_tables (s : Nat) (hs : s < 2 ^ 24) :
    linear_layer generate_tables s = mix_columns (rotate_rows s) :=
  linear_layer_eq s hs

theorem C8_linear_layer_tables_witness :
    linear_layer generate_tables 0xf3a08b = mix_columns (rotate_rows 0xf3a08b) :=
  C8_linear_layer_tables 0xf3a08b (by decide)

/-- C9: after `generate_tables`, `inv_linear_layer` undoes `linear_layer` on every 24-bit
state. -/
theorem C9_inv_linear_layer (s : Nat) (hs : s < 2 ^ 24) :
    inv_linear_layer generate_tables (linear_layer generate_tables s) = s :=
  inv_linear_layer_linear_layer s hs

theorem C9_inv_linear_layer_witness :
    inv_linear_layer generate_tables (linear_layer generate_tables 0xf3a08b) = 0xf3a08b :=
  C9_inv_linear_layer 0xf3a08b (by decide)

/-- C10: the component test vectors: `sub_bytes 0x7e47ce = 0xf3a08b`,
`rotate_rows 0xf3a08b = 0xf328b8` and `mix_columns 0xf328b8 = 0x6936ac`. -/
theorem C10_component_vectors :
    sub_bytes 0x7e47ce = 0xf3a08b ∧ rotate_rows 0xf3a08b = 0xf328b8
      ∧ mix_columns 0xf328b8 = 0x6936ac := by
  decide!

/-- C11: `inv_mix_columns` is the two-sided inverse of `mix_columns` on 24-bit states; the test
instance is `inv_mix_columns 0x6936ac = 0xf328b8`. -/
theorem C11_inv_mix_columns (s : Nat) (hs : s < 2 ^ 24) :
    inv_mix_columns (mix_columns s) = s ∧ mix_columns (inv_mix_columns s) = s
      ∧ inv_mix_columns 0x6936ac = 0xf328b8 :=
  ⟨inv_mix_columns_mix_columns s hs, mix_columns_inv_mix_columns s hs, by decide!⟩

theorem C11_inv_mix_columns_witness :
    inv_mix_columns (mix_columns 0xf328b8) = 0xf328b8
      ∧ mix_columns (inv_mix_columns 0xf328b8) = 0xf328b8
      ∧ inv_mix_columns 0x6936ac = 0xf328b8 :=
  C11_inv_mix_columns 0xf328b8 (by decide)

/-- C12: `inv_sub_bytes` is the two-sided inverse of `sub_bytes` on 24-bit states, the tables
`SBOX` and `inv_SBOX` being mutually inverse on the bytes, with byte entries; the test instance
is `inv_sub_bytes 0xf3a08b = 0x7e47ce`. -/
theorem C12_inv_sub_bytes :
    (∀ s : Nat, s < 2 ^ 24 → inv_sub_bytes (sub_bytes s) = s ∧ sub_bytes (inv_sub_bytes s) = s)
      ∧ (∀ x : Nat, x < 256 → SBOX.getD x 0 < 256 ∧ inv_SBOX.getD x 0 < 256
          ∧ inv_SBOX.getD (SBOX.getD x 0) 0 = x ∧ SBOX.getD (inv_SBOX.getD x 0) 0 = x)
      ∧ inv_sub_bytes 0xf3a08b = 0x7e47ce :=
  ⟨fun s hs => ⟨inv_sub_bytes_sub_bytes s hs, sub_bytes_inv_sub_bytes s hs⟩,
    fun x hx => ⟨SBOX_lt x hx, inv_SBOX_lt x hx, inv_SBOX_SBOX x hx, SBOX_inv_SBOX x hx⟩,
    by decide!⟩

theorem C12_inv_sub_bytes_witness :
    (inv_sub_bytes (sub_bytes 0x7e47ce) = 0x7e47ce
        ∧ sub_bytes (inv_sub_bytes 0x7e47ce) = 0x7e47ce)
      ∧ (SBOX.getD 0x53 0 < 256 ∧ inv_SBOX.getD 0x53 0 < 256
          ∧ inv_SBOX.getD (SBOX.getD 0x53 0) 0 = 0x53
          ∧ SBOX.getD (inv_SBOX.getD 0x53 0) 0 = 0x53) :=
  ⟨C12_inv_sub_bytes.1 0x7e47ce (by decide), C12_inv_sub_bytes.2.1 0x53 (by decide)⟩

/-- C13: for every 256-bit vector `S` and all bytes `a`, `b`,
`subset_shift (subset_shift S a) b = subset_shift S (a ^ b)`, and `subset_shift S 0 = S`. -/
theorem C13_subset_shift_compose (S a b : Nat) (hS : S < 2 ^ 256) (ha : a < 256)
    (hb : b < 256) :
    subset_shift (subset_shift S a) b = subset_shift S (a ^^^ b) ∧ subset_shift S 0 = S :=
  ⟨subset_shift_shift S a b hS ha hb, subset_shift_zero S⟩

theorem C13_subset_shift_compose_witness :
    subset_shift (subset_shift 0x8000000000000001000000000000f00000000000000000300123456789abcdef
        0x5a) 0xc3
      = subset_shift 0x8000000000000001000000000000f00000000000000000300123456789abcdef
          (0x5a ^^^ 0xc3)
    ∧ subset_shift 0x8000000000000001000000000000f00000000000000000300123456789abcdef 0
      = 0x8000000000000001000000000000f00000000000000000300123456789abcdef :=
  C13_subset_shift_compose 0x8000000000000001000000000000f00000000000000000300123456789abcdef
    0x5a 0xc3 (by decide) (by decide) (by decide)

/-- C14: for every vector `S` and every byte `c`,
`subset_size (subset_shift S c) = subset_size S`. -/
theorem C14_subset_size_shift (S c : Nat) (hc : c < 256) :
    subset_size (subset_shift S c) = subset_size S :=
  subset_size_shift S c hc

theorem C14_subset_size_shift_witness :
    subset_size
        (subset_shift 0x8000000000000001000000000000f00000000000000000300123456789abcdef 0x5a)
      = subset_size 0x8000000000000001000000000000f00000000000000000300123456789abcdef :=
  C14_subset_size_shift 0x8000000000000001000000000000f00000000000000000300123456789abcdef 0x5a
    (by decide)

/-- C15: for every 256-bit vector `A`, every vector `B` and every byte `c`,
`subset_shift (subset_intersect A B) c
  = subset_intersect (subset_shift A c) (subset_shift B c)`. -/
theorem C15_subset_shift_intersect (A B c : Nat) (hA : A < 2 ^ 256) (hc : c < 256) :
    subset_shift (subset_intersect A B) c
      = subset_intersect (subset_shift A c) (subset_shift B c) :=
  subset_shift_intersect A B c hA hc

theorem C15_subset_shift_intersect_witness :
    subset_shift
        (subset_intersect 0x8000000000000001000000000000f00000000000000000300123456789abcdef
          0xffff0000ffff0000ffff0000ffff0000ffff0000ffff0000ffff0000ffff0001) 0x5a
      = subset_intersect
          (subset_shift 0x8000000000000001000000000000f00000000000000000300123456789abcdef
            0x5a)
          (subset_shift 0xffff0000ffff0000ffff0000ffff0000ffff0000ffff0000ffff0000ffff0001
            0x5a) :=
  C15_subset_shift_intersect 0x8000000000000001000000000000f00000000000000000300123456789abcdef
    0xffff0000ffff0000ffff0000ffff0000ffff0000ffff0000ffff0000ffff0001 0x5a (by decide)
    (by decide)

/-- C16: for every vector `S`, the list `subset_get_elements S` is strictly ascending, its
length is `subset_size S`, and it contains `x` if and only if `x` is a byte and a member of
`S`. -/
theorem C16_subset_get_elements (S : Nat) :
    List.Pairwise (fun x y => x < y) (subset_get_elements S)
      ∧ (subset_get_elements S).length = subset_size S
      ∧ ∀ x, x ∈ subset_get_elements S ↔ x < 256 ∧ subset_mem S x = true :=
  ⟨pairwise_lt_get_elements S, by rw [subset_get_elements_eq, subset_size_eq],
    fun x => mem_get_elements_iff S x⟩

/-- C17: every normalisation is self-inverse: for every round key `k`, tweak `t` and round
`r ≤ 10`, `normalize_round_key (normalize_round_key k t r) t r = k`; and for every byte `b`,
`normalize_round_key_10 (normalize_round_key_10 k b t) b t = k`. -/
theorem C17_normalize_self_inverse (k t r b : Nat) (hr : r ≤ 10) :
    normalize_round_key (normalize_round_key k t r) t r = k
      ∧ normalize_round_key_10 (normalize_round_key_10 k b t) b t = k :=
  ⟨normalize_round_key_twice k t r hr, normalize_round_key_10_twice k b t⟩

theorem C17_normalize_self_inverse_witness :
    normalize_round_key (normalize_round_key 0x7605f2 0x543bd88000017550 6)
        0x543bd88000017550 6 = 0x7605f2
      ∧ normalize_round_key_10 (normalize_round_key_10 0x7605f2 0x5a 0x543bd88000017550) 0x5a
          0x543bd88000017550 = 0x7605f2 :=
  C17_normalize_self_inverse 0x7605f2 0x543bd88000017550 6 0x5a (by decide)

/-- C18: for every byte `din` and every `dout`, the list `DDTV_out[din][dout]` contains `y` if
and only if `y = SBOX[x]` for a byte `x` with `SBOX[x] ^ SBOX[x ^ din] = dout`; it contains no
value twice; and its length is the number of such `x`. -/
theorem C18_DDTV_out (din dout : Nat) (hd : din < 256) :
    (∀ y, y ∈ DDTV_out din dout ↔
        ∃ x, x < 256 ∧ SBOX.getD x 0 ^^^ SBOX.getD (x ^^^ din) 0 = dout ∧ y = SBOX.getD x 0)
      ∧ (DDTV_out din dout).Nodup
      ∧ (DDTV_out din dout).length
        = ((List.range 256).filter
            (fun x => decide (SBOX.getD x 0 ^^^ SBOX.getD (x ^^^ din) 0 = dout))).length :=
  ⟨fun y => mem_DDTV_out din dout y hd, nodup_DDTV_out din dout hd,
    length_DDTV_out din dout hd⟩

theorem C18_DDTV_out_witness :
    (∀ y, y ∈ DDTV_out 0x01 0x1f ↔
        ∃ x, x < 256 ∧ SBOX.getD x 0 ^^^ SBOX.getD (x ^^^ 0x01) 0 = 0x1f ∧ y = SBOX.getD x 0)
      ∧ (DDTV_out 0x01 0x1f).Nodup
      ∧ (DDTV_out 0x01 0x1f).length
        = ((List.range 256).filter
            (fun x => decide (SBOX.getD x 0 ^^^ SBOX.getD (x ^^^ 0x01) 0 = 0x1f))).length :=
  C18_DDTV_out 0x01 0x1f (by decide)

/-- C19: for every byte `din`, the lengths of the cells `DDTV_out[din][dout]`, `dout` from 0
to 255, add up to 256; the lengths of all the cells add up to 65536. -/
theorem C19_DDTV_out_row_sum (din : Nat) (hd : din < 256) :
    ((List.range 256).map (fun dout => (DDTV_out din dout).length)).sum = 256
      ∧ ((List.range 256).map (fun din' =>
          ((List.range 256).map (fun dout => (DDTV_out din' dout).length)).sum)).sum = 65536 :=
  ⟨sum_DDTV_out_row din hd, sum_DDTV_out⟩

theorem C19_DDTV_out_row_sum_witness :
    ((List.range 256).map (fun dout => (DDTV_out 0x5a dout).length)).sum = 256
      ∧ ((List.range 256).map (fun din' =>
          ((List.range 256).map (fun dout => (DDTV_out din' dout).length)).sum)).sum = 65536 :=
  C19_DDTV_out_row_sum 0x5a (by decide)

/-- C20: for all bytes `a`, `c` and every `b`, the precomputed cell `DDTV_out_shifted[a][b][c]`
is `subset_shift` of `DDTV_out_shifted[a][b][0]` by `c`; its members are the values `y ^ c`
for `y` in `DDTV_out[a][b]`. -/
theorem C20_DDTV_out_shifted (a b c : Nat) (ha : a < 256) (hc : c < 256) :
    DDTV_out_shifted a b c = subset_shift (DDTV_out_shifted a b 0) c
      ∧ ∀ x, subset_mem (DDTV_out_shifted a b c) x = true ↔ ∃ y ∈ DDTV_out a b, y ^^^ c = x :=
  ⟨DDTV_out_shifted_eq_shift a b c ha hc, fun x => by
    rw [subset_mem_eq]
    exact testBit_shifted_iff a b c x ha hc⟩

theorem C20_DDTV_out_shifted_witness :
    DDTV_out_shifted 0x01 0x1f 0x5a = subset_shift (DDTV_out_shifted 0x01 0x1f 0) 0x5a
      ∧ ∀ x, subset_mem (DDTV_out_shifted 0x01 0x1f 0x5a) x = true ↔
          ∃ y ∈ DDTV_out 0x01 0x1f, y ^^^ 0x5a = x :=
  C20_DDTV_out_shifted 0x01 0x1f 0x5a (by decide) (by decide)

/-- C21: for every byte `d`, the list `POSSIBLE_DELTA_Y[d]` is strictly ascending and contains
`dout` if and only if `dout` is a byte and `DDTV_out[d][dout]` is non-empty; and
`DDTV_out[d][dout]` is non-empty if and only if `SBOX[x] ^ SBOX[x ^ d] = dout` for some
byte `x`. -/
theorem C21_POSSIBLE_DELTA_Y (d : Nat) (hd : d < 256) :
    List.Pairwise (fun x y => x < y) (POSSIBLE_DELTA_Y d)
      ∧ (∀ dout, dout ∈ POSSIBLE_DELTA_Y d ↔ dout < 256 ∧ DDTV_out d dout ≠ [])
      ∧ (∀ dout, DDTV_out d dout ≠ [] ↔
          ∃ x, x < 256 ∧ SBOX.getD x 0 ^^^ SBOX.getD (x ^^^ d) 0 = dout) :=
  ⟨pairwise_lt_POSSIBLE_DELTA_Y d, fun dout => mem_POSSIBLE_DELTA_Y_nonempty d dout,
    fun dout => DDTV_out_ne_nil_iff d dout hd⟩

theorem C21_POSSIBLE_DELTA_Y_witness :
    List.Pairwise (fun x y => x < y) (POSSIBLE_DELTA_Y 0x5a)
      ∧ (∀ dout, dout ∈ POSSIBLE_DELTA_Y 0x5a ↔ dout < 256 ∧ DDTV_out 0x5a dout ≠ [])
      ∧ (∀ dout, DDTV_out 0x5a dout ≠ [] ↔
          ∃ x, x < 256 ∧ SBOX.getD x 0 ^^^ SBOX.getD (x ^^^ 0x5a) 0 = dout) :=
  C21_POSSIBLE_DELTA_Y 0x5a (by decide)

/-- C22: emission uniqueness. For a fixed anchor tweak `t0`, the map from a path
`(rk10_, L_inv_rk9_, rk8_0, rk8_1, rk8_2, L_inv_rk7_0)`, with `L_inv_rk9_` below `2 ^ 24` and
`rk8_0`, `rk8_1`, `rk8_2` bytes, to the printed tuple `emitted` is injective. -/
theorem C22_emission_unique
    (t0 rk10_ L_inv_rk9_ a0 a1 a2 l rk10_' L_inv_rk9_' b0 b1 b2 l' : Nat)
    (hL : L_inv_rk9_ < 2 ^ 24) (hL' : L_inv_rk9_' < 2 ^ 24)
    (ha0 : a0 < 256) (ha1 : a1 < 256) (ha2 : a2 < 256)
    (hb0 : b0 < 256) (hb1 : b1 < 256) (hb2 : b2 < 256)
    (h : emitted generate_tables t0 rk10_ L_inv_rk9_ a0 a1 a2 l
      = emitted generate_tables t0 rk10_' L_inv_rk9_' b0 b1 b2 l') :
    rk10_ = rk10_' ∧ L_inv_rk9_ = L_inv_rk9_' ∧ a0 = b0 ∧ a1 = b1 ∧ a2 = b2 ∧ l = l' :=
  emitted_injective t0 rk10_ L_inv_rk9_ a0 a1 a2 l rk10_' L_inv_rk9_' b0 b1 b2 l' hL hL'
    ha0 ha1 ha2 hb0 hb1 hb2 h

theorem C22_emission_unique_witness :
    (0x7605f2 : Nat) = 0x7605f2 ∧ (0x392a6c : Nat) = 0x392a6c ∧ (0x23 : Nat) = 0x23
      ∧ (0xa3 : Nat) = 0xa3 ∧ (0x39 : Nat) = 0x39 ∧ (0x73 : Nat) = 0x73 :=
  C22_emission_unique 0x543bd88000017550 0x7605f2 0x392a6c 0x23 0xa3 0x39 0x73
    0x7605f2 0x392a6c 0x23 0xa3 0x39 0x73 (by decide) (by decide) (by decide) (by decide)
    (by decide) (by decide) (by decide) (by decide) rfl

/-- C23: table indices stay in bounds. For every guess `(rk10_, L_inv_rk9_)`, every `rk8` and
every pair whose difference `d` is a byte, the values `x8[i]`, `x8_PRIME[i]` and
`delta_z7[i]` of the search body are below `2 ^ 24`, and the indices `delta_v7_0` and
`v7_0 ^ norm_7_0` into `DDTV_out_shifted` are below 256 (the first index is `d`). -/
theorem C23_indices_in_bounds (PAIRS : List pair_t) (rk10_ L_inv_rk9_ rk8 i : Nat)
    (hd : (PAIRS.getD i default).d < 256) :
    body_x8 generate_tables PAIRS rk10_ L_inv_rk9_ i < 2 ^ 24
      ∧ body_x8_PRIME generate_tables PAIRS rk10_ L_inv_rk9_ i < 2 ^ 24
      ∧ body_delta_z7 generate_tables PAIRS rk10_ L_inv_rk9_ i < 2 ^ 24
      ∧ body_delta_v7_0 generate_tables PAIRS rk10_ L_inv_rk9_ rk8 i < 256
      ∧ body_shift_index generate_tables PAIRS rk10_ L_inv_rk9_ rk8 i < 256 :=
  ⟨body_x8_lt _ _ _ _ _, body_x8_PRIME_lt _ _ _ _ _, body_delta_z7_lt _ _ _ _ _ hd,
    body_delta_v7_0_lt _ _ _ _ _ _, body_shift_index_lt _ _ _ _ _ _⟩

theorem C23_indices_in_bounds_witness :
    body_x8 generate_tables [pair_t.mk 0x010203 0x543bd88000017550 0x5a 0xf28c1e 0x6936ac]
        0xffffffff 0xfedcba98 0 < 2 ^ 24
      ∧ body_x8_PRIME generate_tables
          [pair_t.mk 0x010203 0x543bd88000017550 0x5a 0xf28c1e 0x6936ac]
          0xffffffff 0xfedcba98 0 < 2 ^ 24
      ∧ body_delta_z7 generate_tables
          [pair_t.mk 0x010203 0x543bd88000017550 0x5a 0xf28c1e 0x6936ac]
          0xffffffff 0xfedcba98 0 < 2 ^ 24
      ∧ body_delta_v7_0 generate_tables
          [pair_t.mk 0x010203 0x543bd88000017550 0x5a 0xf28c1e 0x6936ac]
          0xffffffff 0xfedcba98 0x23a339 0 < 256
      ∧ body_shift_index generate_tables
          [pair_t.mk 0x010203 0x543bd88000017550 0x5a 0xf28c1e 0x6936ac]
          0xffffffff 0xfedcba98 0x23a339 0 < 256 :=
  C23_indices_in_bounds [pair_t.mk 0x010203 0x543bd88000017550 0x5a 0xf28c1e 0x6936ac]
    0xffffffff 0xfedcba98 0x23a339 0 (by decide)

/-- C24: for every 24-bit state `s` and 24-bit round key `k`,
`inv_round_with_MC_inv_key s (inv_linear_layer k) = inv_round_with_MC s k`; and for every
24-bit `x`, `inv_round_with_MC (round_with_MC x k) k = x`. -/
theorem C24_inv_round_inv_key (s k x : Nat) (hs : s < 2 ^ 24) (hk : k < 2 ^ 24)
    (hx : x < 2 ^ 24) :
    inv_round_with_MC_inv_key generate_tables s (inv_linear_layer generate_tables k)
        = inv_round_with_MC generate_tables s k
      ∧ inv_round_with_MC generate_tables (round_with_MC generate_tables x k) k = x :=
  ⟨inv_round_with_MC_inv_key_eq s k hs hk, inv_round_with_MC_round_with_MC x k hx⟩

theorem C24_inv_round_inv_key_witness :
    inv_round_with_MC_inv_key generate_tables 0xf28c1e
        (inv_linear_layer generate_tables 0x392a6c)
        = inv_round_with_MC generate_tables 0xf28c1e 0x392a6c
      ∧ inv_round_with_MC generate_tables (round_with_MC generate_tables 0x010203 0x392a6c)
          0x392a6c = 0x010203 :=
  C24_inv_round_inv_key 0xf28c1e 0x392a6c 0x010203 (by decide) (by decide) (by decide)

/-- C25: the per-pair denormalisation. For every master key and 64-bit tweaks `t0`, `ti`, with
`A = key_schedule key t0` and `B = key_schedule key ti`:
`inv_linear_layer A[9] ^ inv_linear_layer (normalize_round_key 0 (t0 ^ ti) 9)
  = inv_linear_layer B[9]`, and `normalize_round_key_10` of
`normalize_round_key_10 A[10] (low byte of A[9]) t0`, the low byte of `B[9]` and `ti` is
`B[10]`. -/
theorem C25_denormalisation (key t0 ti : Nat) (h0 : t0 < 2 ^ 64) (hi : ti < 2 ^ 64) :
    inv_linear_layer generate_tables ((key_schedule key t0).getD 9 0)
        ^^^ inv_linear_layer generate_tables (normalize_round_key 0 (t0 ^^^ ti) 9)
        = inv_linear_layer generate_tables ((key_schedule key ti).getD 9 0)
      ∧ normalize_round_key_10
          (normalize_round_key_10 ((key_schedule key t0).getD 10 0)
            ((key_schedule key t0).getD 9 0 % 256) t0)
          ((key_schedule key ti).getD 9 0 % 256) ti
        = (key_schedule key ti).getD 10 0 :=
  ⟨transport_rk9 key t0 ti h0 hi, transport_rk10 key t0 ti h0 hi⟩

theorem C25_denormalisation_witness :
    inv_linear_layer generate_tables
          ((key_schedule 0x2b7e151628aed2a6abf7158809cf4f3c 0x543bd88000017550).getD 9 0)
        ^^^ inv_linear_layer generate_tables
          (normalize_round_key 0 (0x543bd88000017550 ^^^ 0x0123456789abcdef) 9)
        = inv_linear_layer generate_tables
          ((key_schedule 0x2b7e151628aed2a6abf7158809cf4f3c 0x0123456789abcdef).getD 9 0)
      ∧ normalize_round_key_10
          (normalize_round_key_10
            ((key_schedule 0x2b7e151628aed2a6abf7158809cf4f3c 0x543bd88000017550).getD 10 0)
            ((key_schedule 0x2b7e151628aed2a6abf7158809cf4f3c 0x543bd88000017550).getD 9 0
              % 256) 0x543bd88000017550)
          ((key_schedule 0x2b7e151628aed2a6abf7158809cf4f3c 0x0123456789abcdef).getD 9 0
            % 256) 0x0123456789abcdef
        = (key_schedule 0x2b7e151628aed2a6abf7158809cf4f3c 0x0123456789abcdef).getD 10 0 :=
  C25_denormalisation 0x2b7e151628aed2a6abf7158809cf4f3c 0x543bd88000017550
    0x0123456789abcdef (by decide) (by decide)

/-- C26: for all 24-bit `a`, `b`, the functions `mix_columns`, `linear_layer` and
`inv_linear_layer` map `a ^ b` to the XOR of the images of `a` and `b`. -/
theorem C26_linear (a b : Nat) (ha : a < 2 ^ 24) (hb : b < 2 ^ 24) :
    mix_columns (a ^^^ b) = mix_columns a ^^^ mix_columns b
      ∧ linear_layer generate_tables (a ^^^ b)
        = linear_layer generate_tables a ^^^ linear_layer generate_tables b
      ∧ inv_linear_layer generate_tables (a ^^^ b)
        = inv_linear_layer generate_tables a ^^^ inv_linear_layer generate_tables b :=
  ⟨mix_columns_xor a b, linear_layer_xor a b ha hb, inv_linear_layer_xor a b ha hb⟩

theorem C26_linear_witness :
    mix_columns (0xf328b8 ^^^ 0x6936ac) = mix_columns 0xf328b8 ^^^ mix_columns 0x6936ac
      ∧ linear_layer generate_tables (0xf328b8 ^^^ 0x6936ac)
        = linear_layer generate_tables 0xf328b8 ^^^ linear_layer generate_tables 0x6936ac
      ∧ inv_linear_layer generate_tables (0xf328b8 ^^^ 0x6936ac)
        = inv_linear_layer generate_tables 0xf328b8
          ^^^ inv_linear_layer generate_tables 0x6936ac :=
  C26_linear 0xf328b8 0x6936ac (by decide) (by decide)

/-- C27: the related-tweak round-key differences. For every master key, 64-bit tweak `t` and
byte `d`, with `A = key_schedule key t` and `B = key_schedule key (t ^ (d << 40))`:
`B[0] = A[0] ^ d`, `B[r] = A[r]` for `r = 1, 2, 3, 4, 5, 9`, `B[6] = A[6] ^ (d << 16)`,
`B[7] = A[7] ^ (d << 8)`, `B[8] = A[8] ^ d` and `B[10] = A[10] ^ (d << 16)`. -/
theorem C27_related_tweak_keys (key t d : Nat) (ht : t < 2 ^ 64) (hd : d < 256) :
    (key_schedule key (t ^^^ (d <<< 40))).getD 0 0 = (key_schedule key t).getD 0 0 ^^^ d
      ∧ (key_schedule key (t ^^^ (d <<< 40))).getD 1 0 = (key_schedule key t).getD 1 0
      ∧ (key_schedule key (t ^^^ (d <<< 40))).getD 2 0 = (key_schedule key t).getD 2 0
      ∧ (key_schedule key (t ^^^ (d <<< 40))).getD 3 0 = (key_schedule key t).getD 3 0
      ∧ (key_schedule key (t ^^^ (d <<< 40))).getD 4 0 = (key_schedule key t).getD 4 0
      ∧ (key_schedule key (t ^^^ (d <<< 40))).getD 5 0 = (key_schedule key t).getD 5 0
      ∧ (key_schedule key (t ^^^ (d <<< 40))).getD 6 0
        = (key_schedule key t).getD 6 0 ^^^ (d <<< 16)
      ∧ (key_schedule key (t ^^^ (d <<< 40))).getD 7 0
        = (key_schedule key t).getD 7 0 ^^^ (d <<< 8)
      ∧ (key_schedule key (t ^^^ (d <<< 40))).getD 8 0 = (key_schedule key t).getD 8 0 ^^^ d
      ∧ (key_schedule key (t ^^^ (d <<< 40))).getD 9 0 = (key_schedule key t).getD 9 0
      ∧ (key_schedule key (t ^^^ (d <<< 40))).getD 10 0
        = (key_schedule key t).getD 10 0 ^^^ (d <<< 16) :=
  ⟨key_schedule_related key t d 0 (by decide) hd,
    (key_schedule_related key t d 1 (by decide) hd).trans (Nat.xor_zero _),
    (key_schedule_related key t d 2 (by decide) hd).trans (Nat.xor_zero _),
    (key_schedule_related key t d 3 (by decide) hd).trans (Nat.xor_zero _),
    (key_schedule_related key t d 4 (by decide) hd).trans (Nat.xor_zero _),
    (key_schedule_related key t d 5 (by decide) hd).trans (Nat.xor_zero _),
    key_schedule_related key t d 6 (by decide) hd,
    key_schedule_related key t d 7 (by decide) hd,
    key_schedule_related key t d 8 (by decide) hd,
    (key_schedule_related key t d 9 (by decide) hd).trans (Nat.xor_zero _),
    key_schedule_related_10 key t d ht hd⟩

theorem C27_related_tweak_keys_witness :
    (key_schedule 0x2b7e151628aed2a6abf7158809cf4f3c
        (0x543bd88000017550 ^^^ (0x5a <<< 40))).getD 8 0
      = (key_schedule 0x2b7e151628aed2a6abf7158809cf4f3c 0x543bd88000017550).getD 8 0
        ^^^ 0x5a :=
  (C27_related_tweak_keys 0x2b7e151628aed2a6abf7158809cf4f3c 0x543bd88000017550 0x5a
    (by decide) (by decide)).2.2.2.2.2.2.2.2.1

/-- C28: the differential holds with certainty. For every master key, plaintext `p`, tweak `t`
and byte `d`: `encrypt p key t` and `encrypt (p ^ d) key (t ^ (d << 40))` are the last round
applied to the states `enc_state` after nine rounds; these states are equal after the key
addition and `n` rounds, `n ≤ 5`; and after six rounds they differ by `d << 16`. -/
theorem C28_differential (key p t d n : Nat) (hd : d < 256) (hn : n ≤ 5) :
    encrypt generate_tables p key t
        = round_no_MC (enc_state generate_tables (key_schedule key t) p 9)
            ((key_schedule key t).getD 10 0)
      ∧ encrypt generate_tables (p ^^^ d) key (t ^^^ (d <<< 40))
        = round_no_MC
            (enc_state generate_tables (key_schedule key (t ^^^ (d <<< 40))) (p ^^^ d) 9)
            ((key_schedule key (t ^^^ (d <<< 40))).getD 10 0)
      ∧ enc_state generate_tables (key_schedule key (t ^^^ (d <<< 40))) (p ^^^ d) n
        = enc_state generate_tables (key_schedule key t) p n
      ∧ enc_state generate_tables (key_schedule key (t ^^^ (d <<< 40))) (p ^^^ d) 6
        = enc_state generate_tables (key_schedule key t) p 6 ^^^ (d <<< 16) :=
  ⟨encrypt_eq _ _ _ _, encrypt_eq _ _ _ _, trail_equal key p t d n hd hn, trail_6 key p t d hd⟩

theorem C28_differential_witness :
    enc_state generate_tables
        (key_schedule 0x2b7e151628aed2a6abf7158809cf4f3c
          (0x543bd88000017550 ^^^ (0x5a <<< 40))) (0x010203 ^^^ 0x5a) 6
      = enc_state generate_tables
          (key_schedule 0x2b7e151628aed2a6abf7158809cf4f3c 0x543bd88000017550) 0x010203 6
        ^^^ (0x5a <<< 16) :=
  (C28_differential 0x2b7e151628aed2a6abf7158809cf4f3c 0x010203 0x543bd88000017550 0x5a 5
    (by decide) (by decide)).2.2.2

/-- C29: for the rounds `r = 7, 8, 9`, every master key and every 64-bit tweak `t`,
`key_schedule key t` has round key `r` equal to the round key `r` of `key_schedule key 0`
XORed with `normalize_round_key 0 t r`. -/
theorem C29_round_constants (key t : Nat) (ht : t < 2 ^ 64) :
    (key_schedule key t).getD 7 0
        = (key_schedule key 0).getD 7 0 ^^^ normalize_round_key 0 t 7
      ∧ (key_schedule key t).getD 8 0
        = (key_schedule key 0).getD 8 0 ^^^ normalize_round_key 0 t 8
      ∧ (key_schedule key t).getD 9 0
        = (key_schedule key 0).getD 9 0 ^^^ normalize_round_key 0 t 9 :=
  ⟨key_schedule_constant key t 7 (by decide) (by decide) ht,
    key_schedule_constant key t 8 (by decide) (by decide) ht,
    key_schedule_constant key t 9 (by decide) (by decide) ht⟩

theorem C29_round_constants_witness :
    (key_schedule 0x2b7e151628aed2a6abf7158809cf4f3c 0x543bd88000017550).getD 7 0
        = (key_schedule 0x2b7e151628aed2a6abf7158809cf4f3c 0).getD 7 0
          ^^^ normalize_round_key 0 0x543bd88000017550 7
      ∧ (key_schedule 0x2b7e151628aed2a6abf7158809cf4f3c 0x543bd88000017550).getD 8 0
        = (key_schedule 0x2b7e151628aed2a6abf7158809cf4f3c 0).getD 8 0
          ^^^ normalize_round_key 0 0x543bd88000017550 8
      ∧ (key_schedule 0x2b7e151628aed2a6abf7158809cf4f3c 0x543bd88000017550).getD 9 0
        = (key_schedule 0x2b7e151628aed2a6abf7158809cf4f3c 0).getD 9 0
          ^^^ normalize_round_key 0 0x543bd88000017550 9 :=
  C29_round_constants 0x2b7e151628aed2a6abf7158809cf4f3c 0x543bd88000017550 (by decide)

/-- C30: the three lanes of a cell of `T` are empty together: for every pair index `i` and
every `dz`, `T[i][dz][0]` is empty if and only if `T[i][dz][1]` is, if and only if
`T[i][dz][2]` is. -/
theorem C30_T_lanes_empty_together (PAIRS : List pair_t) (i dz : Nat) :
    (subset_is_empty (build_T generate_tables PAIRS i dz 0) = true
        ↔ subset_is_empty (build_T generate_tables PAIRS i dz 1) = true)
      ∧ (subset_is_empty (build_T generate_tables PAIRS i dz 1) = true
        ↔ subset_is_empty (build_T generate_tables PAIRS i dz 2) = true) :=
  ⟨build_T_empty_lanes _ PAIRS i dz 0 1 (by decide) (by decide),
    build_T_empty_lanes _ PAIRS i dz 1 2 (by decide) (by decide)⟩

/-- C31: the counters do not change the result. For every guess `(rk10_, L_inv_rk9_)`, pairs,
tables and table `T`, the search body with `COUNTERS == 1` prints the same candidates, in the
same order, as the body with `COUNTERS == 0`; and both print nothing when one of the three lane
intersections is empty. -/
theorem C31_counters_same_result (LT : Tables) (PAIRS : List pair_t)
    (T : Nat → Nat → Nat → Nat) (rk10_ L_inv_rk9_ : Nat) :
    search_body true LT PAIRS T rk10_ L_inv_rk9_ = search_body false LT PAIRS T rk10_ L_inv_rk9_
      ∧ ((∃ j, j < 3
            ∧ subset_is_empty (body_intersection LT PAIRS T rk10_ L_inv_rk9_ j) = true) →
          search_body true LT PAIRS T rk10_ L_inv_rk9_ = []
            ∧ search_body false LT PAIRS T rk10_ L_inv_rk9_ = []) :=
  ⟨search_body_counters LT PAIRS T rk10_ L_inv_rk9_, fun ⟨j, hj, h⟩ =>
    ⟨search_body_empty_lane true LT PAIRS T rk10_ L_inv_rk9_ j hj h,
      search_body_empty_lane false LT PAIRS T rk10_ L_inv_rk9_ j hj h⟩⟩

theorem C31_counters_same_result_witness :
    search_body true generate_tables
        [pair_t.mk 0x010203 0x543bd88000017550 0x01 0xf28c1e 0x6936ac,
          pair_t.mk 0x7e47ce 0x0123456789abcdef 0x80 0xf3a08b 0xf328b8,
          pair_t.mk 0xf3a08b 0xfedcba9876543210 0x5a 0x010203 0x7e47ce]
        (fun _ _ _ => subset_init_empty) 0x7605f2 0x392a6c = []
      ∧ search_body false generate_tables
        [pair_t.mk 0x010203 0x543bd88000017550 0x01 0xf28c1e 0x6936ac,
          pair_t.mk 0x7e47ce 0x0123456789abcdef 0x80 0xf3a08b 0xf328b8,
          pair_t.mk 0xf3a08b 0xfedcba9876543210 0x5a 0x010203 0x7e47ce]
        (fun _ _ _ => subset_init_empty) 0x7605f2 0x392a6c = [] :=
  (C31_counters_same_result generate_tables
    [pair_t.mk 0x010203 0x543bd88000017550 0x01 0xf28c1e 0x6936ac,
      pair_t.mk 0x7e47ce 0x0123456789abcdef 0x80 0xf3a08b 0xf328b8,
      pair_t.mk 0xf3a08b 0xfedcba9876543210 0x5a 0x010203 0x7e47ce]
    (fun _ _ _ => subset_init_empty) 0x7605f2 0x392a6c).2 ⟨0, by decide, by decide!⟩

/-- C32, at the input where it fails: for the round key 0, the tweak `2 ^ 47` and round 6,
`normalize_round_key` returns `0x80000080`, which is not below `2 ^ 24`. -/
theorem C32_round_6_exceeds_24_bits :
    normalize_round_key 0 0x800000000000 6 = 0x80000080
      ∧ 2 ^ 24 ≤ normalize_round_key 0 0x800000000000 6 := by
  decide

end Halfloop
